import Mathlib

/-!
# Reconciliation core of the AzureAD provider: application passwords and directory role assignments

A shallow embedding of

* `internal/services/applications/application_password_resource.go`
* `internal/services/directoryroles/directory_role_assignment_resource.go`

Go strings are Lean strings, a Go `error` is an optional message, a pointer that may be nil is an
`Option`.  The remote directory service is an arbitrary state type `σ` threaded through every client
call, and every call (and lock operation) is appended to a trace, so that statements such as
"the add-password call is never submitted" are statements about that trace.
-/

set_option linter.dupNamespace false

namespace AzureAD

/-! ## Go values -/

/-- A Go `error` value: its message.  The nil error is `none` of `Option GoError`. -/
abbrev GoError := String

/-- Outcome of running Go code that may dereference a nil pointer: it returns, or it panics. -/
inductive Go (α : Type) where
  | ret (a : α)
  | panicked (msg : String)
  deriving Repr, DecidableEq

/-- Modelled from the spec: the vendored `nullable.Type[T]` of go-azure-sdk is not part of the
sources at hand.  A field of a remote model is omitted, sent as an explicit null, or carries a
value. -/
inductive Nullable (α : Type) where
  | unset
  | null
  | value (a : α)
  deriving Repr, DecidableEq

namespace Nullable

/-- Modelled from the spec: `IsNull` of the vendored nullable type, true for an explicit null. -/
def IsNull {α : Type} : Nullable α → Bool
  | .null => true
  | _ => false

/-- Modelled from the spec: `GetOrZero` of the vendored nullable type, the value when there is one
and the zero value of the type otherwise. -/
def GetOrZero {α : Type} [Inhabited α] : Nullable α → α
  | .value a => a
  | _ => default

/-- The Go test `field != nil` on a nullable field: the field was sent at all. -/
def IsSet {α : Type} : Nullable α → Bool
  | .unset => false
  | _ => true

end Nullable

/-- Go's `%q` on the strings that occur here (no character that needs escaping). -/
def quote (s : String) : String := "\"" ++ s ++ "\""

/-- The lower-case mappings of the runes above ASCII, as the case tables of Go's package
`unicode` give them (the simple lower-case mapping of the Unicode Character Database, version
14.0).  An entry `(lo, hi, stride, lower)` says that the runes `lo, lo + stride, ..., hi` have the
lower-case forms `lower, lower + stride, ...`; a rune in no entry is its own lower-case form. -/
def unicode.lowerRanges : List (Nat × Nat × Nat × Nat) :=
  [(0xC0, 0xD6, 1, 0xE0), (0xD8, 0xDE, 1, 0xF8), (0x100, 0x12E, 2, 0x101),
    (0x130, 0x130, 1, 0x69), (0x132, 0x136, 2, 0x133), (0x139, 0x147, 2, 0x13A),
    (0x14A, 0x176, 2, 0x14B), (0x178, 0x178, 1, 0xFF), (0x179, 0x17D, 2, 0x17A),
    (0x181, 0x181, 1, 0x253), (0x182, 0x184, 2, 0x183), (0x186, 0x186, 1, 0x254),
    (0x187, 0x187, 1, 0x188), (0x189, 0x18A, 1, 0x256), (0x18B, 0x18B, 1, 0x18C),
    (0x18E, 0x18E, 1, 0x1DD), (0x18F, 0x18F, 1, 0x259), (0x190, 0x190, 1, 0x25B),
    (0x191, 0x191, 1, 0x192), (0x193, 0x193, 1, 0x260), (0x194, 0x194, 1, 0x263),
    (0x196, 0x196, 1, 0x269), (0x197, 0x197, 1, 0x268), (0x198, 0x198, 1, 0x199),
    (0x19C, 0x19C, 1, 0x26F), (0x19D, 0x19D, 1, 0x272), (0x19F, 0x19F, 1, 0x275),
    (0x1A0, 0x1A4, 2, 0x1A1), (0x1A6, 0x1A6, 1, 0x280), (0x1A7, 0x1A7, 1, 0x1A8),
    (0x1A9, 0x1A9, 1, 0x283), (0x1AC, 0x1AC, 1, 0x1AD), (0x1AE, 0x1AE, 1, 0x288),
    (0x1AF, 0x1AF, 1, 0x1B0), (0x1B1, 0x1B2, 1, 0x28A), (0x1B3, 0x1B5, 2, 0x1B4),
    (0x1B7, 0x1B7, 1, 0x292), (0x1B8, 0x1B8, 1, 0x1B9), (0x1BC, 0x1BC, 1, 0x1BD),
    (0x1C4, 0x1C4, 1, 0x1C6), (0x1C5, 0x1C5, 1, 0x1C6), (0x1C7, 0x1C7, 1, 0x1C9),
    (0x1C8, 0x1C8, 1, 0x1C9), (0x1CA, 0x1CA, 1, 0x1CC), (0x1CB, 0x1DB, 2, 0x1CC),
    (0x1DE, 0x1EE, 2, 0x1DF), (0x1F1, 0x1F1, 1, 0x1F3), (0x1F2, 0x1F4, 2, 0x1F3),
    (0x1F6, 0x1F6, 1, 0x195), (0x1F7, 0x1F7, 1, 0x1BF), (0x1F8, 0x21E, 2, 0x1F9),
    (0x220, 0x220, 1, 0x19E), (0x222, 0x232, 2, 0x223), (0x23A, 0x23A, 1, 0x2C65),
    (0x23B, 0x23B, 1, 0x23C), (0x23D, 0x23D, 1, 0x19A), (0x23E, 0x23E, 1, 0x2C66),
    (0x241, 0x241, 1, 0x242), (0x243, 0x243, 1, 0x180), (0x244, 0x244, 1, 0x289),
    (0x245, 0x245, 1, 0x28C), (0x246, 0x24E, 2, 0x247), (0x370, 0x372, 2, 0x371),
    (0x376, 0x376, 1, 0x377), (0x37F, 0x37F, 1, 0x3F3), (0x386, 0x386, 1, 0x3AC),
    (0x388, 0x38A, 1, 0x3AD), (0x38C, 0x38C, 1, 0x3CC), (0x38E, 0x38F, 1, 0x3CD),
    (0x391, 0x3A1, 1, 0x3B1), (0x3A3, 0x3AB, 1, 0x3C3), (0x3CF, 0x3CF, 1, 0x3D7),
    (0x3D8, 0x3EE, 2, 0x3D9), (0x3F4, 0x3F4, 1, 0x3B8), (0x3F7, 0x3F7, 1, 0x3F8),
    (0x3F9, 0x3F9, 1, 0x3F2), (0x3FA, 0x3FA, 1, 0x3FB), (0x3FD, 0x3FF, 1, 0x37B),
    (0x400, 0x40F, 1, 0x450), (0x410, 0x42F, 1, 0x430), (0x460, 0x480, 2, 0x461),
    (0x48A, 0x4BE, 2, 0x48B), (0x4C0, 0x4C0, 1, 0x4CF), (0x4C1, 0x4CD, 2, 0x4C2),
    (0x4D0, 0x52E, 2, 0x4D1), (0x531, 0x556, 1, 0x561), (0x10A0, 0x10C5, 1, 0x2D00),
    (0x10C7, 0x10C7, 1, 0x2D27), (0x10CD, 0x10CD, 1, 0x2D2D), (0x13A0, 0x13EF, 1, 0xAB70),
    (0x13F0, 0x13F5, 1, 0x13F8), (0x1C90, 0x1CBA, 1, 0x10D0), (0x1CBD, 0x1CBF, 1, 0x10FD),
    (0x1E00, 0x1E94, 2, 0x1E01), (0x1E9E, 0x1E9E, 1, 0xDF), (0x1EA0, 0x1EFE, 2, 0x1EA1),
    (0x1F08, 0x1F0F, 1, 0x1F00), (0x1F18, 0x1F1D, 1, 0x1F10), (0x1F28, 0x1F2F, 1, 0x1F20),
    (0x1F38, 0x1F3F, 1, 0x1F30), (0x1F48, 0x1F4D, 1, 0x1F40), (0x1F59, 0x1F5F, 2, 0x1F51),
    (0x1F68, 0x1F6F, 1, 0x1F60), (0x1F88, 0x1F8F, 1, 0x1F80), (0x1F98, 0x1F9F, 1, 0x1F90),
    (0x1FA8, 0x1FAF, 1, 0x1FA0), (0x1FB8, 0x1FB9, 1, 0x1FB0), (0x1FBA, 0x1FBB, 1, 0x1F70),
    (0x1FBC, 0x1FBC, 1, 0x1FB3), (0x1FC8, 0x1FCB, 1, 0x1F72), (0x1FCC, 0x1FCC, 1, 0x1FC3),
    (0x1FD8, 0x1FD9, 1, 0x1FD0), (0x1FDA, 0x1FDB, 1, 0x1F76), (0x1FE8, 0x1FE9, 1, 0x1FE0),
    (0x1FEA, 0x1FEB, 1, 0x1F7A), (0x1FEC, 0x1FEC, 1, 0x1FE5), (0x1FF8, 0x1FF9, 1, 0x1F78),
    (0x1FFA, 0x1FFB, 1, 0x1F7C), (0x1FFC, 0x1FFC, 1, 0x1FF3), (0x2126, 0x2126, 1, 0x3C9),
    (0x212A, 0x212A, 1, 0x6B), (0x212B, 0x212B, 1, 0xE5), (0x2132, 0x2132, 1, 0x214E),
    (0x2160, 0x216F, 1, 0x2170), (0x2183, 0x2183, 1, 0x2184), (0x24B6, 0x24CF, 1, 0x24D0),
    (0x2C00, 0x2C2F, 1, 0x2C30), (0x2C60, 0x2C60, 1, 0x2C61), (0x2C62, 0x2C62, 1, 0x26B),
    (0x2C63, 0x2C63, 1, 0x1D7D), (0x2C64, 0x2C64, 1, 0x27D), (0x2C67, 0x2C6B, 2, 0x2C68),
    (0x2C6D, 0x2C6D, 1, 0x251), (0x2C6E, 0x2C6E, 1, 0x271), (0x2C6F, 0x2C6F, 1, 0x250),
    (0x2C70, 0x2C70, 1, 0x252), (0x2C72, 0x2C72, 1, 0x2C73), (0x2C75, 0x2C75, 1, 0x2C76),
    (0x2C7E, 0x2C7F, 1, 0x23F), (0x2C80, 0x2CE2, 2, 0x2C81), (0x2CEB, 0x2CED, 2, 0x2CEC),
    (0x2CF2, 0x2CF2, 1, 0x2CF3), (0xA640, 0xA66C, 2, 0xA641), (0xA680, 0xA69A, 2, 0xA681),
    (0xA722, 0xA72E, 2, 0xA723), (0xA732, 0xA76E, 2, 0xA733), (0xA779, 0xA77B, 2, 0xA77A),
    (0xA77D, 0xA77D, 1, 0x1D79), (0xA77E, 0xA786, 2, 0xA77F), (0xA78B, 0xA78B, 1, 0xA78C),
    (0xA78D, 0xA78D, 1, 0x265), (0xA790, 0xA792, 2, 0xA791), (0xA796, 0xA7A8, 2, 0xA797),
    (0xA7AA, 0xA7AA, 1, 0x266), (0xA7AB, 0xA7AB, 1, 0x25C), (0xA7AC, 0xA7AC, 1, 0x261),
    (0xA7AD, 0xA7AD, 1, 0x26C), (0xA7AE, 0xA7AE, 1, 0x26A), (0xA7B0, 0xA7B0, 1, 0x29E),
    (0xA7B1, 0xA7B1, 1, 0x287), (0xA7B2, 0xA7B2, 1, 0x29D), (0xA7B3, 0xA7B3, 1, 0xAB53),
    (0xA7B4, 0xA7C2, 2, 0xA7B5), (0xA7C4, 0xA7C4, 1, 0xA794), (0xA7C5, 0xA7C5, 1, 0x282),
    (0xA7C6, 0xA7C6, 1, 0x1D8E), (0xA7C7, 0xA7C9, 2, 0xA7C8), (0xA7D0, 0xA7D0, 1, 0xA7D1),
    (0xA7D6, 0xA7D8, 2, 0xA7D7), (0xA7F5, 0xA7F5, 1, 0xA7F6), (0xFF21, 0xFF3A, 1, 0xFF41),
    (0x10400, 0x10427, 1, 0x10428), (0x104B0, 0x104D3, 1, 0x104D8),
    (0x10570, 0x10594, 2, 0x10597), (0x10571, 0x1057A, 1, 0x10598),
    (0x1057D, 0x1058A, 1, 0x105A4), (0x1058D, 0x10592, 1, 0x105B4),
    (0x10595, 0x10595, 1, 0x105BC), (0x10C80, 0x10CB2, 1, 0x10CC0),
    (0x118A0, 0x118BF, 1, 0x118C0), (0x16E40, 0x16E5F, 1, 0x16E60),
    (0x1E900, 0x1E921, 1, 0x1E922)]

/-- Go's `unicode.ToLower`: the lower-case form of one rune.  ASCII is handled first, as in Go;
note `U+0130` (capital I with dot above), whose lower-case form is the ASCII letter `i`. -/
def unicode.ToLower (r : Char) : Char :=
  if r.toNat < 128 then r.toLower
  else
    match unicode.lowerRanges.find? (fun e =>
        decide (e.1 ≤ r.toNat) && decide (r.toNat ≤ e.2.1) && (r.toNat - e.1) % e.2.2.1 == 0) with
    | some e => Char.ofNat (e.2.2.2 + (r.toNat - e.1))
    | none => r

/-- The runes above ASCII whose orbit under Unicode simple case folding is not the orbit of their
lower-case form, each with the representative of its orbit: lower-case letters that fold to
another letter (the long s `U+017F` folds to `s`, the micro sign to the Greek mu, ...), and
`U+0130`, which folds to nothing but itself although its lower-case form is `i`. -/
def unicode.foldExceptions : List (Nat × Nat) :=
  [(0xB5, 0x3BC), (0x130, 0x130), (0x17F, 0x73), (0x345, 0x3B9), (0x3C2, 0x3C3), (0x3D0, 0x3B2),
    (0x3D1, 0x3B8), (0x3D5, 0x3C6), (0x3D6, 0x3C0), (0x3F0, 0x3BA), (0x3F1, 0x3C1),
    (0x3F5, 0x3B5), (0x1C80, 0x432), (0x1C81, 0x434), (0x1C82, 0x43E), (0x1C83, 0x441),
    (0x1C84, 0x442), (0x1C85, 0x442), (0x1C86, 0x44A), (0x1C87, 0x463), (0x1C88, 0xA64B),
    (0x1E9B, 0x1E61), (0x1FBE, 0x3B9)]

/-- The representative of a rune's orbit under Unicode simple case folding, the orbits that Go's
`unicode.SimpleFold` walks: the lower-case form of the rune, except for the runes of
`unicode.foldExceptions`.  Two runes are equal under folding exactly when they have the same
representative (`K`, `k` and the Kelvin sign `U+212A` share `k`). -/
def foldChar (c : Char) : Char :=
  if c.toNat < 128 then c.toLower
  else
    match unicode.foldExceptions.lookup c.toNat with
    | some n => Char.ofNat n
    | none => unicode.ToLower c

/-- Go's `strings.EqualFold`: the two strings have the same number of runes and their runes are
pairwise equal under Unicode simple case folding. -/
def EqualFold (s t : String) : Bool := s.toList.map foldChar == t.toList.map foldChar

/-! ## Identity codec -/

/-- A hexadecimal digit, in either letter case. -/
def isHexDigit (c : Char) : Bool :=
  ('0' ≤ c && c ≤ '9') || ('a' ≤ c && c ≤ 'f') || ('A' ≤ c && c ≤ 'F')

/-- The shape of a UUID string: `true` marks the four positions of a dash, `false` a position of
a hexadecimal digit (8-4-4-4-12). -/
def uuidShape : List Bool :=
  List.replicate 8 false ++ [true] ++ List.replicate 4 false ++ [true] ++
  List.replicate 4 false ++ [true] ++ List.replicate 4 false ++ [true] ++
  List.replicate 12 false

/-- One character of a UUID string against its position in `uuidShape`. -/
def uuidCharOk (dash : Bool) (c : Char) : Bool :=
  if dash then c == '-' else isHexDigit c

/-- The characters of a UUID-shaped string: 36 of them, dashes at positions 8, 13, 18 and 23 and
hexadecimal digits elsewhere. -/
def isUUIDChars (cs : List Char) : Bool :=
  cs.length == uuidShape.length && (List.zipWith uuidCharOk uuidShape cs).all id

/-- Modelled from the spec: `uuid.ParseUUID` of the vendored go-uuid package is not part of the
sources at hand; the spec asks for a "UUID-shaped string".  Returns the nil error exactly on the
canonical 36-character form. -/
def uuid.ParseUUID (s : String) : Option GoError :=
  if s.toList.length ≠ 36 then some "uuid string is wrong length"
  else if isUUIDChars s.toList then none
  else some "uuid is improperly formatted"

/-- Modelled from the spec: the structured application ID of the vendored SDK
(`stable.ApplicationId`); it carries the application's object id. -/
structure ApplicationId where
  ApplicationId : String
  deriving Repr, DecidableEq

/-- Modelled from the spec: `stable.NewApplicationID`. -/
def NewApplicationID (applicationId : String) : ApplicationId := ⟨applicationId⟩

/-- The fixed leading segment of a structured application ID. -/
def applicationsSegment : List Char := "/applications/".toList

/-- Modelled from the spec: the string form of the structured application ID, the resource path
`/applications/<applicationId>`. -/
def ApplicationId.ID (id : AzureAD.ApplicationId) : String := "/applications/" ++ id.ApplicationId

/-- Modelled from the spec: `ParseApplicationID` (both `stable.ParseApplicationID` and
`parse.ParseApplicationID`), absent from the sources at hand.  Decoding is strict on the segment
count: the input is `/applications/` followed by one non-empty segment without a slash. -/
def ParseApplicationID (input : String) : Except GoError ApplicationId :=
  let cs := input.toList
  if applicationsSegment.isPrefixOf cs then
    let rest := cs.drop applicationsSegment.length
    if rest.isEmpty then .error "parsing the ApplicationId: the segment applicationId was empty"
    else if rest.contains '/' then .error "parsing the ApplicationId: unexpected segment"
    else .ok ⟨String.mk rest⟩
  else .error "parsing the ApplicationId: expected the segment applications"

/-- The `DiffSuppressFunc` of the `application_object_id` attribute
(`application_password_resource.go`, lines 71-84): true when the old value is a bare UUID and the
new value is a structured application ID of that same UUID. -/
def applicationObjectIdDiffSuppressFunc (oldValue newValue : String) : Bool :=
  match uuid.ParseUUID oldValue with
  | none =>
    match ParseApplicationID newValue with
    | .ok applicationId =>
      if applicationId.ApplicationId = oldValue then true else false
    | .error _ => false
  | some _ => false

/-- The composite identity of a credential: `<objectId>/<keyType>/<keyId>`. -/
structure CredentialId where
  ObjectId : String
  KeyType : String
  KeyId : String
  deriving Repr, DecidableEq

/-- Modelled from the spec: `parse.NewCredentialID`, absent from the sources at hand. -/
def parse.NewCredentialID (objectId keyType keyId : String) : CredentialId :=
  ⟨objectId, keyType, keyId⟩

/-- Modelled from the spec: the identity string format `<parentObjectId>/<kind-tag>/<serverKey>`,
three slash-delimited segments. -/
def CredentialId.String (id : CredentialId) : String :=
  id.ObjectId ++ "/" ++ id.KeyType ++ "/" ++ id.KeyId

/-- The segments of a slash-delimited string. -/
def splitSlash : List Char → List (List Char)
  | [] => [[]]
  | c :: cs =>
    if c = '/' then [] :: splitSlash cs
    else
      match splitSlash cs with
      | [] => [[c]]
      | seg :: segs => (c :: seg) :: segs

/-- Modelled from the spec: `parse.PasswordID`, absent from the sources at hand.  Decoding is
strict on the segment count (exactly three), rejects empty segments, wants the kind tag `password`
and a UUID-shaped parent object id. -/
def parse.PasswordID (idString : String) : Except GoError CredentialId :=
  match splitSlash idString.toList with
  | [objectId, keyType, keyId] =>
    if objectId.isEmpty || keyType.isEmpty || keyId.isEmpty then
      .error "unable to parse password credential ID: empty segment"
    else if (uuid.ParseUUID (String.mk objectId)).isSome then
      .error "unable to parse password credential ID: Object ID isn't a valid UUID"
    else if String.mk keyType ≠ "password" then
      .error "unable to parse password credential ID: unexpected type"
    else .ok ⟨String.mk objectId, String.mk keyType, String.mk keyId⟩
  | _ => .error "unable to parse password credential ID: expected objectId/type/subId"

/-! ## Diagnostics and resource data -/

/-- Severity of a diagnostic. -/
inductive Severity where
  | Error
  | Warning
  deriving Repr, DecidableEq

/-- One diagnostic returned to the orchestration framework. -/
structure Diagnostic where
  Severity : Severity
  Summary : String
  Detail : String
  AttributePath : List String
  deriving Repr, DecidableEq

/-- The diagnostics of a lifecycle operation; the empty list is Go's `nil`, "no error". -/
abbrev Diagnostics := List Diagnostic

/-- A lifecycle operation failed when its diagnostics hold an error. -/
def Diagnostics.HasError (diags : Diagnostics) : Bool :=
  diags.any fun dg => dg.Severity == Severity.Error

/-- Modelled from the spec: `tf.ErrorDiagPathF`, absent from the sources at hand.  One error
diagnostic with the formatted summary, the message of `err` (when not nil) as its detail, attached
to the attribute `attr` (when not empty). -/
def tf.ErrorDiagPathF (err : Option GoError) (attr : String) (summary : String) : Diagnostics :=
  [{ Severity := Severity.Error, Summary := summary, Detail := err.getD "",
     AttributePath := if attr = "" then [] else [attr] }]

/-- Modelled from the spec: `tf.ErrorDiagF`, absent from the sources at hand: an error diagnostic
attached to no attribute. -/
def tf.ErrorDiagF (err : Option GoError) (summary : String) : Diagnostics :=
  tf.ErrorDiagPathF err "" summary

/-- The local state of one resource: its identity and its (string) attributes.  An attribute that
was never set reads as the empty string. -/
structure ResourceData where
  Id : String
  attrs : List (String × String)
  deriving Repr, DecidableEq

namespace ResourceData

/-- The attribute read `d.Get(key).(string)`. -/
def Get (d : ResourceData) (key : String) : String := (d.attrs.lookup key).getD ""

/-- The attribute read `d.GetOk(key)`: the value, and whether it is set to a non-zero value. -/
def GetOk (d : ResourceData) (key : String) : String × Bool := (d.Get key, d.Get key != "")

/-- The attribute write `d.Set(key, value)` (also `tf.Set(d, key, value)`). -/
def Set (d : ResourceData) (key value : String) : ResourceData :=
  { d with attrs := (key, value) :: d.attrs }

/-- The identity write `d.SetId(id)`. -/
def SetId (d : ResourceData) (id : String) : ResourceData := { d with Id := id }

end ResourceData

/-- The context of a lifecycle operation: its deadline, as the time left, counted in ticks of the
waiter (one poll per tick); `none` when the context has no deadline. -/
structure Context where
  Deadline : Option Nat
  deriving Repr, DecidableEq

/-! ## Remote models and the client capability -/

/-- The password credential of the remote model (`stable.PasswordCredential`). -/
structure PasswordCredential where
  CustomKeyIdentifier : Nullable String
  DisplayName : Nullable String
  EndDateTime : Nullable String
  KeyId : Nullable String
  SecretText : Nullable String
  StartDateTime : Nullable String
  deriving Repr, DecidableEq

/-- The parent application of the remote model, with the fields the controllers read. -/
structure Application where
  Id : Option String
  PasswordCredentials : Option (List PasswordCredential)
  deriving Repr, DecidableEq

/-- Modelled from the spec: the transport response is reduced to its status code (`none` for a nil
response); "not found" is a classification derivable from it. -/
abbrev HttpResponse := Option Nat

/-- Modelled from the spec: `response.WasNotFound` of the vendored helpers: the response exists
and has status 404. -/
def response.WasNotFound (resp : HttpResponse) : Bool := resp == some 404

/-- Response of `GetApplication`. -/
structure GetApplicationOperationResponse where
  HttpResponse : HttpResponse
  Model : Option Application
  deriving Repr, DecidableEq

/-- Request of `AddPassword`. -/
structure AddPasswordRequest where
  PasswordCredential : Option PasswordCredential
  deriving Repr, DecidableEq

/-- Response of `AddPassword`. -/
structure AddPasswordOperationResponse where
  HttpResponse : HttpResponse
  Model : Option PasswordCredential
  deriving Repr, DecidableEq

/-- Request of `RemovePassword`. -/
structure RemovePasswordRequest where
  KeyId : Option String
  deriving Repr, DecidableEq

/-- Response of `RemovePassword`. -/
structure RemovePasswordOperationResponse where
  HttpResponse : HttpResponse
  deriving Repr, DecidableEq

/-- The client capability for applications, over a remote service with states `σ`: each call
answers from the current remote state and yields the next one. -/
structure ApplicationClient (σ : Type) where
  GetApplication : ApplicationId → σ → (GetApplicationOperationResponse × Option GoError) × σ
  AddPassword : ApplicationId → AddPasswordRequest → σ →
    (AddPasswordOperationResponse × Option GoError) × σ
  RemovePassword : ApplicationId → RemovePasswordRequest → σ →
    (RemovePasswordOperationResponse × Option GoError) × σ

/-- The role assignment of the remote model (`stable.UnifiedRoleAssignment`). -/
structure UnifiedRoleAssignment where
  Id : Option String
  AppScopeId : Nullable String
  DirectoryScopeId : Nullable String
  PrincipalId : Nullable String
  RoleDefinitionId : Nullable String
  deriving Repr, DecidableEq

/-- Modelled from the spec: the structured id of a role assignment
(`stable.RoleManagementDirectoryRoleAssignmentId`). -/
structure RoleManagementDirectoryRoleAssignmentId where
  UnifiedRoleAssignmentId : String
  deriving Repr, DecidableEq

/-- Modelled from the spec: `stable.NewRoleManagementDirectoryRoleAssignmentID`. -/
def NewRoleManagementDirectoryRoleAssignmentID (unifiedRoleAssignmentId : String) :
    RoleManagementDirectoryRoleAssignmentId := ⟨unifiedRoleAssignmentId⟩

/-- Response of the role-assignment calls that carry a model. -/
structure DirectoryRoleAssignmentOperationResponse where
  HttpResponse : HttpResponse
  Model : Option UnifiedRoleAssignment
  deriving Repr, DecidableEq

/-- The client capability for directory role assignments. -/
structure DirectoryRoleAssignmentClient (σ : Type) where
  CreateDirectoryRoleAssignment : UnifiedRoleAssignment → σ →
    (DirectoryRoleAssignmentOperationResponse × Option GoError) × σ
  GetDirectoryRoleAssignment : RoleManagementDirectoryRoleAssignmentId → σ →
    (DirectoryRoleAssignmentOperationResponse × Option GoError) × σ
  DeleteDirectoryRoleAssignment : RoleManagementDirectoryRoleAssignmentId → σ →
    (HttpResponse × Option GoError) × σ

/-! ## The world: remote state and trace -/

/-- What a lifecycle operation does that is visible from outside: lock operations, remote calls,
the start of a wait (`WaitStarted`) and the entry into a Read function (`ReadInvoked`). -/
inductive Event where
  | Lock (resourceName name : String)
  | Unlock (resourceName name : String)
  | GetApplication (id : ApplicationId)
  | AddPassword (id : ApplicationId) (request : AddPasswordRequest)
  | RemovePassword (id : ApplicationId) (request : RemovePasswordRequest)
  | CreateDirectoryRoleAssignment (properties : UnifiedRoleAssignment)
  | GetDirectoryRoleAssignment (id : RoleManagementDirectoryRoleAssignmentId)
  | DeleteDirectoryRoleAssignment (id : RoleManagementDirectoryRoleAssignmentId)
  | WaitStarted
  | ReadInvoked (fn : String)
  deriving Repr, DecidableEq

/-- The remote service's state together with the trace of the events so far, oldest first. -/
structure World (σ : Type) where
  remote : σ
  trace : List Event

/-- Append an event to the trace. -/
def World.log {σ : Type} (w : World σ) (e : Event) : World σ :=
  { w with trace := w.trace ++ [e] }

/-- The call `client.GetApplication`, recorded in the trace. -/
def ApplicationClient.callGetApplication {σ : Type} (client : ApplicationClient σ)
    (id : ApplicationId) (w : World σ) :
    (GetApplicationOperationResponse × Option GoError) × World σ :=
  ((client.GetApplication id w.remote).1,
    ⟨(client.GetApplication id w.remote).2, w.trace ++ [Event.GetApplication id]⟩)

/-- The call `client.AddPassword`, recorded in the trace. -/
def ApplicationClient.callAddPassword {σ : Type} (client : ApplicationClient σ)
    (id : ApplicationId) (request : AddPasswordRequest) (w : World σ) :
    (AddPasswordOperationResponse × Option GoError) × World σ :=
  ((client.AddPassword id request w.remote).1,
    ⟨(client.AddPassword id request w.remote).2, w.trace ++ [Event.AddPassword id request]⟩)

/-- The call `client.RemovePassword`, recorded in the trace. -/
def ApplicationClient.callRemovePassword {σ : Type} (client : ApplicationClient σ)
    (id : ApplicationId) (request : RemovePasswordRequest) (w : World σ) :
    (RemovePasswordOperationResponse × Option GoError) × World σ :=
  ((client.RemovePassword id request w.remote).1,
    ⟨(client.RemovePassword id request w.remote).2, w.trace ++ [Event.RemovePassword id request]⟩)

/-- The call `client.CreateDirectoryRoleAssignment`, recorded in the trace. -/
def DirectoryRoleAssignmentClient.callCreate {σ : Type} (client : DirectoryRoleAssignmentClient σ)
    (properties : UnifiedRoleAssignment) (w : World σ) :
    (DirectoryRoleAssignmentOperationResponse × Option GoError) × World σ :=
  ((client.CreateDirectoryRoleAssignment properties w.remote).1,
    ⟨(client.CreateDirectoryRoleAssignment properties w.remote).2,
      w.trace ++ [Event.CreateDirectoryRoleAssignment properties]⟩)

/-- The call `client.GetDirectoryRoleAssignment`, recorded in the trace. -/
def DirectoryRoleAssignmentClient.callGet {σ : Type} (client : DirectoryRoleAssignmentClient σ)
    (id : RoleManagementDirectoryRoleAssignmentId) (w : World σ) :
    (DirectoryRoleAssignmentOperationResponse × Option GoError) × World σ :=
  ((client.GetDirectoryRoleAssignment id w.remote).1,
    ⟨(client.GetDirectoryRoleAssignment id w.remote).2,
      w.trace ++ [Event.GetDirectoryRoleAssignment id]⟩)

/-- The call `client.DeleteDirectoryRoleAssignment`, recorded in the trace. -/
def DirectoryRoleAssignmentClient.callDelete {σ : Type} (client : DirectoryRoleAssignmentClient σ)
    (id : RoleManagementDirectoryRoleAssignmentId) (w : World σ) :
    (HttpResponse × Option GoError) × World σ :=
  ((client.DeleteDirectoryRoleAssignment id w.remote).1,
    ⟨(client.DeleteDirectoryRoleAssignment id w.remote).2,
      w.trace ++ [Event.DeleteDirectoryRoleAssignment id]⟩)

/-! ## Eventual-consistency waiter -/

/-- The configuration of a wait (`pluginsdk.StateChangeConf`).  `Refresh` is the probe: its result,
the state it reports and its error; it may panic.  Durations are counted in ticks. -/
structure StateChangeConf (σ R : Type) where
  Pending : List String
  Target : List String
  Timeout : Nat
  MinTimeout : Nat
  ContinuousTargetOccurence : Nat
  Refresh : World σ → Go (Option R × String × Option GoError) × World σ

/-- The states of the waiter. -/
inductive WaitState where
  | Waiting
  | Done
  | Error
  | TimedOut
  deriving Repr, DecidableEq

/-- The error of a wait that ran into its deadline. -/
def timeoutError {σ R : Type} (conf : StateChangeConf σ R) : GoError :=
  "timeout while waiting for state to become " ++ ", ".intercalate conf.Target

/-- How a wait ended: the terminal state, the probe's last result on `Done`, the error otherwise,
and the number of polls made. -/
structure WaitOutcome (R : Type) where
  state : WaitState
  result : Option R
  err : Option GoError
  polls : Nat
  deriving Repr, DecidableEq

/-- Modelled from the spec: the poll loop of the vendored waiter (`WaitForStateContext`), absent
from the sources at hand.  One probe per tick; a probe error ends in `Error`; a target observation
extends the streak and ends in `Done` once the stabilization threshold is reached; any other
observation keeps the waiter in `Waiting` and resets the streak to zero; when the ticks left before
the deadline are used up the wait ends in `TimedOut`. -/
def waitLoop {σ R : Type} (conf : StateChangeConf σ R) :
    (ticks streak polls : Nat) → World σ → Go (WaitOutcome R) × World σ
  | 0, _, polls, w =>
    (.ret ⟨.TimedOut, none, some (timeoutError conf), polls⟩, w)
  | ticks + 1, streak, polls, w =>
    match conf.Refresh w with
    | (.panicked msg, w1) => (.panicked msg, w1)
    | (.ret (_, _, some err), w1) => (.ret ⟨.Error, none, some err, polls + 1⟩, w1)
    | (.ret (res, state, none), w1) =>
      if conf.Target.contains state then
        if conf.ContinuousTargetOccurence ≤ streak + 1 then
          (.ret ⟨.Done, res, none, polls + 1⟩, w1)
        else waitLoop conf ticks (streak + 1) (polls + 1) w1
      else waitLoop conf ticks 0 (polls + 1) w1

/-- Modelled from the spec: `WaitForStateContext` of the vendored waiter: run the poll loop within
the configured timeout and return the result and the error. -/
def StateChangeConf.WaitForStateContext {σ R : Type} (conf : StateChangeConf σ R)
    (_ctx : Context) (w : World σ) : Go (Option R × Option GoError) × World σ :=
  match waitLoop conf conf.Timeout 0 0 w with
  | (.ret o, w1) => (.ret (o.result, o.err), w1)
  | (.panicked msg, w1) => (.panicked msg, w1)

/-- The world after the first `n` polls of a probe that does not panic. -/
def pollWorld {σ R : Type} (conf : StateChangeConf σ R) (w : World σ) : Nat → World σ
  | 0 => w
  | n + 1 => pollWorld conf (conf.Refresh w).2 n

/-- What the probe reports on poll number `n + 1`. -/
def observe {σ R : Type} (conf : StateChangeConf σ R) (w : World σ) (n : Nat) :
    Go (Option R × String × Option GoError) :=
  (conf.Refresh (pollWorld conf w n)).1

/-- The result the probe returns on poll number `n + 1` (none when it panics). -/
def observedResult {σ R : Type} (conf : StateChangeConf σ R) (w : World σ) (n : Nat) : Option R :=
  match observe conf w n with
  | .ret (res, _, _) => res
  | .panicked _ => none

/-- The waiter as the controllers use it: a configuration and a context in, a result and an error
out. -/
abbrev Waiter (σ R : Type) :=
  StateChangeConf σ R → Context → World σ → Go (Option R × Option GoError) × World σ

/-- Modelled from the spec: `consistency.WaitForDeletion`, absent from the sources at hand: poll
until the sub-object has disappeared (stabilization threshold 3), within the deadline of the
context, which must exist. -/
def consistency.WaitForDeletion {σ : Type} (wait : Waiter σ String) (ctx : Context)
    (f : World σ → (Option Bool × Option GoError) × World σ) (w : World σ) :
    Go (Option GoError) × World σ :=
  match ctx.Deadline with
  | none => (.ret (some "context has no deadline"), w)
  | some timeout =>
    match wait
      { Pending := ["Waiting"], Target := ["Deleted"], Timeout := timeout, MinTimeout := 1,
        ContinuousTargetOccurence := 3,
        Refresh := fun w0 =>
          match f w0 with
          | ((_, some err), w1) => (.ret (none, "Error", some ("retrieving resource: " ++ err)), w1)
          | ((none, none), w1) =>
            (.ret (none, "Error", some "retrieving resource: exists was nil"), w1)
          | ((some true, none), w1) => (.ret (some "stub", "Waiting", none), w1)
          | ((some false, none), w1) => (.ret (some "stub", "Deleted", none), w1) }
      ctx (w.log Event.WaitStarted) with
    | (.ret (_, err), w1) => (.ret err, w1)
    | (.panicked msg, w1) => (.panicked msg, w1)

/-! ## Credentials helpers -/

/-- The error of the credential generator (`internal/helpers/credentials/errors.go`). -/
structure credentials.CredentialError where
  str : String
  attr : String
  deriving Repr, DecidableEq

/-- The method `CredentialError.Attr`: the attribute the error names. -/
def credentials.CredentialError.Attr (e : credentials.CredentialError) : String := e.attr

/-- The method `CredentialError.Error`: the message of the error. -/
def credentials.CredentialError.Error (e : credentials.CredentialError) : String := e.str

/-- An error of the credential generator: a `CredentialError`, or an error of another type. -/
inductive GeneratorError where
  | credentialError (e : credentials.CredentialError)
  | other (msg : String)
  deriving Repr, DecidableEq

/-- The message of a generator error. -/
def GeneratorError.Error : GeneratorError → String
  | .credentialError e => e.Error
  | .other msg => msg

/-- The credential generator `credentials.PasswordCredentialForResource`, absent from the sources
at hand and taken as a parameter of Create: a credential (possibly nil) and an error. -/
abbrev PasswordCredentialGenerator := ResourceData → Option PasswordCredential × Option GeneratorError

/-- Modelled from the spec: `credentials.GetPasswordCredential`, absent from the sources at hand:
locate the sub-object by its server key within the parent's collection, comparing key ids as the
Create probe does. -/
def credentials.GetPasswordCredential (passwordCredentials : Option (List PasswordCredential))
    (id : String) : Option PasswordCredential :=
  match passwordCredentials with
  | none => none
  | some creds => creds.find? fun cred => EqualFold cred.KeyId.GetOrZero id

/-- The value of one character of the standard base64 alphabet. -/
def base64Value (c : Char) : Option Nat :=
  if 'A' ≤ c ∧ c ≤ 'Z' then some (c.toNat - 65)
  else if 'a' ≤ c ∧ c ≤ 'z' then some (c.toNat - 97 + 26)
  else if '0' ≤ c ∧ c ≤ '9' then some (c.toNat - 48 + 52)
  else if c = '+' then some 62
  else if c = '/' then some 63
  else none

/-- The bytes of one group of four base64 characters; padding only in the last group. -/
def base64Quantum (a b c d : Char) (last : Bool) : Option (List Nat) :=
  match base64Value a, base64Value b with
  | some x, some y =>
    if c = '=' then
      if d = '=' ∧ last = true then some [x * 4 + y / 16] else none
    else
      match base64Value c with
      | none => none
      | some z =>
        if d = '=' then
          if last = true then some [x * 4 + y / 16, (y % 16) * 16 + z / 4] else none
        else
          match base64Value d with
          | none => none
          | some u => some [x * 4 + y / 16, (y % 16) * 16 + z / 4, (z % 4) * 64 + u]
  | _, _ => none

/-- The bytes of a padded base64 text. -/
def base64Quanta : List Char → Option (List Nat)
  | [] => some []
  | a :: b :: c :: d :: rest =>
    match base64Quantum a b c d rest.isEmpty, base64Quanta rest with
    | some x, some y => some (x ++ y)
    | _, _ => none
  | _ => none

/-- Go's `base64.StdEncoding.DecodeString` followed by the conversion of the bytes to a string:
line breaks are skipped, padding is mandatory; each decoded byte is one character of the result. -/
def base64.StdEncoding.DecodeString (s : String) : Except GoError String :=
  match base64Quanta (s.toList.filter fun c => c != '\r' && c != '\n') with
  | some bytes => .ok (String.mk (bytes.map Char.ofNat))
  | none => .error "illegal base64 data"

/-! ## Application password: Create, Read, Delete -/

/-- Modelled from the spec: the constant `applicationResourceName`, absent from the sources at
hand: the resource-type scope of the named lock of a parent application. -/
def applicationResourceName : String := "application"

/-- Modelled from the spec: the `%s` rendering of a structured application ID. -/
def ApplicationId.String (id : AzureAD.ApplicationId) : String :=
  "Application (Application: " ++ quote id.ApplicationId ++ ")"

/-- The probe of the wait in Create (`application_password_resource.go`, lines 231-246): fetch the
parent and look for the new key id in its password credentials. -/
def applicationPasswordResourceCreate.Refresh {σ : Type} (client : ApplicationClient σ)
    (applicationId : ApplicationId) (id : CredentialId) (w : World σ) :
    Go (Option PasswordCredential × String × Option GoError) × World σ :=
  match client.callGetApplication applicationId w with
  | ((_, some err), w1) => (.ret (none, "Error", some err), w1)
  | ((resp, none), w1) =>
    match resp.Model with
    | none => (.panicked "invalid memory address or nil pointer dereference", w1)
    | some model =>
      match model.PasswordCredentials with
      | some creds =>
        match creds.find? (fun cred => EqualFold cred.KeyId.GetOrZero id.KeyId) with
        | some cred => (.ret (some cred, "Done", none), w1)
        | none => (.ret (none, "Waiting", none), w1)
      | none => (.ret (none, "Waiting", none), w1)

/-- The configuration of the wait in Create (lines 225-246).  Without a deadline the timeout is
already over. -/
def applicationPasswordResourceCreate.conf {σ : Type} (client : ApplicationClient σ)
    (ctx : Context) (applicationId : ApplicationId) (id : CredentialId) :
    StateChangeConf σ PasswordCredential :=
  { Pending := ["Waiting"], Target := ["Done"], Timeout := ctx.Deadline.getD 0, MinTimeout := 1,
    ContinuousTargetOccurence := 5,
    Refresh := applicationPasswordResourceCreate.Refresh client applicationId id }

/-- The function `applicationPasswordResourceRead` (lines 261-316).  Its entry is recorded in the
trace. -/
def applicationPasswordResourceRead {σ : Type} (client : ApplicationClient σ)
    (d : ResourceData) (w : World σ) : Diagnostics × ResourceData × World σ :=
  let w0 := w.log (Event.ReadInvoked "applicationPasswordResourceRead")
  match parse.PasswordID d.Id with
  | .error err =>
    (tf.ErrorDiagPathF (some err) "id" ("Parsing password credential with ID " ++ quote d.Id),
      d, w0)
  | .ok id =>
    let applicationId := NewApplicationID id.ObjectId
    match client.callGetApplication applicationId w0 with
    | ((resp, some err), w1) =>
      if response.WasNotFound resp.HttpResponse then ([], d.SetId "", w1)
      else
        (tf.ErrorDiagPathF (some err) "application_object_id"
          ("Retrieving " ++ applicationId.String), d, w1)
    | ((resp, none), w1) =>
      match resp.Model with
      | none =>
        (tf.ErrorDiagF (some "model was nil") ("Retrieving " ++ applicationId.String), d, w1)
      | some app =>
        match credentials.GetPasswordCredential app.PasswordCredentials id.KeyId with
        | none => ([], d.SetId "", w1)
        | some credential =>
          let d1 := d.Set "application_id" applicationId.ID
          let named : Except Diagnostics ResourceData :=
            if credential.DisplayName.IsSet then
              .ok (d1.Set "display_name" credential.DisplayName.GetOrZero)
            else if credential.CustomKeyIdentifier.IsSet then
              match base64.StdEncoding.DecodeString credential.CustomKeyIdentifier.GetOrZero with
              | .error err =>
                .error (tf.ErrorDiagPathF (some err) "display_name" "Parsing CustomKeyIdentifier")
              | .ok displayName => .ok (d1.Set "display_name" displayName)
            else .ok d1
          match named with
          | .error diags => (diags, d1, w1)
          | .ok d2 =>
            let d3 := d2.Set "key_id" id.KeyId
            let d4 := d3.Set "start_date" credential.StartDateTime.GetOrZero
            let d5 := d4.Set "end_date" credential.EndDateTime.GetOrZero
            if d5.Get "application_object_id" ≠ "" then
              ([], d5.Set "application_object_id" (d5.Get "application_object_id"), w1)
            else ([], d5.Set "application_object_id" id.ObjectId, w1)

/-- The resolution of the parent identity at the start of Create (lines 152-170): from
`application_id` when it is set, else from `application_object_id`, read as a bare UUID or as a
structured application ID. -/
def applicationPasswordResourceCreate.applicationId (d : ResourceData) :
    Except Diagnostics ApplicationId :=
  if d.Get "application_id" ≠ "" then
    match ParseApplicationID (d.Get "application_id") with
    | .error err =>
      .error (tf.ErrorDiagPathF (some err) "application_id"
        ("Parsing `application_id`: " ++ quote (d.Get "application_id")))
    | .ok applicationId => .ok applicationId
  else
    match uuid.ParseUUID (d.Get "application_object_id") with
    | none => .ok (NewApplicationID (d.Get "application_object_id"))
    | some _ =>
      match ParseApplicationID (d.Get "application_object_id") with
      | .error err =>
        .error (tf.ErrorDiagPathF (some err) "application_id"
          ("Parsing `application_object_id`: " ++ quote (d.Get "application_object_id")))
      | .ok applicationId => .ok applicationId

/-- The function `applicationPasswordResourceCreate` (lines 149-259); the parent is resolved by
`applicationPasswordResourceCreate.applicationId`.  The deferred unlock runs on every way out of
the function after the lock was taken. -/
def applicationPasswordResourceCreate {σ : Type} (client : ApplicationClient σ)
    (PasswordCredentialForResource : PasswordCredentialGenerator)
    (wait : Waiter σ PasswordCredential) (ctx : Context) (d : ResourceData) (w : World σ) :
    Go Diagnostics × ResourceData × World σ :=
  match applicationPasswordResourceCreate.applicationId d with
  | .error diags => (.ret diags, d, w)
  | .ok applicationId =>
    match PasswordCredentialForResource d with
    | (_, some err) =>
      let attr :=
        match err with
        | .credentialError kerr => kerr.Attr
        | .other _ => ""
      (.ret (tf.ErrorDiagPathF (some err.Error) attr
        ("Generating password credentials for " ++ applicationId.String)), d, w)
    | (none, none) =>
      (.ret (tf.ErrorDiagF (some "nil credential was returned")
        ("Generating password credentials for " ++ applicationId.String)), d, w)
    | (some credential, none) =>
      let w0 := w.log (Event.Lock applicationResourceName applicationId.ApplicationId)
      let body : Go Diagnostics × ResourceData × World σ :=
        match client.callGetApplication applicationId w0 with
        | ((resp, some err), w1) =>
          if response.WasNotFound resp.HttpResponse then
            (.ret (tf.ErrorDiagPathF none "application_object_id"
              ("Application with object ID " ++ quote applicationId.ApplicationId ++
                " was not found")), d, w1)
          else
            (.ret (tf.ErrorDiagPathF (some err) "application_object_id"
              ("Retrieving application with object ID " ++ quote applicationId.ApplicationId)),
              d, w1)
        | ((resp, none), w1) =>
          if resp.Model.isNone || (resp.Model.bind fun app => app.Id).isNone then
            (.ret (tf.ErrorDiagF (some "nil application or application with nil ID was returned")
              ("API error retrieving " ++ applicationId.String)), d, w1)
          else
            match client.callAddPassword applicationId ⟨some credential⟩ w1 with
            | ((_, some err), w2) =>
              (.ret (tf.ErrorDiagF (some err) ("Adding password for " ++ applicationId.String)),
                d, w2)
            | ((addPasswordResp, none), w2) =>
              match addPasswordResp.Model with
              | none =>
                (.ret (tf.ErrorDiagF (some "nil credential received when adding password")
                  ("API error adding password for " ++ applicationId.String)), d, w2)
              | some newCredential =>
                if newCredential.KeyId.IsNull then
                  (.ret (tf.ErrorDiagF (some "nil or empty keyId received")
                    ("API error adding password for " ++ applicationId.String)), d, w2)
                else if newCredential.SecretText.GetOrZero.length = 0 then
                  (.ret (tf.ErrorDiagF (some "nil or empty password received")
                    ("API error adding password for " ++ applicationId.String)), d, w2)
                else
                  let id := parse.NewCredentialID applicationId.ApplicationId "password"
                    newCredential.KeyId.GetOrZero
                  match wait (applicationPasswordResourceCreate.conf client ctx applicationId id)
                      ctx (w2.log Event.WaitStarted) with
                  | (.panicked msg, w3) => (.panicked msg, d, w3)
                  | (.ret (_, some err), w3) =>
                    (.ret (tf.ErrorDiagF (some err)
                      ("Waiting for password credential for " ++ applicationId.String)), d, w3)
                  | (.ret (none, none), w3) =>
                    (.ret (tf.ErrorDiagF
                      (some "password credential not found in application manifest")
                      ("Waiting for password credential for " ++ applicationId.String)), d, w3)
                  | (.ret (some _, none), w3) =>
                    let d1 := d.SetId id.String
                    let d2 := d1.Set "value" newCredential.SecretText.GetOrZero
                    match applicationPasswordResourceRead client d2 w3 with
                    | (diags, d3, w4) => (.ret diags, d3, w4)
      (body.1, body.2.1,
        body.2.2.log (Event.Unlock applicationResourceName applicationId.ApplicationId))

/-- The probe of the wait in Delete (lines 339-351): does the credential still exist? -/
def applicationPasswordResourceDelete.probe {σ : Type} (client : ApplicationClient σ)
    (applicationId : ApplicationId) (id : CredentialId) (w : World σ) :
    (Option Bool × Option GoError) × World σ :=
  match client.callGetApplication applicationId w with
  | ((_, some err), w1) => ((none, some err), w1)
  | ((resp, none), w1) =>
    match resp.Model with
    | none => ((none, some "model was nil"), w1)
    | some app =>
      ((some (credentials.GetPasswordCredential app.PasswordCredentials id.KeyId).isSome, none),
        w1)

/-- The function `applicationPasswordResourceDelete` (lines 318-356). -/
def applicationPasswordResourceDelete {σ : Type} (client : ApplicationClient σ)
    (wait : Waiter σ String) (ctx : Context) (d : ResourceData) (w : World σ) :
    Go Diagnostics × ResourceData × World σ :=
  match parse.PasswordID d.Id with
  | .error err =>
    (.ret (tf.ErrorDiagPathF (some err) "id"
      ("Parsing password credential with ID " ++ quote d.Id)), d, w)
  | .ok id =>
    let applicationId := NewApplicationID id.ObjectId
    let w0 := w.log (Event.Lock applicationResourceName id.ObjectId)
    let body : Go Diagnostics × World σ :=
      match client.callRemovePassword applicationId ⟨some id.KeyId⟩ w0 with
      | ((_, some err), w1) =>
        (.ret (tf.ErrorDiagF (some err)
          ("Removing password credential " ++ quote id.KeyId ++ " from " ++
            applicationId.String)), w1)
      | ((_, none), w1) =>
        match consistency.WaitForDeletion wait ctx
            (applicationPasswordResourceDelete.probe client applicationId id) w1 with
        | (.panicked msg, w2) => (.panicked msg, w2)
        | (.ret (some err), w2) =>
          (.ret (tf.ErrorDiagF (some err)
            ("Waiting for deletion of password credential " ++ quote id.KeyId ++ " from " ++
              applicationId.String)), w2)
        | (.ret none, w2) => (.ret [], w2)
    (body.1, d, body.2.log (Event.Unlock applicationResourceName id.ObjectId))

/-! ## Directory role assignment: Create, Read, Delete -/

/-- Modelled from the spec: the `%s` rendering of a structured role-assignment id. -/
def RoleManagementDirectoryRoleAssignmentId.String
    (id : RoleManagementDirectoryRoleAssignmentId) : String :=
  "Role Management Directory Role Assignment (Unified Role Assignment: " ++
    quote id.UnifiedRoleAssignmentId ++ ")"

/-- The probe of the wait in Create (`directory_role_assignment_resource.go`, lines 162-171):
is the new assignment retrievable by its id? -/
def directoryRoleAssignmentResourceCreate.Refresh {σ : Type}
    (client : DirectoryRoleAssignmentClient σ) (id : RoleManagementDirectoryRoleAssignmentId)
    (w : World σ) : Go (Option String × String × Option GoError) × World σ :=
  match client.callGet id w with
  | ((resp, some _), w1) =>
    if response.WasNotFound resp.HttpResponse then (.ret (some "stub", "Waiting", none), w1)
    else (.ret (none, "Error", some "retrieving role assignment"), w1)
  | ((_, none), w1) => (.ret (some "stub", "Done", none), w1)

/-- The configuration of the wait in Create (lines 156-171). -/
def directoryRoleAssignmentResourceCreate.conf {σ : Type}
    (client : DirectoryRoleAssignmentClient σ) (timeout : Nat)
    (id : RoleManagementDirectoryRoleAssignmentId) : StateChangeConf σ String :=
  { Pending := ["Waiting"], Target := ["Done"], Timeout := timeout, MinTimeout := 1,
    ContinuousTargetOccurence := 3,
    Refresh := directoryRoleAssignmentResourceCreate.Refresh client id }

/-- The request built by Create from the attributes (lines 106-135). -/
def directoryRoleAssignmentResourceCreate.properties (d : ResourceData) : UnifiedRoleAssignment :=
  let roleId := d.Get "role_id"
  let principalId := d.Get "principal_object_id"
  let properties : UnifiedRoleAssignment :=
    { Id := none, AppScopeId := .unset, DirectoryScopeId := .unset,
      PrincipalId := .value principalId, RoleDefinitionId := .value roleId }
  let appScopeId :=
    if (d.GetOk "app_scope_id").2 then (d.GetOk "app_scope_id").1
    else if (d.GetOk "app_scope_object_id").2 then (d.GetOk "app_scope_object_id").1
    else ""
  let directoryScopeId :=
    if (d.GetOk "directory_scope_id").2 then (d.GetOk "directory_scope_id").1
    else if (d.GetOk "directory_scope_object_id").2 then (d.GetOk "directory_scope_object_id").1
    else ""
  if appScopeId ≠ "" then { properties with AppScopeId := .value appScopeId }
  else if directoryScopeId ≠ "" then { properties with DirectoryScopeId := .value directoryScopeId }
  else { properties with DirectoryScopeId := .value "/" }

/-- The function `directoryRoleAssignmentResourceRead` (lines 180-207).  Its entry is recorded in
the trace. -/
def directoryRoleAssignmentResourceRead {σ : Type} (client : DirectoryRoleAssignmentClient σ)
    (d : ResourceData) (w : World σ) : Diagnostics × ResourceData × World σ :=
  let w0 := w.log (Event.ReadInvoked "directoryRoleAssignmentResourceRead")
  let id := NewRoleManagementDirectoryRoleAssignmentID d.Id
  match client.callGet id w0 with
  | ((resp, some err), w1) =>
    if response.WasNotFound resp.HttpResponse then ([], d.SetId "", w1)
    else (tf.ErrorDiagF (some err) ("Retrieving " ++ id.String), d, w1)
  | ((resp, none), w1) =>
    match resp.Model with
    | none => (tf.ErrorDiagF (some "model was nil") "API Error", d, w1)
    | some assignment =>
      let d1 := d.Set "app_scope_id" assignment.AppScopeId.GetOrZero
      let d2 := d1.Set "app_scope_object_id" assignment.AppScopeId.GetOrZero
      let d3 := d2.Set "directory_scope_id" assignment.DirectoryScopeId.GetOrZero
      let d4 := d3.Set "directory_scope_object_id" assignment.DirectoryScopeId.GetOrZero
      let d5 := d4.Set "principal_object_id" assignment.PrincipalId.GetOrZero
      let d6 := d5.Set "role_id" assignment.RoleDefinitionId.GetOrZero
      ([], d6, w1)

/-- The function `directoryRoleAssignmentResourceCreate` (lines 103-178); its request is built by
`directoryRoleAssignmentResourceCreate.properties`. -/
def directoryRoleAssignmentResourceCreate {σ : Type} (client : DirectoryRoleAssignmentClient σ)
    (wait : Waiter σ String) (ctx : Context) (d : ResourceData) (w : World σ) :
    Go Diagnostics × ResourceData × World σ :=
  let roleId := d.Get "role_id"
  let principalId := d.Get "principal_object_id"
  match client.callCreate (directoryRoleAssignmentResourceCreate.properties d) w with
  | ((_, some err), w1) =>
    (.ret (tf.ErrorDiagF (some err)
      ("Assigning directory role " ++ quote roleId ++ " to directory principal " ++
        quote principalId ++ ": " ++ err)), d, w1)
  | ((resp, none), w1) =>
    match resp.Model.bind fun assignment => assignment.Id with
    | none => (.ret (tf.ErrorDiagF (some "returned role assignment ID was nil") "API Error"), d, w1)
    | some assignmentId =>
      let id := NewRoleManagementDirectoryRoleAssignmentID assignmentId
      let d1 := d.SetId id.UnifiedRoleAssignmentId
      match ctx.Deadline with
      | none =>
        (.ret (tf.ErrorDiagF (some "context has no deadline")
          ("Waiting for directory role " ++ quote roleId ++ " assignment to principal " ++
            quote principalId ++ " to take effect")), d1, w1)
      | some timeout =>
        match wait (directoryRoleAssignmentResourceCreate.conf client timeout id) ctx
            (w1.log Event.WaitStarted) with
        | (.panicked msg, w2) => (.panicked msg, d1, w2)
        | (.ret (_, some err), w2) =>
          (.ret (tf.ErrorDiagF (some err)
            ("Waiting for role assignment for " ++ quote principalId ++
              " to reflect in directory role " ++ quote roleId)), d1, w2)
        | (.ret (_, none), w2) =>
          match directoryRoleAssignmentResourceRead client d1 w2 with
          | (diags, d2, w3) => (.ret diags, d2, w3)

/-- The function `directoryRoleAssignmentResourceDelete` (lines 209-218). -/
def directoryRoleAssignmentResourceDelete {σ : Type} (client : DirectoryRoleAssignmentClient σ)
    (d : ResourceData) (w : World σ) : Diagnostics × ResourceData × World σ :=
  let id := NewRoleManagementDirectoryRoleAssignmentID d.Id
  match client.callDelete id w with
  | ((_, some err), w1) => (tf.ErrorDiagF (some err) ("Deleting " ++ id.String), d, w1)
  | ((_, none), w1) => ([], d, w1)

/-! ## Concrete inputs -/

/-- A well-formed UUID. -/
def sampleUUID : String := "00000000-0000-0000-0000-000000000000"

/-- A second well-formed UUID, used as a key id. -/
def sampleKeyId : String := "11111111-1111-1111-1111-111111111111"

/-- An application client over a remote without state whose every call fails with a not-found
response. -/
def notFoundApplicationClient : ApplicationClient Unit where
  GetApplication := fun _ s => ((⟨some 404, none⟩, some "unexpected status 404"), s)
  AddPassword := fun _ _ s => ((⟨some 404, none⟩, some "unexpected status 404"), s)
  RemovePassword := fun _ _ s => ((⟨some 404⟩, some "unexpected status 404"), s)

/-- A role-assignment client over a remote without state whose every call fails with a not-found
response. -/
def notFoundRoleAssignmentClient : DirectoryRoleAssignmentClient Unit where
  CreateDirectoryRoleAssignment := fun _ s => ((⟨some 404, none⟩, some "unexpected status 404"), s)
  GetDirectoryRoleAssignment := fun _ s => ((⟨some 404, none⟩, some "unexpected status 404"), s)
  DeleteDirectoryRoleAssignment := fun _ s => ((some 404, some "unexpected status 404"), s)

/-- The local state of a password resource with the sample identity. -/
def samplePasswordData : ResourceData :=
  { Id := "00000000-0000-0000-0000-000000000000/password/11111111-1111-1111-1111-111111111111",
    attrs := [] }

/-- The sample identity, decoded. -/
def samplePasswordId : CredentialId := ⟨sampleUUID, "password", sampleKeyId⟩

/-- A world at the start of an operation: nothing happened yet. -/
def emptyWorld : World Unit := ⟨(), []⟩

/-- The credential as the service returns it from the add-password call: with its key id and,
this once, its secret. -/
def sampleNewCredential : PasswordCredential :=
  { CustomKeyIdentifier := .unset, DisplayName := .value "ci", EndDateTime := .value "2030-01-01",
    KeyId := .value sampleKeyId, SecretText := .value "s3cret", StartDateTime := .value "2029-01-01" }

/-- The same credential as listed in the parent's collection: without the secret. -/
def sampleListedCredential : PasswordCredential :=
  { sampleNewCredential with SecretText := .unset }

/-- An eventually consistent application service.  Its state counts the reads of the parent so
far; the new credential shows in the parent's collection from read number `k` on. -/
def delayedApplicationClient (k : Nat) : ApplicationClient Nat where
  GetApplication := fun _ n =>
    ((⟨some 200, some ⟨some sampleUUID, some (if k ≤ n then [sampleListedCredential] else [])⟩⟩,
      none), n + 1)
  AddPassword := fun _ _ n => ((⟨some 200, some sampleNewCredential⟩, none), n)
  RemovePassword := fun _ _ n => ((⟨some 204⟩, none), n)

/-- A credential generator that asks for a credential named `ci`. -/
def sampleGenerator : PasswordCredentialGenerator := fun _ =>
  (some { CustomKeyIdentifier := .unset, DisplayName := .value "ci", EndDateTime := .unset,
          KeyId := .unset, SecretText := .unset, StartDateTime := .unset }, none)

/-- The attributes of a password to create, the parent given as a bare UUID. -/
def sampleCreateData : ResourceData :=
  { Id := "", attrs := [("application_object_id", "00000000-0000-0000-0000-000000000000")] }

/-- A world of the counting service at the start of an operation. -/
def startWorld : World Nat := ⟨0, []⟩

/-- An application service whose add-password call answers with a credential whose key id is an
explicit null. -/
def nullKeyApplicationClient : ApplicationClient Nat where
  GetApplication := fun _ n => ((⟨some 200, some ⟨some sampleUUID, some []⟩⟩, none), n + 1)
  AddPassword := fun _ _ n =>
    ((⟨some 200, some { sampleNewCredential with KeyId := .null }⟩, none), n)
  RemovePassword := fun _ _ n => ((⟨some 204⟩, none), n)

/-- The local state of a created password resource: the sample identity and the stored secret. -/
def sampleReadData : ResourceData :=
  { Id := "00000000-0000-0000-0000-000000000000/password/11111111-1111-1111-1111-111111111111",
    attrs := [("value", "s3cret")] }

/-- The attributes of a password to create, the parent given as a structured application ID. -/
def sampleStructuredCreateData : ResourceData :=
  { Id := "",
    attrs := [("application_object_id", "/applications/00000000-0000-0000-0000-000000000000")] }

/-- The attributes of a password to create with both parent attributes set. -/
def sampleBothCreateData : ResourceData :=
  { Id := "",
    attrs := [("application_id", "/applications/00000000-0000-0000-0000-000000000000"),
      ("application_object_id", "not-an-id")] }

/-- The attributes of a password to create whose parent reference is no id of either form. -/
def sampleMalformedCreateData : ResourceData :=
  { Id := "", attrs := [("application_object_id", "not-an-id")] }

/-- An eventually consistent role-assignment service.  Its state counts the fetches so far; a
new assignment is retrievable from fetch number `k` on and not found before. -/
def delayedRoleAssignmentClient (k : Nat) : DirectoryRoleAssignmentClient Nat where
  CreateDirectoryRoleAssignment := fun properties n =>
    ((⟨some 201, some { properties with Id := some sampleUUID }⟩, none), n)
  GetDirectoryRoleAssignment := fun id n =>
    if k ≤ n then
      ((⟨some 200, some ⟨some id.UnifiedRoleAssignmentId, .unset, .value "/", .unset, .unset⟩⟩,
        none), n + 1)
    else ((⟨some 404, none⟩, some "unexpected status 404"), n + 1)
  DeleteDirectoryRoleAssignment := fun _ n => ((some 204, none), n)

/-- A credential generator that fails with a `CredentialError` naming `end_date`. -/
def conflictingGenerator : PasswordCredentialGenerator := fun _ =>
  (none, some (.credentialError ⟨"both end_date and end_date_relative are set", "end_date"⟩))

/-- A credential generator that fails with an error of another type. -/
def brokenGenerator : PasswordCredentialGenerator := fun _ =>
  (none, some (.other "unable to generate a key id"))

/-- A credential generator that returns neither a credential nor an error. -/
def nilGenerator : PasswordCredentialGenerator := fun _ => (none, none)

/-- The attributes of a password to create whose `application_id` is no structured id. -/
def sampleMalformedIdCreateData : ResourceData :=
  { Id := "", attrs := [("application_id", "not-an-id")] }

/-- An upper-case UUID. -/
def upperUUID : String := "ABCDEF00-0000-0000-0000-000000000000"

/-- The same UUID in lower case. -/
def lowerUUID : String := "abcdef00-0000-0000-0000-000000000000"

/-- The attributes of a role assignment scoped to an application through the deprecated
attribute, with a directory scope given as well. -/
def sampleRoleData : ResourceData :=
  { Id := "",
    attrs := [("role_id", "00000000-0000-0000-0000-000000000000"),
      ("principal_object_id", "11111111-1111-1111-1111-111111111111"),
      ("app_scope_object_id", "/app-1"), ("directory_scope_id", "/dir-1")] }

/-- A remote call that changes the remote service. -/
def Event.isMutating : Event → Bool
  | .AddPassword _ _ => true
  | .RemovePassword _ _ => true
  | .CreateDirectoryRoleAssignment _ => true
  | .DeleteDirectoryRoleAssignment _ => true
  | _ => false

/-- A call to the remote service, mutating or not. -/
def Event.isRemoteCall : Event → Bool
  | .GetApplication _ => true
  | .GetDirectoryRoleAssignment _ => true
  | e => e.isMutating

/-- An operation on a named lock. -/
def Event.isLockOp : Event → Bool
  | .Lock _ _ => true
  | .Unlock _ _ => true
  | _ => false

/-- A waiter that does nothing but run its probe: when every poll of the probe adds the one event
`e` to the trace, the wait adds copies of `e` and nothing else. -/
def Waiter.ProbeOnly {σ R : Type} (wait : Waiter σ R) : Prop :=
  ∀ (conf : StateChangeConf σ R) (ctx : Context) (e : Event),
    (∀ w1, (conf.Refresh w1).2.trace = w1.trace ++ [e]) →
    ∀ w0, ∃ n, (wait conf ctx w0).2.trace = w0.trace ++ List.replicate n e

/-- A listed credential without display name whose custom key identifier is the base64 text of
`ci`. -/
def legacyCredential : PasswordCredential :=
  { CustomKeyIdentifier := .value "Y2k=", DisplayName := .unset, EndDateTime := .unset,
    KeyId := .value sampleKeyId, SecretText := .unset, StartDateTime := .unset }

/-- A listed credential without display name whose custom key identifier is no base64 text. -/
def brokenLegacyCredential : PasswordCredential :=
  { legacyCredential with CustomKeyIdentifier := .value "not base64!" }

/-- An application service whose parent application lists the given credential. -/
def listingApplicationClient (credential : PasswordCredential) : ApplicationClient Nat where
  GetApplication := fun _ n => ((⟨some 200, some ⟨some sampleUUID, some [credential]⟩⟩, none), n + 1)
  AddPassword := fun _ _ n => ((⟨some 200, some sampleNewCredential⟩, none), n)
  RemovePassword := fun _ _ n => ((⟨some 204⟩, none), n)

/-- Go's `strings.ToLower`: every rune mapped to its lower-case form by `unicode.ToLower`. -/
def strings.ToLower (s : String) : String := String.mk (s.toList.map unicode.ToLower)

/-- The string type `WindowsAutopilotDeviceType`
(`constant_windowsautopilotdevicetype.go`). -/
abbrev WindowsAutopilotDeviceType := String

/-- The constant `WindowsAutopilotDeviceType_HoloLens`. -/
def WindowsAutopilotDeviceType_HoloLens : WindowsAutopilotDeviceType := "holoLens"

/-- The constant `WindowsAutopilotDeviceType_SurfaceHub2`. -/
def WindowsAutopilotDeviceType_SurfaceHub2 : WindowsAutopilotDeviceType := "surfaceHub2"

/-- The constant `WindowsAutopilotDeviceType_SurfaceHub2S`. -/
def WindowsAutopilotDeviceType_SurfaceHub2S : WindowsAutopilotDeviceType := "surfaceHub2S"

/-- The constant `WindowsAutopilotDeviceType_VirtualMachine`. -/
def WindowsAutopilotDeviceType_VirtualMachine : WindowsAutopilotDeviceType := "virtualMachine"

/-- The constant `WindowsAutopilotDeviceType_WindowsPc`. -/
def WindowsAutopilotDeviceType_WindowsPc : WindowsAutopilotDeviceType := "windowsPc"

/-- The function `PossibleValuesForWindowsAutopilotDeviceType` (lines 22-30). -/
def PossibleValuesForWindowsAutopilotDeviceType : List String :=
  [WindowsAutopilotDeviceType_HoloLens, WindowsAutopilotDeviceType_SurfaceHub2,
    WindowsAutopilotDeviceType_SurfaceHub2S, WindowsAutopilotDeviceType_VirtualMachine,
    WindowsAutopilotDeviceType_WindowsPc]

/-- The function `parseWindowsAutopilotDeviceType` (lines 45-60): the value found under the
lower-cased input, else the input itself; the error is always nil. -/
def parseWindowsAutopilotDeviceType (input : String) :
    Option WindowsAutopilotDeviceType × Option GoError :=
  let vals : List (String × WindowsAutopilotDeviceType) :=
    [("hololens", WindowsAutopilotDeviceType_HoloLens),
      ("surfacehub2", WindowsAutopilotDeviceType_SurfaceHub2),
      ("surfacehub2s", WindowsAutopilotDeviceType_SurfaceHub2S),
      ("virtualmachine", WindowsAutopilotDeviceType_VirtualMachine),
      ("windowspc", WindowsAutopilotDeviceType_WindowsPc)]
  match vals.lookup (strings.ToLower input) with
  | some v => (some v, none)
  | none => (some input, none)

/-- The value of a field of a JSON object, as `json.Unmarshal` stores it in an `interface{}`.
A number and a composite value (array or object) are kept by their rendering under `%v`. -/
inductive JSONValue where
  | null
  | bool (b : Bool)
  | number (rendered : String)
  | string (s : String)
  | composite (rendered : String)
  deriving Repr, DecidableEq

/-- What the JSON syntax makes of a non-nil byte slice: no JSON text at all, the text `null`, an
object with its fields in the order of the text, or another JSON text (a number, a string, a
boolean or an array, named by `kind`). -/
inductive JSONText where
  | invalid (err : GoError)
  | null
  | object (fields : List (String × JSONValue))
  | other (kind : String)
  deriving Repr, DecidableEq

/-- A Go `map[string]interface{}` as decoded from the fields of a JSON object: the entries in the
order of the text, read by the last entry for a key. -/
abbrev GoMap := List (String × JSONValue)

/-- The map read `m[key]`. -/
def GoMap.get? (m : GoMap) (key : String) : Option JSONValue := m.reverse.lookup key

/-- Go's `json.Unmarshal(input, &temp)` for a `map[string]interface{}`: a JSON object fills the
map, `null` leaves it nil, anything else is an error. -/
def json.UnmarshalMap (input : JSONText) : Except GoError (Option GoMap) :=
  match input with
  | .invalid err => .error err
  | .null => .ok none
  | .object fields => .ok (some fields)
  | .other kind =>
    .error ("json: cannot unmarshal " ++ kind ++ " into Go value of type map[string]interface {}")

/-- Go's `fmt.Sprintf("%v", v)` on a decoded field value. -/
def fmt.SprintV : JSONValue → String
  | .null => "<nil>"
  | .bool b => if b then "true" else "false"
  | .number rendered => rendered
  | .string s => s
  | .composite rendered => rendered

/-- The discriminator read at the start of the two functions: the rendering of the field
`@odata.type` of the decoded map, and the empty string when the map has no such field. -/
def discriminatedValue (temp : Option GoMap) : String :=
  match temp.bind fun m => m.get? "@odata.type" with
  | some v => fmt.SprintV v
  | none => ""

/-- Go's decoding of the fields of a JSON object into one struct field of type `*string` with
the JSON name `name`: a field of the object whose key equals the name, also ignoring letter
case, sets the pointer (a string) or clears it (`null`); any other value is a type error. -/
def json.stringPointerField (name : String) :
    List (String × JSONValue) → Option String → Except GoError (Option String)
  | [], current => .ok current
  | (key, value) :: rest, current =>
    if EqualFold key name then
      match value with
      | .string s => json.stringPointerField name rest (some s)
      | .null => json.stringPointerField name rest none
      | .bool _ =>
        .error ("json: cannot unmarshal bool into Go struct field ." ++ name ++ " of type string")
      | .number _ =>
        .error ("json: cannot unmarshal number into Go struct field ." ++ name ++
          " of type string")
      | .composite _ =>
        .error ("json: cannot unmarshal object into Go struct field ." ++ name ++
          " of type string")
    else json.stringPointerField name rest current

/-- The struct `BaseAccessReviewApplyActionImpl` (`model_accessreviewapplyaction.go`,
lines 18-27). -/
structure BaseAccessReviewApplyActionImpl where
  ODataId : Option String
  ODataType : Option String
  OmitDiscriminatedValue : Bool
  deriving Repr, DecidableEq

/-- Go's `json.Unmarshal(input, &parent)` for a `BaseAccessReviewApplyActionImpl`: the two
string pointers are read from the fields `@odata.id` and `@odata.type`; `null` leaves the zero
struct. -/
def json.UnmarshalBaseAccessReviewApplyActionImpl (input : JSONText) :
    Except GoError BaseAccessReviewApplyActionImpl :=
  match input with
  | .invalid err => .error err
  | .null => .ok ⟨none, none, false⟩
  | .other kind =>
    .error ("json: cannot unmarshal " ++ kind ++
      " into Go value of type stable.BaseAccessReviewApplyActionImpl")
  | .object fields =>
    match json.stringPointerField "@odata.id" fields none,
      json.stringPointerField "@odata.type" fields none with
    | .ok odataId, .ok odataType => .ok ⟨odataId, odataType, false⟩
    | .error err, _ => .error err
    | .ok _, .error err => .error err

/-- The struct `RawAccessReviewApplyActionImpl` (lines 35-39). -/
structure RawAccessReviewApplyActionImpl where
  accessReviewApplyAction : BaseAccessReviewApplyActionImpl
  Type_ : String
  Values : Option GoMap
  deriving Repr, DecidableEq

/-- The implementations of the interface `AccessReviewApplyAction` that
`UnmarshalAccessReviewApplyActionImplementation` returns.  The two concrete structs are not part
of the sources at hand: their types are parameters. -/
inductive AccessReviewApplyAction (D R : Type) where
  | DisableAndDeleteUserApplyAction (out : D)
  | RemoveAccessApplyAction (out : R)
  | RawAccessReviewApplyActionImpl (raw : AzureAD.RawAccessReviewApplyActionImpl)
  deriving Repr, DecidableEq

/-- The function `UnmarshalAccessReviewApplyActionImplementation` (lines 45-90).  The decoding
into the two concrete structs, which are not part of the sources at hand, is given by
`unmarshalDisableAndDeleteUserApplyAction` and `unmarshalRemoveAccessApplyAction`. -/
def UnmarshalAccessReviewApplyActionImplementation {D R : Type}
    (unmarshalDisableAndDeleteUserApplyAction : JSONText → Except GoError D)
    (unmarshalRemoveAccessApplyAction : JSONText → Except GoError R)
    (input : Option JSONText) : Option (AccessReviewApplyAction D R) × Option GoError :=
  match input with
  | none => (none, none)
  | some input =>
    match json.UnmarshalMap input with
    | .error err =>
      (none, some ("unmarshaling AccessReviewApplyAction into map[string]interface: " ++ err))
    | .ok temp =>
      if EqualFold (discriminatedValue temp)
          "#microsoft.graph.disableAndDeleteUserApplyAction" then
        match unmarshalDisableAndDeleteUserApplyAction input with
        | .error err =>
          (none, some ("unmarshaling into DisableAndDeleteUserApplyAction: " ++ err))
        | .ok out => (some (.DisableAndDeleteUserApplyAction out), none)
      else if EqualFold (discriminatedValue temp)
          "#microsoft.graph.removeAccessApplyAction" then
        match unmarshalRemoveAccessApplyAction input with
        | .error err => (none, some ("unmarshaling into RemoveAccessApplyAction: " ++ err))
        | .ok out => (some (.RemoveAccessApplyAction out), none)
      else
        match json.UnmarshalBaseAccessReviewApplyActionImpl input with
        | .error err =>
          (none, some ("unmarshaling into BaseAccessReviewApplyActionImpl: " ++ err))
        | .ok parent =>
          (some (.RawAccessReviewApplyActionImpl ⟨parent, discriminatedValue temp, temp⟩), none)

/-- The struct `RawAndroidCertificateProfileBaseImpl`
(`model_androidcertificateprofilebase.go`, lines 157-161), over the base struct `B`. -/
structure RawAndroidCertificateProfileBaseImpl (B : Type) where
  androidCertificateProfileBase : B
  Type_ : String
  Values : Option GoMap
  deriving Repr, DecidableEq

/-- The implementations of the interface `AndroidCertificateProfileBase` that
`UnmarshalAndroidCertificateProfileBaseImplementation` returns.  The four concrete structs and
the types of the fields of the base struct are not part of the sources at hand: their types are
parameters. -/
inductive AndroidCertificateProfileBase (B F I P S : Type) where
  | AndroidForWorkImportedPFXCertificateProfile (out : F)
  | AndroidImportedPFXCertificateProfile (out : I)
  | AndroidPkcsCertificateProfile (out : P)
  | AndroidScepCertificateProfile (out : S)
  | RawAndroidCertificateProfileBaseImpl (raw : AzureAD.RawAndroidCertificateProfileBaseImpl B)
  deriving Repr, DecidableEq

/-- The decoding into the structs of the android certificate profiles, which are not (or, for
the base struct, not with the types of their fields) part of the sources at hand. -/
structure AndroidCertificateProfileDecoders (B F I P S : Type) where
  BaseAndroidCertificateProfileBaseImpl : JSONText → Except GoError B
  AndroidForWorkImportedPFXCertificateProfile : JSONText → Except GoError F
  AndroidImportedPFXCertificateProfile : JSONText → Except GoError I
  AndroidPkcsCertificateProfile : JSONText → Except GoError P
  AndroidScepCertificateProfile : JSONText → Except GoError S

/-- The function `UnmarshalAndroidCertificateProfileBaseImplementation` (lines 202-260). -/
def UnmarshalAndroidCertificateProfileBaseImplementation {B F I P S : Type}
    (unmarshal : AndroidCertificateProfileDecoders B F I P S) (input : Option JSONText) :
    Option (AndroidCertificateProfileBase B F I P S) × Option GoError :=
  match input with
  | none => (none, none)
  | some input =>
    match json.UnmarshalMap input with
    | .error err =>
      (none,
        some ("unmarshaling AndroidCertificateProfileBase into map[string]interface: " ++ err))
    | .ok temp =>
      if EqualFold (discriminatedValue temp)
          "#microsoft.graph.androidForWorkImportedPFXCertificateProfile" then
        match unmarshal.AndroidForWorkImportedPFXCertificateProfile input with
        | .error err =>
          (none, some ("unmarshaling into AndroidForWorkImportedPFXCertificateProfile: " ++ err))
        | .ok out => (some (.AndroidForWorkImportedPFXCertificateProfile out), none)
      else if EqualFold (discriminatedValue temp)
          "#microsoft.graph.androidImportedPFXCertificateProfile" then
        match unmarshal.AndroidImportedPFXCertificateProfile input with
        | .error err =>
          (none, some ("unmarshaling into AndroidImportedPFXCertificateProfile: " ++ err))
        | .ok out => (some (.AndroidImportedPFXCertificateProfile out), none)
      else if EqualFold (discriminatedValue temp)
          "#microsoft.graph.androidPkcsCertificateProfile" then
        match unmarshal.AndroidPkcsCertificateProfile input with
        | .error err => (none, some ("unmarshaling into AndroidPkcsCertificateProfile: " ++ err))
        | .ok out => (some (.AndroidPkcsCertificateProfile out), none)
      else if EqualFold (discriminatedValue temp)
          "#microsoft.graph.androidScepCertificateProfile" then
        match unmarshal.AndroidScepCertificateProfile input with
        | .error err => (none, some ("unmarshaling into AndroidScepCertificateProfile: " ++ err))
        | .ok out => (some (.AndroidScepCertificateProfile out), none)
      else
        match unmarshal.BaseAndroidCertificateProfileBaseImpl input with
        | .error err =>
          (none, some ("unmarshaling into BaseAndroidCertificateProfileBaseImpl: " ++ err))
        | .ok parent =>
          (some (.RawAndroidCertificateProfileBaseImpl ⟨parent, discriminatedValue temp, temp⟩),
            none)

/-- The discriminators that `UnmarshalAccessReviewApplyActionImplementation` knows. -/
def accessReviewApplyActionDiscriminators : List String :=
  ["#microsoft.graph.disableAndDeleteUserApplyAction", "#microsoft.graph.removeAccessApplyAction"]

/-- The discriminators that `UnmarshalAndroidCertificateProfileBaseImplementation` knows. -/
def androidCertificateProfileBaseDiscriminators : List String :=
  ["#microsoft.graph.androidForWorkImportedPFXCertificateProfile",
    "#microsoft.graph.androidImportedPFXCertificateProfile",
    "#microsoft.graph.androidPkcsCertificateProfile",
    "#microsoft.graph.androidScepCertificateProfile"]

/-- A decoder of a concrete struct that accepts every input and keeps it. -/
def keepText : JSONText → Except GoError JSONText := fun input => .ok input

/-- A JSON object without `@odata.type` whose `@odata.id` is a number. -/
def numericIdObject : JSONText := .object [("@odata.id", .number "5"), ("extra", .bool true)]

/-- A JSON object with an unknown discriminator and one more field. -/
def unknownTypeObject : JSONText :=
  .object [("@odata.type", .string "#microsoft.graph.somethingNew"), ("extra", .bool true)]

/-- A JSON object whose discriminator is a known one in another letter case. -/
def removeAccessObject : JSONText :=
  .object [("@odata.type", .string "#Microsoft.Graph.RemoveAccessApplyAction")]

/-- The decoders of the android certificate profiles that accept every input and keep it. -/
def keepAndroidText :
    AndroidCertificateProfileDecoders JSONText JSONText JSONText JSONText JSONText :=
  ⟨keepText, keepText, keepText, keepText, keepText⟩

/-- An application service that answers the first fetch of the parent with the parent and every
later fetch with no error and no model. -/
def nilModelApplicationClient : ApplicationClient Nat where
  GetApplication := fun _ n =>
    ((⟨some 200, if n = 0 then some ⟨some sampleUUID, some []⟩ else none⟩, none), n + 1)
  AddPassword := fun _ _ n => ((⟨some 200, some sampleNewCredential⟩, none), n)
  RemovePassword := fun _ _ n => ((⟨some 204⟩, none), n)

/-- A role-assignment service whose create call succeeds with an assignment that has no id. -/
def noIdRoleAssignmentClient : DirectoryRoleAssignmentClient Nat where
  CreateDirectoryRoleAssignment := fun properties n => ((⟨some 201, some properties⟩, none), n)
  GetDirectoryRoleAssignment := fun _ n => ((⟨some 404, none⟩, some "unexpected status 404"), n + 1)
  DeleteDirectoryRoleAssignment := fun _ n => ((some 204, none), n)

/-- Modelled from the spec: `validation.IsUUID` of the vendored plugin SDK, absent from the
sources at hand: the value is accepted exactly when `uuid.ParseUUID` returns no error. -/
def validation.IsUUID (v : String) : Bool := (uuid.ParseUUID v).isNone

/-- Modelled from the spec: `parse.ValidateApplicationID`, absent from the sources at hand: the
value is accepted exactly when `ParseApplicationID` succeeds. -/
def parse.ValidateApplicationID (v : String) : Bool :=
  match ParseApplicationID v with
  | .ok _ => true
  | .error _ => false

/-- The schema of the two parent attributes of the password resource
(`application_password_resource.go`, lines 52-70), on the attribute values that Create reads (an
attribute that is not set reads as the empty string): exactly one of `application_id` and
`application_object_id` is set (`ExactlyOneOf`), and the one that is set passes its
`ValidateFunc`, `parse.ValidateApplicationID` for `application_id` and
`validation.Any(validation.IsUUID, parse.ValidateApplicationID)` for `application_object_id`. -/
def applicationPasswordResource.acceptsParent (d : ResourceData) : Bool :=
  ((d.Get "application_id" != "") != (d.Get "application_object_id" != "")) &&
  (d.Get "application_id" == "" || parse.ValidateApplicationID (d.Get "application_id")) &&
  (d.Get "application_object_id" == "" ||
    (validation.IsUUID (d.Get "application_object_id") ||
      parse.ValidateApplicationID (d.Get "application_object_id")))

end AzureAD

/-! # Theorems -/

namespace AzureAD

/-! ## Delete and a failing remove call -/

/-- C1 (as stated, refuted): with a remove call that fails with a not-found response, password
Delete and role-assignment Delete both return an error diagnostic instead of no error. -/
theorem delete_not_found_returns_error :
    response.WasNotFound
        (notFoundApplicationClient.RemovePassword (NewApplicationID sampleUUID)
          ⟨some sampleKeyId⟩ ()).1.1.HttpResponse = true ∧
      (applicationPasswordResourceDelete notFoundApplicationClient
        StateChangeConf.WaitForStateContext ⟨some 10⟩ samplePasswordData emptyWorld).1 ≠ .ret [] ∧
      response.WasNotFound
        (notFoundRoleAssignmentClient.DeleteDirectoryRoleAssignment
          (NewRoleManagementDirectoryRoleAssignmentID sampleUUID) ()).1.1 = true ∧
      (directoryRoleAssignmentResourceDelete notFoundRoleAssignmentClient
        ⟨sampleUUID, []⟩ emptyWorld).1 ≠ [] := by
  refine ⟨by decide, ?_, by decide, ?_⟩
  · decide
  · decide

/-- C1 (amended): whenever the remote remove call of a Delete fails, with a not-found response as
with any other, Delete returns an error diagnostic carrying that failure; password Delete then
releases its lock without starting the wait for deletion, and neither Delete touches the local
state. -/
theorem delete_propagates_remove_failure {σ : Type} :
    (∀ (client : ApplicationClient σ) (wait : Waiter σ String) (ctx : Context)
        (d : ResourceData) (w : World σ) (id : CredentialId)
        (resp : RemovePasswordOperationResponse) (err : GoError) (s1 : σ),
        parse.PasswordID d.Id = .ok id →
        client.RemovePassword (NewApplicationID id.ObjectId) ⟨some id.KeyId⟩ w.remote =
          ((resp, some err), s1) →
        applicationPasswordResourceDelete client wait ctx d w =
          (.ret (tf.ErrorDiagF (some err)
              ("Removing password credential " ++ quote id.KeyId ++ " from " ++
                (NewApplicationID id.ObjectId).String)),
            d,
            ⟨s1, w.trace ++ [Event.Lock applicationResourceName id.ObjectId,
              Event.RemovePassword (NewApplicationID id.ObjectId) ⟨some id.KeyId⟩,
              Event.Unlock applicationResourceName id.ObjectId]⟩)) ∧
      (∀ (client : DirectoryRoleAssignmentClient σ) (d : ResourceData) (w : World σ)
        (resp : HttpResponse) (err : GoError) (s1 : σ),
        client.DeleteDirectoryRoleAssignment (NewRoleManagementDirectoryRoleAssignmentID d.Id)
            w.remote = ((resp, some err), s1) →
        directoryRoleAssignmentResourceDelete client d w =
          (tf.ErrorDiagF (some err)
              ("Deleting " ++ (NewRoleManagementDirectoryRoleAssignmentID d.Id).String),
            d,
            ⟨s1, w.trace ++ [Event.DeleteDirectoryRoleAssignment
              (NewRoleManagementDirectoryRoleAssignmentID d.Id)]⟩)) := by
  constructor
  · intro client wait ctx d w id resp err s1 hid hrm
    simp [applicationPasswordResourceDelete, hid, ApplicationClient.callRemovePassword,
      World.log, hrm]
  · intro client d w resp err s1 hrm
    simp [directoryRoleAssignmentResourceDelete, DirectoryRoleAssignmentClient.callDelete, hrm]

/-- Witness of C1 (amended): the two not-found clients on the sample identity. -/
theorem delete_propagates_remove_failure_witness :
    applicationPasswordResourceDelete notFoundApplicationClient
        StateChangeConf.WaitForStateContext ⟨some 10⟩ samplePasswordData emptyWorld =
      (.ret (tf.ErrorDiagF (some "unexpected status 404")
          ("Removing password credential " ++ quote sampleKeyId ++ " from " ++
            (NewApplicationID sampleUUID).String)),
        samplePasswordData,
        ⟨(), [Event.Lock applicationResourceName sampleUUID,
          Event.RemovePassword (NewApplicationID sampleUUID) ⟨some sampleKeyId⟩,
          Event.Unlock applicationResourceName sampleUUID]⟩) ∧
      directoryRoleAssignmentResourceDelete notFoundRoleAssignmentClient ⟨sampleUUID, []⟩
          emptyWorld =
        (tf.ErrorDiagF (some "unexpected status 404")
            ("Deleting " ++ (NewRoleManagementDirectoryRoleAssignmentID sampleUUID).String),
          ⟨sampleUUID, []⟩,
          ⟨(), [Event.DeleteDirectoryRoleAssignment
            (NewRoleManagementDirectoryRoleAssignmentID sampleUUID)]⟩) :=
  ⟨delete_propagates_remove_failure.1 notFoundApplicationClient
      StateChangeConf.WaitForStateContext ⟨some 10⟩ samplePasswordData emptyWorld
      samplePasswordId ⟨some 404⟩ "unexpected status 404" () (by rfl) rfl,
    delete_propagates_remove_failure.2 notFoundRoleAssignmentClient ⟨sampleUUID, []⟩
      emptyWorld (some 404) "unexpected status 404" () rfl⟩

/-! ## The identity codec and the diff-suppression rule -/

/-- Every character of a list that fits a shape is a dash or a hexadecimal digit. -/
theorem zipWith_uuidCharOk_mem (shape : List Bool) (cs : List Char)
    (hlen : cs.length = shape.length) (hall : (List.zipWith uuidCharOk shape cs).all id = true)
    (c : Char) (hc : c ∈ cs) : c = '-' ∨ isHexDigit c = true := by
  induction shape generalizing cs with
  | nil =>
    cases cs with
    | nil => simp at hc
    | cons a as => simp at hlen
  | cons b bs ih =>
    cases cs with
    | nil => simp at hc
    | cons a as =>
      simp only [List.zipWith_cons_cons, List.all_cons, Bool.and_eq_true, id] at hall
      simp only [List.length_cons, add_left_inj] at hlen
      rcases List.mem_cons.mp hc with h | h
      · subst h
        cases b <;> simp_all [uuidCharOk]
      · exact ih as hlen hall.2 h

/-- A string that parses as a UUID has 36 characters, each a dash or a hexadecimal digit. -/
theorem uuid_chars_of_parse (u : String) (hu : uuid.ParseUUID u = none) :
    u.toList.length = 36 ∧ ∀ c ∈ u.toList, c = '-' ∨ isHexDigit c = true := by
  unfold uuid.ParseUUID at hu
  split at hu
  · simp at hu
  · rename_i hlen
    split at hu
    · rename_i hok
      simp only [isUUIDChars, Bool.and_eq_true, beq_iff_eq] at hok
      exact ⟨by simpa using hlen, zipWith_uuidCharOk_mem uuidShape u.toList hok.1 hok.2⟩
    · simp at hu

/-- A string that parses as a UUID is not empty and holds no slash. -/
theorem uuid_no_slash (u : String) (hu : uuid.ParseUUID u = none) :
    u.toList ≠ [] ∧ '/' ∉ u.toList := by
  obtain ⟨hlen, hchars⟩ := uuid_chars_of_parse u hu
  refine ⟨?_, ?_⟩
  · intro h
    rw [h] at hlen
    simp at hlen
  · intro h
    rcases hchars '/' h with h1 | h1
    · exact absurd h1 (by decide)
    · exact absurd h1 (by decide)

/-- The structured form of an id that is not empty and holds no slash parses back to that id. -/
theorem ParseApplicationID_structured (u : String) (hne : u.toList ≠ [])
    (hslash : '/' ∉ u.toList) : ParseApplicationID ("/applications/" ++ u) = .ok ⟨u⟩ := by
  have hcs : ("/applications/" ++ u).toList = applicationsSegment ++ u.toList := by
    simp [applicationsSegment]
  have hpre : applicationsSegment.isPrefixOf (applicationsSegment ++ u.toList) = true :=
    List.isPrefixOf_iff_prefix.mpr (List.prefix_append _ _)
  have hempty : u.toList.isEmpty = false := by
    cases h : u.toList with
    | nil => exact absurd h hne
    | cons a as => rfl
  have hcont : u.toList.contains '/' = false := by
    cases h : u.toList.contains '/' with
    | false => rfl
    | true => exact absurd (List.elem_iff.mp h) hslash
  simp only [ParseApplicationID, hcs, hpre, List.drop_left, hempty, hcont, if_true]
  simp

/-- A structured application ID never parses as a bare UUID. -/
theorem structured_not_uuid (u : String) (hu : uuid.ParseUUID u = none) :
    uuid.ParseUUID ("/applications/" ++ u) ≠ none := by
  have hlen := (uuid_chars_of_parse u hu).1
  have h : ("/applications/" ++ u).toList.length ≠ 36 := by
    have : ("/applications/" ++ u).toList = "/applications/".toList ++ u.toList := by simp
    rw [this, List.length_append, hlen]
    decide
  unfold uuid.ParseUUID
  rw [if_pos h]
  exact Option.some_ne_none _

/-- C2 (as stated, refuted): with the structured form as the old value and the bare UUID as the
new value, the rule reports a change although both denote the same application. -/
theorem diffSuppress_structured_old_reports_change :
    uuid.ParseUUID sampleUUID = none ∧
      applicationObjectIdDiffSuppressFunc ("/applications/" ++ sampleUUID) sampleUUID = false := by
  decide

/-- C2 (amended): for every valid UUID, the rule reports no change when the old value is the bare
UUID and the new value is the structured application ID of that UUID; with the structured form as
the old value and the bare UUID as the new value it reports a change. -/
theorem diffSuppress_bare_old_structured_new (u : String) (hu : uuid.ParseUUID u = none) :
    applicationObjectIdDiffSuppressFunc u ("/applications/" ++ u) = true ∧
      applicationObjectIdDiffSuppressFunc ("/applications/" ++ u) u = false := by
  obtain ⟨hne, hslash⟩ := uuid_no_slash u hu
  constructor
  · simp [applicationObjectIdDiffSuppressFunc, hu, ParseApplicationID_structured u hne hslash]
  · have h := structured_not_uuid u hu
    unfold applicationObjectIdDiffSuppressFunc
    cases hp : uuid.ParseUUID ("/applications/" ++ u) with
    | none => exact absurd hp h
    | some e => rfl

/-- Witness of C2 (amended): the sample UUID. -/
theorem diffSuppress_bare_old_structured_new_witness :
    uuid.ParseUUID sampleUUID = none ∧
      applicationObjectIdDiffSuppressFunc sampleUUID ("/applications/" ++ sampleUUID) = true ∧
      applicationObjectIdDiffSuppressFunc ("/applications/" ++ sampleUUID) sampleUUID = false :=
  ⟨by decide, diffSuppress_bare_old_structured_new sampleUUID (by decide)⟩

/-! ## Client calls and the trace -/

/-- The trace after `GetApplication`. -/
theorem callGetApplication_trace {σ : Type} (client : ApplicationClient σ) (id : ApplicationId)
    (w w1 : World σ) (r : GetApplicationOperationResponse × Option GoError)
    (h : client.callGetApplication id w = (r, w1)) :
    w1.trace = w.trace ++ [Event.GetApplication id] := by
  have := congrArg (fun x => x.2.trace) h
  simpa [ApplicationClient.callGetApplication] using this.symm

/-- The trace after `AddPassword`. -/
theorem callAddPassword_trace {σ : Type} (client : ApplicationClient σ) (id : ApplicationId)
    (request : AddPasswordRequest) (w w1 : World σ)
    (r : AddPasswordOperationResponse × Option GoError)
    (h : client.callAddPassword id request w = (r, w1)) :
    w1.trace = w.trace ++ [Event.AddPassword id request] := by
  have := congrArg (fun x => x.2.trace) h
  simpa [ApplicationClient.callAddPassword] using this.symm

/-! ## The waiter -/

/-- An event that no probe adds to the trace is not added by the poll loop. -/
theorem waitLoop_trace_mem {σ R : Type} (conf : StateChangeConf σ R) (e : Event)
    (hprobe : ∀ w0, e ∈ (conf.Refresh w0).2.trace → e ∈ w0.trace)
    (ticks streak polls : Nat) (w : World σ)
    (hmem : e ∈ (waitLoop conf ticks streak polls w).2.trace) : e ∈ w.trace := by
  induction ticks generalizing streak polls w with
  | zero => simpa [waitLoop] using hmem
  | succ n ih =>
    apply hprobe
    rcases hr : conf.Refresh w with ⟨out, w1⟩
    unfold waitLoop at hmem
    rw [hr] at hmem
    cases out with
    | panicked msg => simpa using hmem
    | ret r =>
      rcases r with ⟨res, state, err⟩
      cases err with
      | some e1 => simpa using hmem
      | none =>
        simp only [] at hmem
        split at hmem
        · split at hmem
          · simpa using hmem
          · exact ih _ _ _ hmem
        · exact ih _ _ _ hmem

/-- A result returned by the poll loop is the result of the probe's last poll, which reported a
target state without error. -/
theorem waitLoop_result_observed {σ R : Type} (conf : StateChangeConf σ R)
    (ticks streak polls : Nat) (w w3 : World σ) (o : WaitOutcome R) (r : R)
    (hloop : waitLoop conf ticks streak polls w = (.ret o, w3)) (hres : o.result = some r) :
    ∃ (w0 : World σ) (state : String),
      conf.Refresh w0 = (.ret (some r, state, none), w3) ∧ conf.Target.contains state = true := by
  induction ticks generalizing streak polls w with
  | zero =>
    simp only [waitLoop, Prod.mk.injEq, Go.ret.injEq] at hloop
    rw [← hloop.1] at hres
    simp at hres
  | succ n ih =>
    rcases hr : conf.Refresh w with ⟨out, w1⟩
    unfold waitLoop at hloop
    rw [hr] at hloop
    cases out with
    | panicked msg => simp at hloop
    | ret x =>
      rcases x with ⟨res, state, err⟩
      cases err with
      | some e1 =>
        simp only [Prod.mk.injEq, Go.ret.injEq] at hloop
        rw [← hloop.1] at hres
        simp at hres
      | none =>
        simp only [] at hloop
        split at hloop
        · rename_i htarget
          split at hloop
          · simp only [Prod.mk.injEq, Go.ret.injEq] at hloop
            rw [← hloop.1] at hres
            simp only at hres
            refine ⟨w, state, ?_, htarget⟩
            rw [hr, hres, hloop.2]
          · exact ih _ _ _ hloop
        · exact ih _ _ _ hloop

/-- The probe of password Create adds only a read of the parent application to the trace. -/
theorem create_Refresh_trace {σ : Type} (client : ApplicationClient σ)
    (applicationId : ApplicationId) (id : CredentialId) (w : World σ) :
    (applicationPasswordResourceCreate.Refresh client applicationId id w).2.trace =
      w.trace ++ [Event.GetApplication applicationId] := by
  unfold applicationPasswordResourceCreate.Refresh
  rcases hget : client.callGetApplication applicationId w with ⟨⟨resp, err⟩, w1⟩
  have ht := callGetApplication_trace _ _ _ _ _ hget
  cases err with
  | some e => simpa using ht
  | none =>
    simp only []
    split
    · simpa using ht
    · split
      · split <;> simpa using ht
      · simpa using ht

/-! ## Password Create: from the wait on -/

/-- Once the parent was resolved and fetched and the add-password response passed its checks,
Create is decided by the outcome of the wait. -/
theorem create_from_wait {σ : Type} (client : ApplicationClient σ)
    (gen : PasswordCredentialGenerator) (wait : Waiter σ PasswordCredential) (ctx : Context)
    (d : ResourceData) (w w1 w2 : World σ) (applicationId : ApplicationId)
    (credential newCredential : PasswordCredential) (resp : GetApplicationOperationResponse)
    (app : Application) (appId : String) (addResp : AddPasswordOperationResponse)
    (hparent : applicationPasswordResourceCreate.applicationId d = .ok applicationId)
    (hgen : gen d = (some credential, none))
    (hget : client.callGetApplication applicationId
      (w.log (Event.Lock applicationResourceName applicationId.ApplicationId)) =
        ((resp, none), w1))
    (hmodel : resp.Model = some app) (hid : app.Id = some appId)
    (hadd : client.callAddPassword applicationId ⟨some credential⟩ w1 = ((addResp, none), w2))
    (hnew : addResp.Model = some newCredential)
    (hkey : newCredential.KeyId.IsNull = false)
    (hsecret : newCredential.SecretText.GetOrZero.length ≠ 0) :
    applicationPasswordResourceCreate client gen wait ctx d w =
      match wait (applicationPasswordResourceCreate.conf client ctx applicationId
          (parse.NewCredentialID applicationId.ApplicationId "password"
            newCredential.KeyId.GetOrZero)) ctx (w2.log Event.WaitStarted) with
      | (.panicked msg, w3) =>
        (.panicked msg, d,
          w3.log (Event.Unlock applicationResourceName applicationId.ApplicationId))
      | (.ret (_, some err), w3) =>
        (.ret (tf.ErrorDiagF (some err)
          ("Waiting for password credential for " ++ applicationId.String)), d,
          w3.log (Event.Unlock applicationResourceName applicationId.ApplicationId))
      | (.ret (none, none), w3) =>
        (.ret (tf.ErrorDiagF (some "password credential not found in application manifest")
          ("Waiting for password credential for " ++ applicationId.String)), d,
          w3.log (Event.Unlock applicationResourceName applicationId.ApplicationId))
      | (.ret (some _, none), w3) =>
        ((.ret (applicationPasswordResourceRead client
            ((d.SetId (parse.NewCredentialID applicationId.ApplicationId "password"
              newCredential.KeyId.GetOrZero).String).Set "value"
              newCredential.SecretText.GetOrZero) w3).1),
          (applicationPasswordResourceRead client
            ((d.SetId (parse.NewCredentialID applicationId.ApplicationId "password"
              newCredential.KeyId.GetOrZero).String).Set "value"
              newCredential.SecretText.GetOrZero) w3).2.1,
          (applicationPasswordResourceRead client
            ((d.SetId (parse.NewCredentialID applicationId.ApplicationId "password"
              newCredential.KeyId.GetOrZero).String).Set "value"
              newCredential.SecretText.GetOrZero) w3).2.2.log
            (Event.Unlock applicationResourceName applicationId.ApplicationId)) := by
  simp only [applicationPasswordResourceCreate, hparent, hgen, hget, hmodel, hid, hadd, hnew,
    hkey, hsecret, Option.isNone_some, Option.some_bind, Bool.or_self, Bool.false_eq_true,
    if_false]
  split <;> simp_all

/-- Read is entered by Create only after a wait that returned a credential. -/
theorem create_read_needs_wait {σ : Type} (client : ApplicationClient σ)
    (gen : PasswordCredentialGenerator) (wait : Waiter σ PasswordCredential) (ctx : Context)
    (d : ResourceData) (w : World σ)
    (hfresh : Event.ReadInvoked "applicationPasswordResourceRead" ∉ w.trace)
    (hwait : ∀ applicationId id w0,
      Event.ReadInvoked "applicationPasswordResourceRead" ∈
        (wait (applicationPasswordResourceCreate.conf client ctx applicationId id) ctx
          w0).2.trace →
      Event.ReadInvoked "applicationPasswordResourceRead" ∈ w0.trace)
    (hmem : Event.ReadInvoked "applicationPasswordResourceRead" ∈
      (applicationPasswordResourceCreate client gen wait ctx d w).2.2.trace) :
    ∃ (applicationId : ApplicationId) (credential : PasswordCredential) (w1 w2 w3 : World σ)
      (addResp : AddPasswordOperationResponse) (newCredential cred : PasswordCredential),
      client.callAddPassword applicationId ⟨some credential⟩ w1 = ((addResp, none), w2) ∧
        addResp.Model = some newCredential ∧
        wait (applicationPasswordResourceCreate.conf client ctx applicationId
          (parse.NewCredentialID applicationId.ApplicationId "password"
            newCredential.KeyId.GetOrZero)) ctx (w2.log Event.WaitStarted) =
          (.ret (some cred, none), w3) := by
  cases hparent : applicationPasswordResourceCreate.applicationId d with
  | error diags =>
    simp only [applicationPasswordResourceCreate, hparent] at hmem
    exact absurd hmem hfresh
  | ok applicationId =>
    rcases hgen : gen d with ⟨c, e⟩
    cases e with
    | some err =>
      simp only [applicationPasswordResourceCreate, hparent, hgen] at hmem
      exact absurd hmem hfresh
    | none =>
      cases c with
      | none =>
        simp only [applicationPasswordResourceCreate, hparent, hgen] at hmem
        exact absurd hmem hfresh
      | some credential =>
        rcases hget : client.callGetApplication applicationId
          (w.log (Event.Lock applicationResourceName applicationId.ApplicationId))
          with ⟨⟨resp, err⟩, w1⟩
        have ht1 := callGetApplication_trace _ _ _ _ _ hget
        cases err with
        | some e =>
          simp only [applicationPasswordResourceCreate, hparent, hgen, hget] at hmem
          split at hmem <;> simp_all [World.log]
        | none =>
          simp only [applicationPasswordResourceCreate, hparent, hgen, hget] at hmem
          split at hmem
          · simp_all [World.log]
          · rcases hadd : client.callAddPassword applicationId ⟨some credential⟩ w1
              with ⟨⟨addResp, err⟩, w2⟩
            have ht2 := callAddPassword_trace _ _ _ _ _ _ hadd
            cases err with
            | some e => simp_all [World.log]
            | none =>
              cases hnew : addResp.Model with
              | none => simp_all [World.log]
              | some newCredential =>
                simp only [hadd, hnew] at hmem
                split at hmem
                · simp_all [World.log]
                · split at hmem
                  · simp_all [World.log]
                  · rcases hw : wait (applicationPasswordResourceCreate.conf client ctx
                        applicationId (parse.NewCredentialID applicationId.ApplicationId
                          "password" newCredential.KeyId.GetOrZero)) ctx
                        (w2.log Event.WaitStarted) with ⟨out, w3⟩
                    have hw3 := hwait applicationId (parse.NewCredentialID
                      applicationId.ApplicationId "password" newCredential.KeyId.GetOrZero)
                      (w2.log Event.WaitStarted)
                    rw [hw] at hw3
                    have hno : Event.ReadInvoked "applicationPasswordResourceRead" ∉ w3.trace := by
                      intro h
                      have := hw3 h
                      simp_all [World.log]
                    cases out with
                    | panicked msg => simp_all [World.log]
                    | ret r =>
                      rcases r with ⟨res, err⟩
                      cases err with
                      | some e => simp_all [World.log]
                      | none =>
                        cases res with
                        | none => simp_all [World.log]
                        | some cred =>
                          exact ⟨applicationId, credential, w1, w2, w3, addResp, newCredential,
                            cred, hadd, hnew, hw⟩


/-- When the probe of password Create returns a credential, the fetch of the parent succeeded and
the credential is an entry of the parent's collection whose key id matches the new key id. -/
theorem create_Refresh_result {σ : Type} (client : ApplicationClient σ)
    (applicationId : ApplicationId) (id : CredentialId) (w0 w3 : World σ)
    (cred : PasswordCredential) (state : String)
    (h : applicationPasswordResourceCreate.Refresh client applicationId id w0 =
      (.ret (some cred, state, none), w3)) :
    ∃ (resp : GetApplicationOperationResponse) (app : Application)
      (creds : List PasswordCredential),
      client.callGetApplication applicationId w0 = ((resp, none), w3) ∧
        resp.Model = some app ∧ app.PasswordCredentials = some creds ∧ cred ∈ creds ∧
        EqualFold cred.KeyId.GetOrZero id.KeyId = true := by
  unfold applicationPasswordResourceCreate.Refresh at h
  rcases hget : client.callGetApplication applicationId w0 with ⟨⟨resp, err⟩, w1⟩
  rw [hget] at h
  cases err with
  | some e => simp at h
  | none =>
    simp only [] at h
    cases hm : resp.Model with
    | none => simp [hm] at h
    | some app =>
      cases hc : app.PasswordCredentials with
      | none => simp [hm, hc] at h
      | some creds =>
        cases hf : creds.find? (fun cred => EqualFold cred.KeyId.GetOrZero id.KeyId) with
        | none => simp [hm, hc, hf] at h
        | some c =>
          simp only [hm, hc, hf, Prod.mk.injEq, Go.ret.injEq, Option.some.injEq] at h
          obtain ⟨⟨hcred, -⟩, hw⟩ := h
          subst hcred hw
          exact ⟨resp, app, creds, rfl, hm, hc, List.mem_of_find?_eq_some hf,
            @List.find?_some PasswordCredential
              (fun cred => EqualFold cred.KeyId.GetOrZero id.KeyId) _ _ hf⟩

/-- The modelled waiter, run on the configuration of password Create, adds only reads of the
parent application to the trace. -/
theorem WaitForStateContext_create_trace {σ : Type} (client : ApplicationClient σ)
    (ctx ctx0 : Context) (applicationId : ApplicationId) (id : CredentialId) (w0 : World σ)
    (e : Event) (hne : e ≠ Event.GetApplication applicationId)
    (hmem : e ∈ ((applicationPasswordResourceCreate.conf client ctx applicationId
      id).WaitForStateContext ctx0 w0).2.trace) : e ∈ w0.trace := by
  have hprobe : ∀ w1, e ∈ ((applicationPasswordResourceCreate.conf client ctx applicationId
      id).Refresh w1).2.trace → e ∈ w1.trace := by
    intro w1 h
    simp only [applicationPasswordResourceCreate.conf, create_Refresh_trace,
      List.mem_append, List.mem_singleton] at h
    rcases h with h | h
    · exact h
    · exact absurd h hne
  apply waitLoop_trace_mem _ e hprobe (applicationPasswordResourceCreate.conf client ctx
    applicationId id).Timeout 0 0 w0
  unfold StateChangeConf.WaitForStateContext at hmem
  split at hmem
  · rename_i h
    rw [h]
    exact hmem
  · rename_i h
    rw [h]
    exact hmem

/-- C3: password Create enters its final Read only after the wait returned the new credential
without error, and with the modelled waiter that credential was observed by the last poll in the
parent's collection; if the wait returns an error, or no credential ("password credential not
found in application manifest"), Create returns an error diagnostic with the local state (identity
and value) untouched and the trace of the wait extended by the unlock only, so without a Read. -/
theorem create_reads_only_after_wait {σ : Type} (client : ApplicationClient σ)
    (gen : PasswordCredentialGenerator) (wait : Waiter σ PasswordCredential) (ctx : Context)
    (d : ResourceData) (w : World σ)
    (hfresh : Event.ReadInvoked "applicationPasswordResourceRead" ∉ w.trace)
    (hwait : ∀ applicationId id w0,
      Event.ReadInvoked "applicationPasswordResourceRead" ∈
        (wait (applicationPasswordResourceCreate.conf client ctx applicationId id) ctx
          w0).2.trace →
      Event.ReadInvoked "applicationPasswordResourceRead" ∈ w0.trace) :
    (Event.ReadInvoked "applicationPasswordResourceRead" ∈
        (applicationPasswordResourceCreate client gen wait ctx d w).2.2.trace →
      ∃ (applicationId : ApplicationId) (credential : PasswordCredential) (w1 w2 w3 : World σ)
        (addResp : AddPasswordOperationResponse) (newCredential cred : PasswordCredential),
        client.callAddPassword applicationId ⟨some credential⟩ w1 = ((addResp, none), w2) ∧
          addResp.Model = some newCredential ∧
          wait (applicationPasswordResourceCreate.conf client ctx applicationId
            (parse.NewCredentialID applicationId.ApplicationId "password"
              newCredential.KeyId.GetOrZero)) ctx (w2.log Event.WaitStarted) =
            (.ret (some cred, none), w3)) ∧
    (∀ (applicationId : ApplicationId) (id : CredentialId) (w2 w3 : World σ)
        (cred : PasswordCredential),
      (applicationPasswordResourceCreate.conf client ctx applicationId id).WaitForStateContext
          ctx w2 = (.ret (some cred, none), w3) →
      ∃ (w0 : World σ) (resp : GetApplicationOperationResponse) (app : Application)
        (creds : List PasswordCredential),
        client.callGetApplication applicationId w0 = ((resp, none), w3) ∧
          resp.Model = some app ∧ app.PasswordCredentials = some creds ∧ cred ∈ creds ∧
          EqualFold cred.KeyId.GetOrZero id.KeyId = true) ∧
    (∀ (w1 w2 w3 : World σ) (applicationId : ApplicationId)
        (credential newCredential : PasswordCredential) (resp : GetApplicationOperationResponse)
        (app : Application) (appId : String) (addResp : AddPasswordOperationResponse)
        (res : Option PasswordCredential) (err : Option GoError),
      applicationPasswordResourceCreate.applicationId d = .ok applicationId →
      gen d = (some credential, none) →
      client.callGetApplication applicationId
        (w.log (Event.Lock applicationResourceName applicationId.ApplicationId)) =
          ((resp, none), w1) →
      resp.Model = some app → app.Id = some appId →
      client.callAddPassword applicationId ⟨some credential⟩ w1 = ((addResp, none), w2) →
      addResp.Model = some newCredential →
      newCredential.KeyId.IsNull = false →
      newCredential.SecretText.GetOrZero.length ≠ 0 →
      wait (applicationPasswordResourceCreate.conf client ctx applicationId
        (parse.NewCredentialID applicationId.ApplicationId "password"
          newCredential.KeyId.GetOrZero)) ctx (w2.log Event.WaitStarted) =
          (.ret (res, err), w3) →
      (err ≠ none ∨ res = none) →
      applicationPasswordResourceCreate client gen wait ctx d w =
        (.ret (tf.ErrorDiagF
            (some (err.getD "password credential not found in application manifest"))
            ("Waiting for password credential for " ++ applicationId.String)),
          d, w3.log (Event.Unlock applicationResourceName applicationId.ApplicationId)) ∧
        Event.ReadInvoked "applicationPasswordResourceRead" ∉
          (applicationPasswordResourceCreate client gen wait ctx d w).2.2.trace) := by
  refine ⟨create_read_needs_wait client gen wait ctx d w hfresh hwait, ?_, ?_⟩
  · intro applicationId id w2 w3 cred hw
    unfold StateChangeConf.WaitForStateContext at hw
    rcases hl : waitLoop (applicationPasswordResourceCreate.conf client ctx applicationId id)
      (applicationPasswordResourceCreate.conf client ctx applicationId id).Timeout 0 0 w2
      with ⟨out, w4⟩
    rw [hl] at hw
    cases out with
    | panicked msg => simp at hw
    | ret o =>
      simp only [Prod.mk.injEq, Go.ret.injEq] at hw
      obtain ⟨⟨hres, -⟩, hw4⟩ := hw
      subst hw4
      obtain ⟨w0, state, hrefresh, -⟩ := waitLoop_result_observed _ _ _ _ _ _ _ _ hl hres
      obtain ⟨resp, app, creds, h⟩ := create_Refresh_result client applicationId id w0 w4 cred
        state hrefresh
      exact ⟨w0, resp, app, creds, h⟩
  · intro w1 w2 w3 applicationId credential newCredential resp app appId addResp res err
      hparent hgen hget hmodel hid hadd hnew hkey hsecret hw hbad
    have hcreate := create_from_wait client gen wait ctx d w w1 w2 applicationId credential
      newCredential resp app appId addResp hparent hgen hget hmodel hid hadd hnew hkey hsecret
    rw [hw] at hcreate
    have hno : Event.ReadInvoked "applicationPasswordResourceRead" ∉ w3.trace := by
      intro h
      have h3 := hwait applicationId (parse.NewCredentialID applicationId.ApplicationId
        "password" newCredential.KeyId.GetOrZero) (w2.log Event.WaitStarted)
      rw [hw] at h3
      have h2 := h3 h
      have ht1 := callGetApplication_trace _ _ _ _ _ hget
      have ht2 := callAddPassword_trace _ _ _ _ _ _ hadd
      simp [World.log, ht2, ht1] at h2
      exact hfresh h2
    cases err with
    | some e =>
      simp only [] at hcreate
      rw [hcreate]
      simp [World.log, hno]
    | none =>
      cases res with
      | some c => simp at hbad
      | none =>
        simp only [] at hcreate
        rw [hcreate]
        simp [World.log, hno]

/-- Witness of C3: against the eventually consistent service, with ten ticks Create reaches its
Read after a wait that returned the credential; with two ticks the wait times out and Create fails
with the local state untouched and no Read. -/
theorem create_reads_only_after_wait_witness :
    (∃ (applicationId : ApplicationId) (credential : PasswordCredential) (w1 w2 w3 : World Nat)
        (addResp : AddPasswordOperationResponse) (newCredential cred : PasswordCredential),
        (delayedApplicationClient 1).callAddPassword applicationId ⟨some credential⟩ w1 =
            ((addResp, none), w2) ∧
          addResp.Model = some newCredential ∧
          (applicationPasswordResourceCreate.conf (delayedApplicationClient 1) ⟨some 10⟩
            applicationId (parse.NewCredentialID applicationId.ApplicationId "password"
              newCredential.KeyId.GetOrZero)).WaitForStateContext ⟨some 10⟩
              (w2.log Event.WaitStarted) = (.ret (some cred, none), w3)) ∧
      (applicationPasswordResourceCreate (delayedApplicationClient 1) sampleGenerator
          StateChangeConf.WaitForStateContext ⟨some 2⟩ sampleCreateData startWorld).2.1 =
        sampleCreateData ∧
      Event.ReadInvoked "applicationPasswordResourceRead" ∉
        (applicationPasswordResourceCreate (delayedApplicationClient 1) sampleGenerator
          StateChangeConf.WaitForStateContext ⟨some 2⟩ sampleCreateData startWorld).2.2.trace :=
  ⟨(create_reads_only_after_wait (delayedApplicationClient 1) sampleGenerator
      StateChangeConf.WaitForStateContext ⟨some 10⟩ sampleCreateData startWorld (by decide)
      (fun applicationId id w0 h =>
        WaitForStateContext_create_trace _ _ _ applicationId id w0 _ (by simp) h)).1
      (by decide),
    by
      have h := (create_reads_only_after_wait (delayedApplicationClient 1) sampleGenerator
        StateChangeConf.WaitForStateContext ⟨some 2⟩ sampleCreateData startWorld (by decide)
        (fun applicationId id w0 h =>
          WaitForStateContext_create_trace _ _ _ applicationId id w0 _ (by simp) h)).2.2
        ⟨1, [Event.Lock applicationResourceName sampleUUID,
          Event.GetApplication ⟨sampleUUID⟩]⟩
        ⟨1, [Event.Lock applicationResourceName sampleUUID,
          Event.GetApplication ⟨sampleUUID⟩,
          Event.AddPassword ⟨sampleUUID⟩ ⟨(sampleGenerator sampleCreateData).1⟩]⟩
        ⟨3, [Event.Lock applicationResourceName sampleUUID,
          Event.GetApplication ⟨sampleUUID⟩,
          Event.AddPassword ⟨sampleUUID⟩ ⟨(sampleGenerator sampleCreateData).1⟩,
          Event.WaitStarted, Event.GetApplication ⟨sampleUUID⟩,
          Event.GetApplication ⟨sampleUUID⟩]⟩
        ⟨sampleUUID⟩ _ sampleNewCredential
        ⟨some 200, some ⟨some sampleUUID, some []⟩⟩ ⟨some sampleUUID, some []⟩ sampleUUID
        ⟨some 200, some sampleNewCredential⟩ none
        (some "timeout while waiting for state to become Done")
        rfl rfl rfl rfl rfl rfl rfl rfl (by decide) rfl (Or.inl (by simp))
      exact ⟨by rw [h.1], h.2⟩⟩

/-! ## Password Create: the checks before the wait -/

/-- C4: when the add-password call returns no error but its response carries no model, a null key
id, or an absent or empty secret text, password Create returns an error diagnostic ("API error
adding password"), unlocks right after the add-password call without starting the wait, and leaves
the local state (identity and value attribute) as it was. -/
theorem create_rejects_invalid_add_response {σ : Type} (client : ApplicationClient σ)
    (gen : PasswordCredentialGenerator) (wait : Waiter σ PasswordCredential) (ctx : Context)
    (d : ResourceData) (w w1 w2 : World σ) (applicationId : ApplicationId)
    (credential : PasswordCredential) (resp : GetApplicationOperationResponse)
    (app : Application) (appId : String) (addResp : AddPasswordOperationResponse)
    (hparent : applicationPasswordResourceCreate.applicationId d = .ok applicationId)
    (hgen : gen d = (some credential, none))
    (hget : client.callGetApplication applicationId
      (w.log (Event.Lock applicationResourceName applicationId.ApplicationId)) =
        ((resp, none), w1))
    (hmodel : resp.Model = some app) (hid : app.Id = some appId)
    (hadd : client.callAddPassword applicationId ⟨some credential⟩ w1 = ((addResp, none), w2))
    (hbad : addResp.Model = none ∨
      ∃ newCredential, addResp.Model = some newCredential ∧
        (newCredential.KeyId = .null ∨ newCredential.SecretText = .unset ∨
          newCredential.SecretText = .null ∨ newCredential.SecretText = .value "")) :
    (∃ msg : GoError,
      applicationPasswordResourceCreate client gen wait ctx d w =
        (.ret (tf.ErrorDiagF (some msg)
            ("API error adding password for " ++ applicationId.String)),
          d, w2.log (Event.Unlock applicationResourceName applicationId.ApplicationId))) ∧
      (applicationPasswordResourceCreate client gen wait ctx d w).2.2.trace =
        w.trace ++ [Event.Lock applicationResourceName applicationId.ApplicationId,
          Event.GetApplication applicationId,
          Event.AddPassword applicationId ⟨some credential⟩,
          Event.Unlock applicationResourceName applicationId.ApplicationId] ∧
      (∃ diags, (applicationPasswordResourceCreate client gen wait ctx d w).1 = .ret diags ∧
        diags.HasError = true) ∧
      (applicationPasswordResourceCreate client gen wait ctx d w).2.1.Id = d.Id ∧
      (applicationPasswordResourceCreate client gen wait ctx d w).2.1.Get "value" =
        d.Get "value" := by
  have ht1 := callGetApplication_trace _ _ _ _ _ hget
  have ht2 := callAddPassword_trace _ _ _ _ _ _ hadd
  have key : ∃ msg : GoError,
      applicationPasswordResourceCreate client gen wait ctx d w =
        (.ret (tf.ErrorDiagF (some msg)
            ("API error adding password for " ++ applicationId.String)),
          d, w2.log (Event.Unlock applicationResourceName applicationId.ApplicationId)) := by
    rcases hbad with hnone | ⟨newCredential, hnew, hfield⟩
    · exact ⟨"nil credential received when adding password", by
        simp [applicationPasswordResourceCreate, hparent, hgen, hget, hmodel, hid, hadd, hnone]⟩
    · by_cases hkey : newCredential.KeyId.IsNull = true
      · exact ⟨"nil or empty keyId received", by
          simp [applicationPasswordResourceCreate, hparent, hgen, hget, hmodel, hid, hadd, hnew,
            hkey]⟩
      · have hsecret : newCredential.SecretText.GetOrZero.length = 0 := by
          rcases hfield with h | h | h | h
          · rw [h] at hkey
            exact absurd rfl hkey
          · rw [h]; rfl
          · rw [h]; rfl
          · rw [h]; rfl
        exact ⟨"nil or empty password received", by
          simp [applicationPasswordResourceCreate, hparent, hgen, hget, hmodel, hid, hadd, hnew,
            hkey, hsecret]⟩
  obtain ⟨msg, hcreate⟩ := key
  refine ⟨⟨msg, hcreate⟩, ?_, ?_, ?_, ?_⟩
  · rw [hcreate]
    simp [World.log, ht2, ht1]
  · exact ⟨_, by rw [hcreate], by simp [tf.ErrorDiagF, tf.ErrorDiagPathF, Diagnostics.HasError]⟩
  · rw [hcreate]
  · rw [hcreate]

/-- Witness of C4: the service that answers the add-password call with a null key id. -/
theorem create_rejects_invalid_add_response_witness :
    (∃ msg : GoError,
      applicationPasswordResourceCreate nullKeyApplicationClient sampleGenerator
          StateChangeConf.WaitForStateContext ⟨some 10⟩ sampleCreateData startWorld =
        (.ret (tf.ErrorDiagF (some msg)
            ("API error adding password for " ++ (NewApplicationID sampleUUID).String)),
          sampleCreateData,
          (⟨1, [Event.Lock applicationResourceName sampleUUID,
            Event.GetApplication ⟨sampleUUID⟩,
            Event.AddPassword ⟨sampleUUID⟩ ⟨(sampleGenerator sampleCreateData).1⟩]⟩ :
              World Nat).log (Event.Unlock applicationResourceName sampleUUID))) ∧
      Event.WaitStarted ∉
        (applicationPasswordResourceCreate nullKeyApplicationClient sampleGenerator
          StateChangeConf.WaitForStateContext ⟨some 10⟩ sampleCreateData startWorld).2.2.trace :=
  have h := create_rejects_invalid_add_response nullKeyApplicationClient sampleGenerator
    StateChangeConf.WaitForStateContext ⟨some 10⟩ sampleCreateData startWorld
    ⟨1, [Event.Lock applicationResourceName sampleUUID, Event.GetApplication ⟨sampleUUID⟩]⟩
    ⟨1, [Event.Lock applicationResourceName sampleUUID, Event.GetApplication ⟨sampleUUID⟩,
      Event.AddPassword ⟨sampleUUID⟩ ⟨(sampleGenerator sampleCreateData).1⟩]⟩
    ⟨sampleUUID⟩ _ ⟨some 200, some ⟨some sampleUUID, some []⟩⟩ ⟨some sampleUUID, some []⟩
    sampleUUID ⟨some 200, some { sampleNewCredential with KeyId := .null }⟩
    rfl rfl rfl rfl rfl rfl (Or.inr ⟨_, rfl, Or.inl rfl⟩)
  ⟨h.1, by rw [h.2.1]; decide⟩

/-- C9: in password Create, when the fetch of the parent application fails with a not-found
response, Create returns the error "Application with object ID ... was not found"; when it fails
otherwise, or returns no application or an application without id, Create returns an error too; in
each case the only remote call made is that fetch, so the add-password call is never submitted,
and the local state is left as it was. -/
theorem create_fails_before_add_password {σ : Type} (client : ApplicationClient σ)
    (gen : PasswordCredentialGenerator) (wait : Waiter σ PasswordCredential) (ctx : Context)
    (d : ResourceData) (w w1 : World σ) (applicationId : ApplicationId)
    (credential : PasswordCredential) (resp : GetApplicationOperationResponse)
    (err : Option GoError)
    (hparent : applicationPasswordResourceCreate.applicationId d = .ok applicationId)
    (hgen : gen d = (some credential, none))
    (hget : client.callGetApplication applicationId
      (w.log (Event.Lock applicationResourceName applicationId.ApplicationId)) =
        ((resp, err), w1)) :
    (err ≠ none → response.WasNotFound resp.HttpResponse = true →
      (applicationPasswordResourceCreate client gen wait ctx d w).1 =
        .ret (tf.ErrorDiagPathF none "application_object_id"
          ("Application with object ID " ++ quote applicationId.ApplicationId ++
            " was not found"))) ∧
    (err ≠ none → response.WasNotFound resp.HttpResponse = false →
      (applicationPasswordResourceCreate client gen wait ctx d w).1 =
        .ret (tf.ErrorDiagPathF err "application_object_id"
          ("Retrieving application with object ID " ++ quote applicationId.ApplicationId))) ∧
    (err = none → (resp.Model = none ∨ ∃ app, resp.Model = some app ∧ app.Id = none) →
      (applicationPasswordResourceCreate client gen wait ctx d w).1 =
        .ret (tf.ErrorDiagF (some "nil application or application with nil ID was returned")
          ("API error retrieving " ++ applicationId.String))) ∧
    ((err ≠ none ∨ resp.Model = none ∨ ∃ app, resp.Model = some app ∧ app.Id = none) →
      (∃ diags, (applicationPasswordResourceCreate client gen wait ctx d w).1 = .ret diags ∧
        diags.HasError = true) ∧
      (applicationPasswordResourceCreate client gen wait ctx d w).2.1 = d ∧
      (applicationPasswordResourceCreate client gen wait ctx d w).2.2.remote = w1.remote ∧
      (applicationPasswordResourceCreate client gen wait ctx d w).2.2.trace =
        w.trace ++ [Event.Lock applicationResourceName applicationId.ApplicationId,
          Event.GetApplication applicationId,
          Event.Unlock applicationResourceName applicationId.ApplicationId]) := by
  have ht1 := callGetApplication_trace _ _ _ _ _ hget
  have herr : ∀ e, err = some e →
      applicationPasswordResourceCreate client gen wait ctx d w =
        (.ret (if response.WasNotFound resp.HttpResponse = true then
            tf.ErrorDiagPathF none "application_object_id"
              ("Application with object ID " ++ quote applicationId.ApplicationId ++
                " was not found")
          else tf.ErrorDiagPathF (some e) "application_object_id"
              ("Retrieving application with object ID " ++ quote applicationId.ApplicationId)),
          d, w1.log (Event.Unlock applicationResourceName applicationId.ApplicationId)) := by
    intro e he
    subst he
    simp only [applicationPasswordResourceCreate, hparent, hgen, hget]
    split <;> rfl
  have hnil : err = none →
      (resp.Model = none ∨ ∃ app, resp.Model = some app ∧ app.Id = none) →
      applicationPasswordResourceCreate client gen wait ctx d w =
        (.ret (tf.ErrorDiagF (some "nil application or application with nil ID was returned")
          ("API error retrieving " ++ applicationId.String)),
          d, w1.log (Event.Unlock applicationResourceName applicationId.ApplicationId)) := by
    intro he hm
    subst he
    rcases hm with hm | ⟨app, hm, hi⟩
    · simp [applicationPasswordResourceCreate, hparent, hgen, hget, hm]
    · simp [applicationPasswordResourceCreate, hparent, hgen, hget, hm, hi]
  refine ⟨?_, ?_, ?_, ?_⟩
  · intro he hnf
    obtain ⟨e, he⟩ := Option.ne_none_iff_exists'.mp he
    rw [herr e he, if_pos hnf]
  · intro he hnf
    obtain ⟨e, he⟩ := Option.ne_none_iff_exists'.mp he
    rw [herr e he, he]
    simp [hnf]
  · intro he hm
    rw [hnil he hm]
  · intro h
    by_cases he : err = none
    · have hm : resp.Model = none ∨ ∃ app, resp.Model = some app ∧ app.Id = none := by
        rcases h with h | h
        · exact absurd he h
        · exact h
      rw [hnil he hm]
      exact ⟨⟨_, rfl, by simp [tf.ErrorDiagF, tf.ErrorDiagPathF, Diagnostics.HasError]⟩, rfl,
        rfl, by simp [World.log, ht1]⟩
    · obtain ⟨e, he⟩ := Option.ne_none_iff_exists'.mp he
      rw [herr e he]
      refine ⟨⟨_, rfl, ?_⟩, rfl, rfl, by simp [World.log, ht1]⟩
      split <;> simp [tf.ErrorDiagPathF, Diagnostics.HasError]

/-- Witness of C9: the service that answers every call with not-found. -/
theorem create_fails_before_add_password_witness :
    (applicationPasswordResourceCreate notFoundApplicationClient sampleGenerator
        StateChangeConf.WaitForStateContext ⟨some 10⟩ sampleCreateData emptyWorld).1 =
      .ret (tf.ErrorDiagPathF none "application_object_id"
        ("Application with object ID " ++ quote sampleUUID ++ " was not found")) ∧
    (applicationPasswordResourceCreate notFoundApplicationClient sampleGenerator
        StateChangeConf.WaitForStateContext ⟨some 10⟩ sampleCreateData emptyWorld).2.2.trace =
      [Event.Lock applicationResourceName sampleUUID, Event.GetApplication ⟨sampleUUID⟩,
        Event.Unlock applicationResourceName sampleUUID] :=
  have h := create_fails_before_add_password notFoundApplicationClient sampleGenerator
    StateChangeConf.WaitForStateContext ⟨some 10⟩ sampleCreateData emptyWorld
    ⟨(), [Event.Lock applicationResourceName sampleUUID, Event.GetApplication ⟨sampleUUID⟩]⟩
    ⟨sampleUUID⟩ _ ⟨some 404, none⟩ (some "unexpected status 404") rfl rfl rfl
  ⟨h.1 (by simp) rfl, (h.2.2.2 (Or.inl (by simp))).2.2.2⟩

/-! ## Password Read -/

/-- No entry of the collection has the key id: the lookup finds nothing. -/
theorem GetPasswordCredential_none (collection : Option (List PasswordCredential))
    (keyId : String)
    (h : ∀ cred ∈ collection.getD [], EqualFold cred.KeyId.GetOrZero keyId = false) :
    credentials.GetPasswordCredential collection keyId = none := by
  cases collection with
  | none => rfl
  | some creds =>
    simp only [credentials.GetPasswordCredential, List.find?_eq_none]
    intro cred hc
    simpa using h cred (by simpa using hc)

/-- C10: in password Read, when the fetch of the parent application reports not-found, or the
parent is fetched but its collection holds no credential with the key id of the identity, Read
sets the identity to the empty string and returns no error; when the fetch fails otherwise, or
succeeds without a model, Read returns an error and leaves the local state as it was. -/
theorem read_removes_missing_credential {σ : Type} (client : ApplicationClient σ)
    (d : ResourceData) (w w1 : World σ) (id : CredentialId)
    (resp : GetApplicationOperationResponse) (err : Option GoError)
    (hid : parse.PasswordID d.Id = .ok id)
    (hget : client.callGetApplication (NewApplicationID id.ObjectId)
      (w.log (Event.ReadInvoked "applicationPasswordResourceRead")) = ((resp, err), w1)) :
    (err ≠ none → response.WasNotFound resp.HttpResponse = true →
      applicationPasswordResourceRead client d w = ([], d.SetId "", w1)) ∧
    (∀ app, err = none → resp.Model = some app →
      (∀ cred ∈ app.PasswordCredentials.getD [],
        EqualFold cred.KeyId.GetOrZero id.KeyId = false) →
      applicationPasswordResourceRead client d w = ([], d.SetId "", w1)) ∧
    (err ≠ none → response.WasNotFound resp.HttpResponse = false →
      applicationPasswordResourceRead client d w =
        (tf.ErrorDiagPathF err "application_object_id"
          ("Retrieving " ++ (NewApplicationID id.ObjectId).String), d, w1)) ∧
    (err = none → resp.Model = none →
      applicationPasswordResourceRead client d w =
        (tf.ErrorDiagF (some "model was nil")
          ("Retrieving " ++ (NewApplicationID id.ObjectId).String), d, w1)) ∧
    (d.SetId "").Id = "" := by
  refine ⟨?_, ?_, ?_, ?_, rfl⟩
  · intro he hnf
    obtain ⟨e, he⟩ := Option.ne_none_iff_exists'.mp he
    subst he
    simp [applicationPasswordResourceRead, hid, hget, hnf]
  · intro app he hm hnone
    subst he
    have hlook := GetPasswordCredential_none app.PasswordCredentials id.KeyId hnone
    simp [applicationPasswordResourceRead, hid, hget, hm, hlook]
  · intro he hnf
    obtain ⟨e, he⟩ := Option.ne_none_iff_exists'.mp he
    subst he
    simp [applicationPasswordResourceRead, hid, hget, hnf]
  · intro he hm
    subst he
    simp [applicationPasswordResourceRead, hid, hget, hm]

/-- Witness of C10: the parent of the sample identity is reported not-found, and Read clears the
identity without error. -/
theorem read_removes_missing_credential_witness :
    applicationPasswordResourceRead notFoundApplicationClient samplePasswordData emptyWorld =
        ([], samplePasswordData.SetId "",
          ⟨(), [Event.ReadInvoked "applicationPasswordResourceRead",
            Event.GetApplication ⟨sampleUUID⟩]⟩) ∧
      applicationPasswordResourceRead (delayedApplicationClient 1) sampleReadData startWorld =
        ([], sampleReadData.SetId "",
          ⟨1, [Event.ReadInvoked "applicationPasswordResourceRead",
            Event.GetApplication ⟨sampleUUID⟩]⟩) :=
  ⟨(read_removes_missing_credential notFoundApplicationClient samplePasswordData emptyWorld
      ⟨(), [Event.ReadInvoked "applicationPasswordResourceRead",
        Event.GetApplication ⟨sampleUUID⟩]⟩
      samplePasswordId ⟨some 404, none⟩ (some "unexpected status 404") rfl rfl).1
      (by simp) rfl,
    (read_removes_missing_credential (delayedApplicationClient 1) sampleReadData startWorld
      ⟨1, [Event.ReadInvoked "applicationPasswordResourceRead",
        Event.GetApplication ⟨sampleUUID⟩]⟩
      samplePasswordId ⟨some 200, some ⟨some sampleUUID, some []⟩⟩ none rfl rfl).2.1
      ⟨some sampleUUID, some []⟩ rfl rfl (by simp)⟩

/-! ## Password Create: the parent reference -/

/-- C8: in password Create with `application_id` empty, for every valid UUID the bare UUID and
its structured application ID, given as `application_object_id`, resolve to the same parent, the
application ID of that UUID; with `application_id` non-empty the parent is what `application_id`
parses to, whatever `application_object_id` holds; and with `application_id` empty, a value of
`application_object_id` that is neither a UUID nor a structured application ID makes Create return
an error, before any lock or remote call. -/
theorem create_parent_resolution {σ : Type} :
    (∀ (d : ResourceData) (u : String), d.Get "application_id" = "" →
      uuid.ParseUUID u = none →
      (d.Get "application_object_id" = u ∨
        d.Get "application_object_id" = (NewApplicationID u).ID) →
      applicationPasswordResourceCreate.applicationId d = .ok (NewApplicationID u)) ∧
    (∀ (d : ResourceData), d.Get "application_id" ≠ "" →
      (∀ applicationId, ParseApplicationID (d.Get "application_id") = .ok applicationId →
        applicationPasswordResourceCreate.applicationId d = .ok applicationId) ∧
      (∀ d0 : ResourceData, d0.Get "application_id" = d.Get "application_id" →
        applicationPasswordResourceCreate.applicationId d0 =
          applicationPasswordResourceCreate.applicationId d)) ∧
    (∀ (client : ApplicationClient σ) (gen : PasswordCredentialGenerator)
      (wait : Waiter σ PasswordCredential) (ctx : Context) (d : ResourceData) (w : World σ)
      (e1 e2 : GoError), d.Get "application_id" = "" →
      uuid.ParseUUID (d.Get "application_object_id") = some e1 →
      ParseApplicationID (d.Get "application_object_id") = .error e2 →
      ∃ diags, applicationPasswordResourceCreate client gen wait ctx d w = (.ret diags, d, w) ∧
        diags.HasError = true) := by
  refine ⟨?_, ?_, ?_⟩
  · intro d u hempty hu hv
    rcases hv with hv | hv
    · simp [applicationPasswordResourceCreate.applicationId, hempty, hv, hu]
    · obtain ⟨hne, hslash⟩ := uuid_no_slash u hu
      have hnot := structured_not_uuid u hu
      obtain ⟨e, he⟩ := Option.ne_none_iff_exists'.mp hnot
      have hparse := ParseApplicationID_structured u hne hslash
      simp only [AzureAD.ApplicationId.ID, NewApplicationID] at hv
      simp [applicationPasswordResourceCreate.applicationId, hempty, hv, he, hparse,
        NewApplicationID]
  · intro d hset
    refine ⟨?_, ?_⟩
    · intro applicationId hparse
      simp [applicationPasswordResourceCreate.applicationId, hset, hparse]
    · intro d0 hsame
      have hset0 : d0.Get "application_id" ≠ "" := by rw [hsame]; exact hset
      simp only [applicationPasswordResourceCreate.applicationId, hsame]
      rw [if_pos hset, if_pos hset]
  · intro client gen wait ctx d w e1 e2 hempty hu hparse
    refine ⟨tf.ErrorDiagPathF (some e2) "application_id"
      ("Parsing `application_object_id`: " ++ quote (d.Get "application_object_id")), ?_, ?_⟩
    · simp only [applicationPasswordResourceCreate,
        applicationPasswordResourceCreate.applicationId, hempty, hu, hparse]
      rfl
    · simp [tf.ErrorDiagPathF, Diagnostics.HasError]

/-- Witness of C8: the sample UUID in both forms, a set `application_id` next to a malformed
`application_object_id`, and a malformed `application_object_id` alone. -/
theorem create_parent_resolution_witness :
    applicationPasswordResourceCreate.applicationId sampleCreateData =
        .ok (NewApplicationID sampleUUID) ∧
      applicationPasswordResourceCreate.applicationId sampleStructuredCreateData =
        .ok (NewApplicationID sampleUUID) ∧
      applicationPasswordResourceCreate.applicationId sampleBothCreateData =
        .ok (NewApplicationID sampleUUID) ∧
      ∃ diags,
        applicationPasswordResourceCreate (delayedApplicationClient 1) sampleGenerator
            StateChangeConf.WaitForStateContext ⟨some 10⟩ sampleMalformedCreateData startWorld =
          (.ret diags, sampleMalformedCreateData, startWorld) ∧ diags.HasError = true :=
  ⟨(create_parent_resolution (σ := Nat)).1 sampleCreateData sampleUUID rfl (by decide)
      (Or.inl rfl),
    (create_parent_resolution (σ := Nat)).1 sampleStructuredCreateData sampleUUID rfl
      (by decide) (Or.inr rfl),
    ((create_parent_resolution (σ := Nat)).2.1 sampleBothCreateData (by decide)).1
      (NewApplicationID sampleUUID) rfl,
    (create_parent_resolution (σ := Nat)).2.2 (delayedApplicationClient 1) sampleGenerator
      StateChangeConf.WaitForStateContext ⟨some 10⟩ sampleMalformedCreateData startWorld
      "uuid string is wrong length"
      "parsing the ApplicationId: expected the segment applications" rfl rfl rfl⟩

/-! ## The probes of the two Create operations -/

/-- C6: the probe of password Create, when the fetch of the parent succeeds with a model, reports
`Done` together with a matching credential if the parent's password credentials hold an entry
whose key id equals the new key id ignoring letter case, and reports `Waiting` with no result
otherwise (also when the collection is absent or empty); so it reports `Done` exactly when such an
entry exists; when the fetch fails it reports `Error` carrying that failure. -/
theorem create_probe_reports {σ : Type} (client : ApplicationClient σ)
    (applicationId : ApplicationId) (id : CredentialId) (w w1 : World σ)
    (resp : GetApplicationOperationResponse) (err : Option GoError)
    (hget : client.callGetApplication applicationId w = ((resp, err), w1)) :
    (∀ e, err = some e →
      applicationPasswordResourceCreate.Refresh client applicationId id w =
        (.ret (none, "Error", some e), w1)) ∧
    (∀ model, err = none → resp.Model = some model →
      ((∃ cred ∈ model.PasswordCredentials.getD [],
          EqualFold cred.KeyId.GetOrZero id.KeyId = true) →
        ∃ cred ∈ model.PasswordCredentials.getD [],
          EqualFold cred.KeyId.GetOrZero id.KeyId = true ∧
          applicationPasswordResourceCreate.Refresh client applicationId id w =
            (.ret (some cred, "Done", none), w1)) ∧
      ((¬ ∃ cred ∈ model.PasswordCredentials.getD [],
          EqualFold cred.KeyId.GetOrZero id.KeyId = true) →
        applicationPasswordResourceCreate.Refresh client applicationId id w =
          (.ret (none, "Waiting", none), w1)) ∧
      ((∃ res, applicationPasswordResourceCreate.Refresh client applicationId id w =
          (.ret (res, "Done", none), w1)) ↔
        ∃ cred ∈ model.PasswordCredentials.getD [],
          EqualFold cred.KeyId.GetOrZero id.KeyId = true)) := by
  constructor
  · intro e he
    subst he
    simp [applicationPasswordResourceCreate.Refresh, hget]
  · intro model he hm
    subst he
    have hfound : (∃ cred ∈ model.PasswordCredentials.getD [],
          EqualFold cred.KeyId.GetOrZero id.KeyId = true) →
        ∃ cred ∈ model.PasswordCredentials.getD [],
          EqualFold cred.KeyId.GetOrZero id.KeyId = true ∧
          applicationPasswordResourceCreate.Refresh client applicationId id w =
            (.ret (some cred, "Done", none), w1) := by
      rintro ⟨c, hc, heq⟩
      cases hcoll : model.PasswordCredentials with
      | none => simp [hcoll] at hc
      | some creds =>
        rw [hcoll] at hc
        simp only [Option.getD_some] at hc ⊢
        cases hf : creds.find? (fun cred => EqualFold cred.KeyId.GetOrZero id.KeyId) with
        | none =>
          rw [List.find?_eq_none] at hf
          exact absurd heq (hf c hc)
        | some cred =>
          refine ⟨cred, List.mem_of_find?_eq_some hf,
            @List.find?_some PasswordCredential
              (fun cred => EqualFold cred.KeyId.GetOrZero id.KeyId) _ _ hf, ?_⟩
          simp [applicationPasswordResourceCreate.Refresh, hget, hm, hcoll, hf]
    have hmissing : (¬ ∃ cred ∈ model.PasswordCredentials.getD [],
          EqualFold cred.KeyId.GetOrZero id.KeyId = true) →
        applicationPasswordResourceCreate.Refresh client applicationId id w =
          (.ret (none, "Waiting", none), w1) := by
      intro hno
      cases hcoll : model.PasswordCredentials with
      | none => simp [applicationPasswordResourceCreate.Refresh, hget, hm, hcoll]
      | some creds =>
        have hf : creds.find? (fun cred => EqualFold cred.KeyId.GetOrZero id.KeyId) = none := by
          rw [List.find?_eq_none]
          intro c hc heq
          exact hno ⟨c, by simpa [hcoll] using hc, heq⟩
        simp [applicationPasswordResourceCreate.Refresh, hget, hm, hcoll, hf]
    refine ⟨hfound, hmissing, ?_⟩
    constructor
    · rintro ⟨res, hres⟩
      by_contra hno
      rw [hmissing hno] at hres
      simp at hres
    · intro h
      obtain ⟨cred, -, -, hres⟩ := hfound h
      exact ⟨some cred, hres⟩

/-- Witness of C6: the counting service before and after the credential has become visible, and
the service that fails every fetch. -/
theorem create_probe_reports_witness :
    applicationPasswordResourceCreate.Refresh (delayedApplicationClient 1) ⟨sampleUUID⟩
        samplePasswordId startWorld =
      (.ret (none, "Waiting", none), ⟨1, [Event.GetApplication ⟨sampleUUID⟩]⟩) ∧
    (∃ cred ∈ [sampleListedCredential],
      EqualFold cred.KeyId.GetOrZero samplePasswordId.KeyId = true ∧
      applicationPasswordResourceCreate.Refresh (delayedApplicationClient 0) ⟨sampleUUID⟩
          samplePasswordId startWorld =
        (.ret (some cred, "Done", none), ⟨1, [Event.GetApplication ⟨sampleUUID⟩]⟩)) ∧
    applicationPasswordResourceCreate.Refresh notFoundApplicationClient ⟨sampleUUID⟩
        samplePasswordId emptyWorld =
      (.ret (none, "Error", some "unexpected status 404"),
        ⟨(), [Event.GetApplication ⟨sampleUUID⟩]⟩) :=
  ⟨((create_probe_reports (delayedApplicationClient 1) ⟨sampleUUID⟩ samplePasswordId startWorld
      ⟨1, [Event.GetApplication ⟨sampleUUID⟩]⟩ ⟨some 200, some ⟨some sampleUUID, some []⟩⟩ none
      rfl).2 ⟨some sampleUUID, some []⟩ rfl rfl).2.1 (by simp),
    ((create_probe_reports (delayedApplicationClient 0) ⟨sampleUUID⟩ samplePasswordId startWorld
      ⟨1, [Event.GetApplication ⟨sampleUUID⟩]⟩
      ⟨some 200, some ⟨some sampleUUID, some [sampleListedCredential]⟩⟩ none
      rfl).2 ⟨some sampleUUID, some [sampleListedCredential]⟩ rfl rfl).1
      ⟨sampleListedCredential, by simp, by decide⟩,
    (create_probe_reports notFoundApplicationClient ⟨sampleUUID⟩ samplePasswordId emptyWorld
      ⟨(), [Event.GetApplication ⟨sampleUUID⟩]⟩ ⟨some 404, none⟩ (some "unexpected status 404")
      rfl).1 _ rfl⟩

/-- C7: the probe of role-assignment Create reports `Waiting` when the fetch of the new assignment
by its id fails with a not-found response, `Error` when the fetch fails with any other response,
and `Done` when the fetch succeeds. -/
theorem role_assignment_probe_reports {σ : Type} (client : DirectoryRoleAssignmentClient σ)
    (id : RoleManagementDirectoryRoleAssignmentId) (w w1 : World σ)
    (resp : DirectoryRoleAssignmentOperationResponse) (err : Option GoError)
    (hget : client.callGet id w = ((resp, err), w1)) :
    (err ≠ none → response.WasNotFound resp.HttpResponse = true →
      directoryRoleAssignmentResourceCreate.Refresh client id w =
        (.ret (some "stub", "Waiting", none), w1)) ∧
    (err ≠ none → response.WasNotFound resp.HttpResponse = false →
      directoryRoleAssignmentResourceCreate.Refresh client id w =
        (.ret (none, "Error", some "retrieving role assignment"), w1)) ∧
    (err = none →
      directoryRoleAssignmentResourceCreate.Refresh client id w =
        (.ret (some "stub", "Done", none), w1)) := by
  refine ⟨?_, ?_, ?_⟩
  · intro he hnf
    obtain ⟨e, he⟩ := Option.ne_none_iff_exists'.mp he
    subst he
    simp [directoryRoleAssignmentResourceCreate.Refresh, hget, hnf]
  · intro he hnf
    obtain ⟨e, he⟩ := Option.ne_none_iff_exists'.mp he
    subst he
    simp [directoryRoleAssignmentResourceCreate.Refresh, hget, hnf]
  · intro he
    subst he
    simp [directoryRoleAssignmentResourceCreate.Refresh, hget]

/-- Witness of C7: the service that answers every fetch with not-found keeps the probe waiting. -/
theorem role_assignment_probe_reports_witness :
    directoryRoleAssignmentResourceCreate.Refresh notFoundRoleAssignmentClient
        (NewRoleManagementDirectoryRoleAssignmentID sampleUUID) emptyWorld =
      (.ret (some "stub", "Waiting", none),
        ⟨(), [Event.GetDirectoryRoleAssignment
          (NewRoleManagementDirectoryRoleAssignmentID sampleUUID)]⟩) :=
  (role_assignment_probe_reports notFoundRoleAssignmentClient
    (NewRoleManagementDirectoryRoleAssignmentID sampleUUID) emptyWorld
    ⟨(), [Event.GetDirectoryRoleAssignment
      (NewRoleManagementDirectoryRoleAssignmentID sampleUUID)]⟩
    ⟨some 404, none⟩ (some "unexpected status 404") rfl).1 (by simp) rfl

/-! ## The stabilization threshold of the waits -/

/-- With a probe that reports `Done` on every poll, the poll loop needs as many further polls as
the streak lacks to the threshold. -/
theorem waitLoop_all_done {σ R : Type} (conf : StateChangeConf σ R)
    (hT : conf.Target = ["Done"]) (j : Nat) :
    ∀ (ticks streak polls : Nat) (w : World σ),
      conf.ContinuousTargetOccurence = streak + j + 1 →
      (∀ i, ∃ res, observe conf w i = .ret (res, "Done", none)) →
      waitLoop conf ticks streak polls w =
        if j + 1 ≤ ticks then
          (.ret ⟨.Done, observedResult conf w j, none, polls + j + 1⟩, pollWorld conf w (j + 1))
        else
          (.ret ⟨.TimedOut, none, some (timeoutError conf), polls + ticks⟩,
            pollWorld conf w ticks) := by
  induction j with
  | zero =>
    intro ticks streak polls w hN hdone
    cases ticks with
    | zero => simp [waitLoop, pollWorld]
    | succ t =>
      obtain ⟨res, hres⟩ := hdone 0
      rcases hr : conf.Refresh w with ⟨out, w1⟩
      have hout : out = .ret (res, "Done", none) := by
        simpa [observe, pollWorld, hr] using hres
      subst hout
      have hle : conf.ContinuousTargetOccurence ≤ streak + 1 := by omega
      unfold waitLoop
      rw [hr]
      simp [hT, hle, observedResult, observe, pollWorld, hr]
  | succ j ih =>
    intro ticks streak polls w hN hdone
    cases ticks with
    | zero => simp [waitLoop, pollWorld]
    | succ t =>
      obtain ⟨res, hres⟩ := hdone 0
      rcases hr : conf.Refresh w with ⟨out, w1⟩
      have hout : out = .ret (res, "Done", none) := by
        simpa [observe, pollWorld, hr] using hres
      subst hout
      have hlt : ¬ conf.ContinuousTargetOccurence ≤ streak + 1 := by omega
      have hshift : ∀ i, ∃ res, observe conf w1 i = .ret (res, "Done", none) := by
        intro i
        have := hdone (i + 1)
        simpa [observe, pollWorld, hr] using this
      have hnext := ih t (streak + 1) (polls + 1) w1 (by omega) hshift
      unfold waitLoop
      rw [hr]
      simp only [hT, List.contains_cons, beq_self_eq_true, Bool.true_or, if_true, hlt, if_false]
      rw [hnext]
      by_cases hle : j + 1 ≤ t
      · have hle2 : j + 1 + 1 ≤ t + 1 := by omega
        rw [if_pos hle, if_pos hle2]
        simp only [observedResult, observe, pollWorld, hr, Prod.mk.injEq, Go.ret.injEq,
          WaitOutcome.mk.injEq, and_true, true_and]
        omega
      · have hle2 : ¬ j + 1 + 1 ≤ t + 1 := by omega
        rw [if_neg hle, if_neg hle2]
        simp only [pollWorld, hr, Prod.mk.injEq, Go.ret.injEq, WaitOutcome.mk.injEq, and_true,
          true_and]
        omega

/-- With a probe that reports `Waiting` on its first `k` polls and `Done` on all later ones, the
poll loop ends in `Done` on poll `k + N` when the deadline allows that many polls, and in
`TimedOut` otherwise. -/
theorem waitLoop_waiting_then_done {σ R : Type} (conf : StateChangeConf σ R)
    (hT : conf.Target = ["Done"]) (n : Nat) (hN : conf.ContinuousTargetOccurence = n + 1)
    (k : Nat) :
    ∀ (ticks streak polls : Nat) (w : World σ), (k = 0 → streak = 0) →
      (∀ i, i < k → ∃ res, observe conf w i = .ret (res, "Waiting", none)) →
      (∀ i, k ≤ i → ∃ res, observe conf w i = .ret (res, "Done", none)) →
      waitLoop conf ticks streak polls w =
        if k + n + 1 ≤ ticks then
          (.ret ⟨.Done, observedResult conf w (k + n), none, polls + (k + n + 1)⟩,
            pollWorld conf w (k + n + 1))
        else
          (.ret ⟨.TimedOut, none, some (timeoutError conf), polls + ticks⟩,
            pollWorld conf w ticks) := by
  induction k with
  | zero =>
    intro ticks streak polls w hs _ hdone
    have h0 := hs rfl
    subst h0
    have h := waitLoop_all_done conf hT n ticks 0 polls w (by omega)
      (fun i => hdone i (Nat.zero_le i))
    rw [h]
    simp only [Nat.zero_add]
    split
    · simp
      omega
    · simp
  | succ k ih =>
    intro ticks streak polls w _ hwaiting hdone
    cases ticks with
    | zero => simp [waitLoop, pollWorld]
    | succ t =>
      obtain ⟨res, hres⟩ := hwaiting 0 (Nat.succ_pos k)
      rcases hr : conf.Refresh w with ⟨out, w1⟩
      have hout : out = .ret (res, "Waiting", none) := by
        simpa [observe, pollWorld, hr] using hres
      subst hout
      have hw1 : ∀ i, i < k → ∃ res, observe conf w1 i = .ret (res, "Waiting", none) := by
        intro i hi
        have := hwaiting (i + 1) (by omega)
        simpa [observe, pollWorld, hr] using this
      have hd1 : ∀ i, k ≤ i → ∃ res, observe conf w1 i = .ret (res, "Done", none) := by
        intro i hi
        have := hdone (i + 1) (by omega)
        simpa [observe, pollWorld, hr] using this
      have hnext := ih t 0 (polls + 1) w1 (fun _ => rfl) hw1 hd1
      have hnot : (["Done"] : List String).contains "Waiting" = false := by decide
      unfold waitLoop
      rw [hr]
      simp only [hT, hnot, Bool.false_eq_true, if_false]
      rw [hnext]
      have e1 : k + 1 + n = (k + n) + 1 := by omega
      by_cases hle : k + n + 1 ≤ t
      · have hle2 : k + 1 + n + 1 ≤ t + 1 := by omega
        rw [if_pos hle, if_pos hle2, e1]
        simp only [observedResult, observe, pollWorld, hr, Prod.mk.injEq, Go.ret.injEq,
          WaitOutcome.mk.injEq, and_true, true_and]
        omega
      · have hle2 : ¬ k + 1 + n + 1 ≤ t + 1 := by omega
        rw [if_neg hle, if_neg hle2]
        simp only [pollWorld, hr, Prod.mk.injEq, Go.ret.injEq, WaitOutcome.mk.injEq, and_true,
          true_and]
        omega

/-- A wait that ends in `Done` after `m` polls has seen `Done` on all of them and `m` is what the
streak lacked to the threshold, or it has seen `Done` on its last N polls. -/
theorem waitLoop_done_streak {σ R : Type} (conf : StateChangeConf σ R)
    (hT : conf.Target = ["Done"]) (ticks : Nat) :
    ∀ (streak polls : Nat) (w w3 : World σ) (o : WaitOutcome R),
      waitLoop conf ticks streak polls w = (.ret o, w3) → o.state = .Done →
      ∃ m, o.polls = polls + m ∧
        ((m = max 1 (conf.ContinuousTargetOccurence - streak) ∧
            ∀ i, i < m → ∃ res, observe conf w i = .ret (res, "Done", none)) ∨
          (conf.ContinuousTargetOccurence ≤ m ∧
            ∀ i, m - conf.ContinuousTargetOccurence ≤ i → i < m →
              ∃ res, observe conf w i = .ret (res, "Done", none))) := by
  induction ticks with
  | zero =>
    intro streak polls w w3 o hloop hd
    simp only [waitLoop, Prod.mk.injEq, Go.ret.injEq] at hloop
    rw [← hloop.1] at hd
    simp at hd
  | succ t ih =>
    intro streak polls w w3 o hloop hd
    rcases hr : conf.Refresh w with ⟨out, w1⟩
    unfold waitLoop at hloop
    rw [hr] at hloop
    cases out with
    | panicked msg => simp at hloop
    | ret x =>
      rcases x with ⟨res, state, err⟩
      cases err with
      | some e =>
        simp only [Prod.mk.injEq, Go.ret.injEq] at hloop
        rw [← hloop.1] at hd
        simp at hd
      | none =>
        have hshift : ∀ i, observe conf w (i + 1) = observe conf w1 i := by
          intro i
          simp [observe, pollWorld, hr]
        simp only [hT] at hloop
        by_cases hstate : (["Done"] : List String).contains state = true
        · have hs : state = "Done" := by simpa using hstate
          subst hs
          have h0 : observe conf w 0 = .ret (res, "Done", none) := by
            simp [observe, pollWorld, hr]
          rw [if_pos hstate] at hloop
          by_cases hle : conf.ContinuousTargetOccurence ≤ streak + 1
          · rw [if_pos hle] at hloop
            simp only [Prod.mk.injEq, Go.ret.injEq] at hloop
            refine ⟨1, by rw [← hloop.1], Or.inl ⟨?_, ?_⟩⟩
            · omega
            · intro i hi
              have : i = 0 := by omega
              subst this
              exact ⟨res, h0⟩
          · rw [if_neg hle] at hloop
            obtain ⟨m, hp, hm⟩ := ih (streak + 1) (polls + 1) w1 w3 o hloop hd
            refine ⟨m + 1, by omega, ?_⟩
            rcases hm with ⟨hmeq, hall⟩ | ⟨hge, hlast⟩
            · refine Or.inl ⟨by omega, ?_⟩
              intro i hi
              cases i with
              | zero => exact ⟨res, h0⟩
              | succ i =>
                rw [hshift]
                exact hall i (by omega)
            · refine Or.inr ⟨by omega, ?_⟩
              intro i hlo hi
              cases i with
              | zero => exact ⟨res, h0⟩
              | succ i =>
                rw [hshift]
                exact hlast i (by omega) (by omega)
        · rw [if_neg hstate] at hloop
          obtain ⟨m, hp, hm⟩ := ih 0 (polls + 1) w1 w3 o hloop hd
          refine ⟨m + 1, by omega, Or.inr ?_⟩
          rcases hm with ⟨hmeq, hall⟩ | ⟨hge, hlast⟩
          · refine ⟨by omega, ?_⟩
            intro i hlo hi
            cases i with
            | zero => omega
            | succ i =>
              rw [hshift]
              exact hall i (by omega)
          · refine ⟨by omega, ?_⟩
            intro i hlo hi
            cases i with
            | zero => omega
            | succ i =>
              rw [hshift]
              exact hlast i (by omega) (by omega)

/-- A wait that starts without a streak and ends in `Done` has made at least N polls, and the
probe reported `Done` on each of the last N of them. -/
theorem wait_done_last_polls {σ R : Type} (conf : StateChangeConf σ R)
    (hT : conf.Target = ["Done"]) (ticks : Nat) (w w3 : World σ) (o : WaitOutcome R)
    (hloop : waitLoop conf ticks 0 0 w = (.ret o, w3)) (hd : o.state = .Done) :
    conf.ContinuousTargetOccurence ≤ o.polls ∧
      ∀ i, o.polls - conf.ContinuousTargetOccurence ≤ i → i < o.polls →
        ∃ res, observe conf w i = .ret (res, "Done", none) := by
  obtain ⟨m, hp, hm⟩ := waitLoop_done_streak conf hT ticks 0 0 w w3 o hloop hd
  have hpm : o.polls = m := by omega
  rw [hpm]
  rcases hm with ⟨hmeq, hall⟩ | ⟨hge, hlast⟩
  · exact ⟨by omega, fun i _ hi => hall i hi⟩
  · exact ⟨hge, hlast⟩

/-- The outcome of a wait whose probe reports `Waiting` on its first `k` polls and `Done` on all
later ones, for a threshold of `n + 1`. -/
theorem wait_outcome_waiting_then_done {σ R : Type} (conf : StateChangeConf σ R)
    (hT : conf.Target = ["Done"]) (n : Nat) (hN : conf.ContinuousTargetOccurence = n + 1)
    (k : Nat) (ctx : Context) (w : World σ)
    (hwaiting : ∀ i, i < k → ∃ res, observe conf w i = .ret (res, "Waiting", none))
    (hdone : ∀ i, k ≤ i → ∃ res, observe conf w i = .ret (res, "Done", none)) :
    ∃ (o : WaitOutcome R) (w3 : World σ),
      waitLoop conf conf.Timeout 0 0 w = (.ret o, w3) ∧
        conf.WaitForStateContext ctx w = (.ret (o.result, o.err), w3) ∧
        (o.state = .Done ↔ k + n + 1 ≤ conf.Timeout) ∧
        (o.state = .Done → o.polls = k + n + 1 ∧ o.err = none) ∧
        (o.state ≠ .Done → o.state = .TimedOut ∧ o.polls = conf.Timeout ∧ o.err ≠ none) := by
  have h := waitLoop_waiting_then_done conf hT n hN k conf.Timeout 0 0 w (fun _ => rfl)
    hwaiting hdone
  by_cases hle : k + n + 1 ≤ conf.Timeout
  · rw [if_pos hle] at h
    refine ⟨_, _, h, ?_, ?_, ?_, ?_⟩
    · simp [StateChangeConf.WaitForStateContext, h]
    · simp [hle]
    · intro _
      simp
    · intro hne
      simp at hne
  · rw [if_neg hle] at h
    refine ⟨_, _, h, ?_, ?_, ?_, ?_⟩
    · simp [StateChangeConf.WaitForStateContext, h]
    · simp [hle]
    · intro hd
      simp at hd
    · intro _
      simp

/-- C5: the waits started by the two Create operations end in `Done` only after the probe has
reported the target state on N consecutive polls, N = 5 for the application password and N = 3
for the directory role assignment: with a probe that reports `Waiting` on its first `k` polls and
`Done` on all later ones, the wait ends in `Done` exactly when the deadline allows `k + N` polls,
it then has made exactly `k + N` polls (so it did not stop on the first `Done` observation, poll
`k + 1`), and otherwise it ends in `TimedOut` with an error; and with any probe, a wait that ends
in `Done` has made at least N polls and the probe reported `Done` on each of its last N polls. -/
theorem wait_needs_consecutive_done_polls {σ : Type} :
    (∀ (client : ApplicationClient σ) (ctx : Context) (applicationId : ApplicationId)
        (id : CredentialId) (k : Nat) (w : World σ),
      (∀ i, i < k → ∃ res,
        observe (applicationPasswordResourceCreate.conf client ctx applicationId id) w i =
          .ret (res, "Waiting", none)) →
      (∀ i, k ≤ i → ∃ res,
        observe (applicationPasswordResourceCreate.conf client ctx applicationId id) w i =
          .ret (res, "Done", none)) →
      ∃ (o : WaitOutcome PasswordCredential) (w3 : World σ),
        waitLoop (applicationPasswordResourceCreate.conf client ctx applicationId id)
            (ctx.Deadline.getD 0) 0 0 w = (.ret o, w3) ∧
          (applicationPasswordResourceCreate.conf client ctx applicationId
            id).WaitForStateContext ctx w = (.ret (o.result, o.err), w3) ∧
          (o.state = .Done ↔ k + 5 ≤ ctx.Deadline.getD 0) ∧
          (o.state = .Done → o.polls = k + 5 ∧ k + 1 < o.polls ∧ o.err = none) ∧
          (o.state ≠ .Done →
            o.state = .TimedOut ∧ o.polls = ctx.Deadline.getD 0 ∧ o.err ≠ none)) ∧
    (∀ (client : DirectoryRoleAssignmentClient σ) (ctx : Context) (timeout : Nat)
        (id : RoleManagementDirectoryRoleAssignmentId) (k : Nat) (w : World σ),
      (∀ i, i < k → ∃ res,
        observe (directoryRoleAssignmentResourceCreate.conf client timeout id) w i =
          .ret (res, "Waiting", none)) →
      (∀ i, k ≤ i → ∃ res,
        observe (directoryRoleAssignmentResourceCreate.conf client timeout id) w i =
          .ret (res, "Done", none)) →
      ∃ (o : WaitOutcome String) (w3 : World σ),
        waitLoop (directoryRoleAssignmentResourceCreate.conf client timeout id) timeout 0 0 w =
            (.ret o, w3) ∧
          (directoryRoleAssignmentResourceCreate.conf client timeout id).WaitForStateContext
            ctx w = (.ret (o.result, o.err), w3) ∧
          (o.state = .Done ↔ k + 3 ≤ timeout) ∧
          (o.state = .Done → o.polls = k + 3 ∧ k + 1 < o.polls ∧ o.err = none) ∧
          (o.state ≠ .Done → o.state = .TimedOut ∧ o.polls = timeout ∧ o.err ≠ none)) ∧
    (∀ (client : ApplicationClient σ) (ctx : Context) (applicationId : ApplicationId)
        (id : CredentialId) (ticks : Nat) (w w3 : World σ) (o : WaitOutcome PasswordCredential),
      waitLoop (applicationPasswordResourceCreate.conf client ctx applicationId id) ticks 0 0 w =
        (.ret o, w3) →
      o.state = .Done →
      5 ≤ o.polls ∧ ∀ i, o.polls - 5 ≤ i → i < o.polls → ∃ res,
        observe (applicationPasswordResourceCreate.conf client ctx applicationId id) w i =
          .ret (res, "Done", none)) ∧
    (∀ (client : DirectoryRoleAssignmentClient σ) (timeout : Nat)
        (id : RoleManagementDirectoryRoleAssignmentId) (ticks : Nat) (w w3 : World σ)
        (o : WaitOutcome String),
      waitLoop (directoryRoleAssignmentResourceCreate.conf client timeout id) ticks 0 0 w =
        (.ret o, w3) →
      o.state = .Done →
      3 ≤ o.polls ∧ ∀ i, o.polls - 3 ≤ i → i < o.polls → ∃ res,
        observe (directoryRoleAssignmentResourceCreate.conf client timeout id) w i =
          .ret (res, "Done", none)) := by
  refine ⟨?_, ?_, ?_, ?_⟩
  rotate_left 2
  · intro client ctx applicationId id ticks w w3 o hloop hd
    exact wait_done_last_polls (applicationPasswordResourceCreate.conf client ctx applicationId
      id) rfl ticks w w3 o hloop hd
  · intro client timeout id ticks w w3 o hloop hd
    exact wait_done_last_polls (directoryRoleAssignmentResourceCreate.conf client timeout id)
      rfl ticks w w3 o hloop hd
  · intro client ctx applicationId id k w hwaiting hdone
    obtain ⟨o, w3, h1, h2, h3, h4, h5⟩ := wait_outcome_waiting_then_done
      (applicationPasswordResourceCreate.conf client ctx applicationId id) rfl 4 rfl k ctx w
      hwaiting hdone
    refine ⟨o, w3, h1, h2, h3, ?_, h5⟩
    intro hd
    obtain ⟨hp, he⟩ := h4 hd
    exact ⟨hp, by omega, he⟩
  · intro client ctx timeout id k w hwaiting hdone
    obtain ⟨o, w3, h1, h2, h3, h4, h5⟩ := wait_outcome_waiting_then_done
      (directoryRoleAssignmentResourceCreate.conf client timeout id) rfl 2 rfl k ctx w
      hwaiting hdone
    refine ⟨o, w3, h1, h2, h3, ?_, h5⟩
    intro hd
    obtain ⟨hp, he⟩ := h4 hd
    exact ⟨hp, by omega, he⟩

/-- The probe of password Create against the eventually consistent service. -/
theorem delayed_Refresh (k : Nat) (ctx : Context) (w : World Nat) :
    (applicationPasswordResourceCreate.conf (delayedApplicationClient k) ctx ⟨sampleUUID⟩
        samplePasswordId).Refresh w =
      (if k ≤ w.remote then .ret (some sampleListedCredential, "Done", none)
        else .ret (none, "Waiting", none),
        ⟨w.remote + 1, w.trace ++ [Event.GetApplication ⟨sampleUUID⟩]⟩) := by
  have hfold : EqualFold sampleListedCredential.KeyId.GetOrZero samplePasswordId.KeyId = true := by
    decide
  by_cases hk : k ≤ w.remote
  · simp [applicationPasswordResourceCreate.conf, applicationPasswordResourceCreate.Refresh,
      ApplicationClient.callGetApplication, delayedApplicationClient, hk, hfold]
  · simp [applicationPasswordResourceCreate.conf, applicationPasswordResourceCreate.Refresh,
      ApplicationClient.callGetApplication, delayedApplicationClient, hk]

/-- What the probe of password Create observes, poll by poll, against the eventually consistent
service. -/
theorem delayed_observe (k : Nat) (ctx : Context) (i : Nat) :
    ∀ w : World Nat,
      observe (applicationPasswordResourceCreate.conf (delayedApplicationClient k) ctx
          ⟨sampleUUID⟩ samplePasswordId) w i =
        if k ≤ w.remote + i then .ret (some sampleListedCredential, "Done", none)
        else .ret (none, "Waiting", none) := by
  induction i with
  | zero =>
    intro w
    simp [observe, pollWorld, delayed_Refresh]
  | succ i ih =>
    intro w
    have h := ih ⟨w.remote + 1, w.trace ++ [Event.GetApplication ⟨sampleUUID⟩]⟩
    simp only [observe, pollWorld, delayed_Refresh] at h ⊢
    rw [h]
    have e : w.remote + 1 + i = w.remote + (i + 1) := by omega
    rw [e]

/-- The probe of role-assignment Create against the eventually consistent service. -/
theorem delayed_role_Refresh (k timeout : Nat) (w : World Nat) :
    (directoryRoleAssignmentResourceCreate.conf (delayedRoleAssignmentClient k) timeout
        (NewRoleManagementDirectoryRoleAssignmentID sampleUUID)).Refresh w =
      (if k ≤ w.remote then .ret (some "stub", "Done", none)
        else .ret (some "stub", "Waiting", none),
        ⟨w.remote + 1, w.trace ++ [Event.GetDirectoryRoleAssignment
          (NewRoleManagementDirectoryRoleAssignmentID sampleUUID)]⟩) := by
  by_cases hk : k ≤ w.remote
  · simp [directoryRoleAssignmentResourceCreate.conf, directoryRoleAssignmentResourceCreate.Refresh,
      DirectoryRoleAssignmentClient.callGet, delayedRoleAssignmentClient, hk]
  · simp [directoryRoleAssignmentResourceCreate.conf, directoryRoleAssignmentResourceCreate.Refresh,
      DirectoryRoleAssignmentClient.callGet, delayedRoleAssignmentClient, hk,
      response.WasNotFound]

/-- What the probe of role-assignment Create observes, poll by poll, against the eventually
consistent service. -/
theorem delayed_role_observe (k timeout : Nat) (i : Nat) :
    ∀ w : World Nat,
      observe (directoryRoleAssignmentResourceCreate.conf (delayedRoleAssignmentClient k) timeout
          (NewRoleManagementDirectoryRoleAssignmentID sampleUUID)) w i =
        if k ≤ w.remote + i then .ret (some "stub", "Done", none)
        else .ret (some "stub", "Waiting", none) := by
  induction i with
  | zero =>
    intro w
    simp [observe, pollWorld, delayed_role_Refresh]
  | succ i ih =>
    intro w
    have h := ih ⟨w.remote + 1, w.trace ++ [Event.GetDirectoryRoleAssignment
      (NewRoleManagementDirectoryRoleAssignmentID sampleUUID)]⟩
    simp only [observe, pollWorld, delayed_role_Refresh] at h ⊢
    rw [h]
    have e : w.remote + 1 + i = w.remote + (i + 1) := by omega
    rw [e]

/-- Witness of C5: against services on which the new object shows from the third (password) and
second (role assignment) poll on, ten ticks end in `Done` after 2 + 5 and 1 + 3 polls. -/
theorem wait_needs_consecutive_done_polls_witness :
    (∃ (o : WaitOutcome PasswordCredential) (w3 : World Nat),
      waitLoop (applicationPasswordResourceCreate.conf (delayedApplicationClient 2) ⟨some 10⟩
          ⟨sampleUUID⟩ samplePasswordId) 10 0 0 startWorld = (.ret o, w3) ∧
        o.state = .Done ∧ o.polls = 7) ∧
    (∃ (o : WaitOutcome String) (w3 : World Nat),
      waitLoop (directoryRoleAssignmentResourceCreate.conf (delayedRoleAssignmentClient 1) 10
          (NewRoleManagementDirectoryRoleAssignmentID sampleUUID)) 10 0 0 startWorld =
          (.ret o, w3) ∧
        o.state = .Done ∧ o.polls = 4) := by
  constructor
  · obtain ⟨o, w3, h1, -, h3, h4, -⟩ :=
      (wait_needs_consecutive_done_polls (σ := Nat)).1 (delayedApplicationClient 2) ⟨some 10⟩
        ⟨sampleUUID⟩ samplePasswordId 2 startWorld
        (fun i hi => ⟨none, by
          rw [delayed_observe]
          have : ¬ 2 ≤ startWorld.remote + i := by simp [startWorld]; omega
          rw [if_neg this]⟩)
        (fun i hi => ⟨some sampleListedCredential, by
          rw [delayed_observe]
          have : 2 ≤ startWorld.remote + i := by simp [startWorld]; omega
          rw [if_pos this]⟩)
    have hd : o.state = .Done := h3.mpr (by decide)
    exact ⟨o, w3, h1, hd, (h4 hd).1⟩
  · obtain ⟨o, w3, h1, -, h3, h4, -⟩ :=
      (wait_needs_consecutive_done_polls (σ := Nat)).2.1 (delayedRoleAssignmentClient 1)
        ⟨some 10⟩ 10 (NewRoleManagementDirectoryRoleAssignmentID sampleUUID) 1 startWorld
        (fun i hi => ⟨some "stub", by
          rw [delayed_role_observe]
          have : ¬ 1 ≤ startWorld.remote + i := by simp [startWorld]; omega
          rw [if_neg this]⟩)
        (fun i hi => ⟨some "stub", by
          rw [delayed_role_observe]
          have : 1 ≤ startWorld.remote + i := by simp [startWorld]; omega
          rw [if_pos this]⟩)
    have hd : o.state = .Done := h3.mpr (by decide)
    exact ⟨o, w3, h1, hd, (h4 hd).1⟩

/-! ## Password Create: failures before the lock -/

/-- A failed resolution of the parent yields an error diagnostic. -/
theorem applicationId_error_HasError (d : ResourceData) (diags : Diagnostics)
    (h : applicationPasswordResourceCreate.applicationId d = .error diags) :
    diags.HasError = true := by
  unfold applicationPasswordResourceCreate.applicationId at h
  split at h
  · split at h
    · simp only [Except.error.injEq] at h
      subst h
      simp [tf.ErrorDiagPathF, Diagnostics.HasError]
    · simp at h
  · split at h
    · simp at h
    · split at h
      · simp only [Except.error.injEq] at h
        subst h
        simp [tf.ErrorDiagPathF, Diagnostics.HasError]
      · simp at h

/-- C11: in password Create, when the parent reference fails to parse, or the credential
generator returns an error or a nil credential, Create returns an error diagnostic and the world
is as before: no lock was taken and no remote call made; the local state is unchanged too. -/
theorem create_fails_before_lock {σ : Type} (client : ApplicationClient σ)
    (gen : PasswordCredentialGenerator) (wait : Waiter σ PasswordCredential) (ctx : Context)
    (d : ResourceData) (w : World σ)
    (hfail : (∃ diags, applicationPasswordResourceCreate.applicationId d = .error diags) ∨
      (∃ err, (gen d).2 = some err) ∨ gen d = (none, none)) :
    ∃ diags, applicationPasswordResourceCreate client gen wait ctx d w = (.ret diags, d, w) ∧
      diags.HasError = true := by
  cases hparent : applicationPasswordResourceCreate.applicationId d with
  | error diags =>
    exact ⟨diags, by simp [applicationPasswordResourceCreate, hparent],
      applicationId_error_HasError d diags hparent⟩
  | ok applicationId =>
    rcases hgen : gen d with ⟨c, e⟩
    cases e with
    | some err =>
      have h : ∃ attr, applicationPasswordResourceCreate client gen wait ctx d w =
          (.ret (tf.ErrorDiagPathF (some err.Error) attr
            ("Generating password credentials for " ++ applicationId.String)), d, w) :=
        ⟨_, by simp only [applicationPasswordResourceCreate, hparent, hgen]; rfl⟩
      obtain ⟨attr, h⟩ := h
      exact ⟨_, h, by simp [tf.ErrorDiagPathF, Diagnostics.HasError]⟩
    | none =>
      cases c with
      | none =>
        have h : applicationPasswordResourceCreate client gen wait ctx d w =
            (.ret (tf.ErrorDiagF (some "nil credential was returned")
              ("Generating password credentials for " ++ applicationId.String)), d, w) := by
          simp only [applicationPasswordResourceCreate, hparent, hgen]
        exact ⟨_, h, by simp [tf.ErrorDiagF, tf.ErrorDiagPathF, Diagnostics.HasError]⟩
      | some credential =>
        rcases hfail with ⟨diags, h⟩ | ⟨err, h⟩ | h
        · rw [hparent] at h
          simp at h
        · rw [hgen] at h
          simp at h
        · rw [hgen] at h
          simp at h

/-- Witness of C11: an unparsable parent, a failing generator and a generator without result,
against the counting service. -/
theorem create_fails_before_lock_witness :
    (∃ diags, applicationPasswordResourceCreate (delayedApplicationClient 1) sampleGenerator
        StateChangeConf.WaitForStateContext ⟨some 10⟩ sampleMalformedCreateData startWorld =
          (.ret diags, sampleMalformedCreateData, startWorld) ∧ diags.HasError = true) ∧
    (∃ diags, applicationPasswordResourceCreate (delayedApplicationClient 1) brokenGenerator
        StateChangeConf.WaitForStateContext ⟨some 10⟩ sampleCreateData startWorld =
          (.ret diags, sampleCreateData, startWorld) ∧ diags.HasError = true) ∧
    (∃ diags, applicationPasswordResourceCreate (delayedApplicationClient 1) nilGenerator
        StateChangeConf.WaitForStateContext ⟨some 10⟩ sampleCreateData startWorld =
          (.ret diags, sampleCreateData, startWorld) ∧ diags.HasError = true) :=
  ⟨create_fails_before_lock (delayedApplicationClient 1) sampleGenerator
      StateChangeConf.WaitForStateContext ⟨some 10⟩ sampleMalformedCreateData startWorld
      (Or.inl ⟨_, rfl⟩),
    create_fails_before_lock (delayedApplicationClient 1) brokenGenerator
      StateChangeConf.WaitForStateContext ⟨some 10⟩ sampleCreateData startWorld
      (Or.inr (Or.inl ⟨_, rfl⟩)),
    create_fails_before_lock (delayedApplicationClient 1) nilGenerator
      StateChangeConf.WaitForStateContext ⟨some 10⟩ sampleCreateData startWorld
      (Or.inr (Or.inr rfl))⟩

/-! ## Password Create: the attribute of a parse error -/

/-- C12: a parent reference that Create cannot parse is one that the schema of the attribute it
was read from rejects: for attribute values that the schema accepts (exactly one of the two set,
and accepted by its `ValidateFunc`) the parse in Create succeeds, so no accepted configuration
reaches the error returns of lines 154-170.  When the parse does fail, Create returns that error
with nothing else done; the error names the attribute the value was read from in its summary; for
a value read from `application_id` it is attached to `application_id`; the return for a value
read from `application_object_id` is attached to `application_id` as well. -/
theorem create_parse_error_needs_rejected_value {σ : Type} (client : ApplicationClient σ)
    (PasswordCredentialForResource : PasswordCredentialGenerator)
    (wait : Waiter σ PasswordCredential) (ctx : Context) (d : ResourceData) (w : World σ) :
    (applicationPasswordResource.acceptsParent d = true →
      ∃ applicationId, applicationPasswordResourceCreate.applicationId d = .ok applicationId) ∧
    (∀ diags, applicationPasswordResourceCreate.applicationId d = .error diags →
      applicationPasswordResourceCreate client PasswordCredentialForResource wait ctx d w =
        (.ret diags, d, w) ∧
      applicationPasswordResource.acceptsParent d = false ∧
      (d.Get "application_id" ≠ "" →
        parse.ValidateApplicationID (d.Get "application_id") = false ∧
        ∃ err, diags = tf.ErrorDiagPathF (some err) "application_id"
          ("Parsing `application_id`: " ++ quote (d.Get "application_id"))) ∧
      (d.Get "application_id" = "" →
        validation.IsUUID (d.Get "application_object_id") = false ∧
        parse.ValidateApplicationID (d.Get "application_object_id") = false ∧
        ∃ err, diags = tf.ErrorDiagPathF (some err) "application_id"
          ("Parsing `application_object_id`: " ++ quote (d.Get "application_object_id")))) := by
  have hfail : ∀ diags, applicationPasswordResourceCreate.applicationId d = .error diags →
      (d.Get "application_id" ≠ "" →
        parse.ValidateApplicationID (d.Get "application_id") = false ∧
        ∃ err, diags = tf.ErrorDiagPathF (some err) "application_id"
          ("Parsing `application_id`: " ++ quote (d.Get "application_id"))) ∧
      (d.Get "application_id" = "" →
        validation.IsUUID (d.Get "application_object_id") = false ∧
        parse.ValidateApplicationID (d.Get "application_object_id") = false ∧
        ∃ err, diags = tf.ErrorDiagPathF (some err) "application_id"
          ("Parsing `application_object_id`: " ++ quote (d.Get "application_object_id"))) := by
    intro diags h
    constructor
    · intro ha
      simp only [applicationPasswordResourceCreate.applicationId, ha, ne_eq, not_false_eq_true,
        if_true] at h
      cases hp : ParseApplicationID (d.Get "application_id") with
      | ok applicationId => simp [hp] at h
      | error err =>
        rw [hp] at h
        simp only [Except.error.injEq] at h
        exact ⟨by simp [parse.ValidateApplicationID, hp], err, h.symm⟩
    · intro ha
      simp only [applicationPasswordResourceCreate.applicationId, ha, ne_eq, not_true_eq_false,
        if_false] at h
      cases hu : uuid.ParseUUID (d.Get "application_object_id") with
      | none => simp [hu] at h
      | some e =>
        rw [hu] at h
        simp only [] at h
        cases hp : ParseApplicationID (d.Get "application_object_id") with
        | ok applicationId => simp [hp] at h
        | error err =>
          rw [hp] at h
          simp only [Except.error.injEq] at h
          exact ⟨by simp [validation.IsUUID, hu], by simp [parse.ValidateApplicationID, hp],
            err, h.symm⟩
  have hrejected : ∀ diags, applicationPasswordResourceCreate.applicationId d = .error diags →
      applicationPasswordResource.acceptsParent d = false := by
    intro diags h
    obtain ⟨h1, h2⟩ := hfail diags h
    by_cases ha : d.Get "application_id" = ""
    · obtain ⟨hu, hv, -⟩ := h2 ha
      simp [applicationPasswordResource.acceptsParent, ha, hu, hv]
    · obtain ⟨hv, -⟩ := h1 ha
      simp [applicationPasswordResource.acceptsParent, ha, hv]
  constructor
  · intro hacc
    cases hr : applicationPasswordResourceCreate.applicationId d with
    | ok applicationId => exact ⟨applicationId, rfl⟩
    | error diags =>
      rw [hrejected diags hr] at hacc
      exact absurd hacc (by decide)
  · intro diags h
    refine ⟨?_, hrejected diags h, hfail diags h⟩
    simp only [applicationPasswordResourceCreate, h]

/-- Witness of C12: the sample configurations with a bare UUID and with a structured ID are
accepted and resolve to the sample application; the configuration whose `application_id` is
`not-an-id` is rejected by the schema. -/
theorem create_parse_error_needs_rejected_value_witness :
    applicationPasswordResource.acceptsParent sampleCreateData = true ∧
    applicationPasswordResource.acceptsParent sampleStructuredCreateData = true ∧
    (∃ applicationId,
      applicationPasswordResourceCreate.applicationId sampleCreateData = .ok applicationId) ∧
    applicationPasswordResource.acceptsParent sampleMalformedIdCreateData = false :=
  ⟨by decide, by decide,
    (create_parse_error_needs_rejected_value (delayedApplicationClient 1) sampleGenerator
      StateChangeConf.WaitForStateContext ⟨some 10⟩ sampleCreateData startWorld).1 (by decide),
    by decide⟩

/-! ## Traces of the operations -/

/-- The poll loop adds one probe event per poll. -/
theorem waitLoop_trace_replicate {σ R : Type} (conf : StateChangeConf σ R) (e : Event)
    (hprobe : ∀ w1, (conf.Refresh w1).2.trace = w1.trace ++ [e]) (ticks : Nat) :
    ∀ (streak polls : Nat) (w : World σ),
      ∃ n, (waitLoop conf ticks streak polls w).2.trace = w.trace ++ List.replicate n e := by
  induction ticks with
  | zero =>
    intro streak polls w
    exact ⟨0, by simp [waitLoop]⟩
  | succ t ih =>
    intro streak polls w
    have h1 := hprobe w
    rcases hr : conf.Refresh w with ⟨out, w1⟩
    rw [hr] at h1
    simp only at h1
    have hstep : ∀ s p, ∃ n, (waitLoop conf t s p w1).2.trace =
        w.trace ++ List.replicate n e := by
      intro s p
      obtain ⟨n, hn⟩ := ih s p w1
      refine ⟨n + 1, ?_⟩
      rw [hn, h1, List.replicate_succ]
      simp
    unfold waitLoop
    rw [hr]
    cases out with
    | panicked msg => exact ⟨1, by simpa using h1⟩
    | ret r =>
      rcases r with ⟨res, state, err⟩
      cases err with
      | some e1 => exact ⟨1, by simpa using h1⟩
      | none =>
        simp only []
        split
        · split
          · exact ⟨1, by simpa using h1⟩
          · exact hstep _ _
        · exact hstep _ _

/-- The modelled waiter does nothing but run its probe. -/
theorem WaitForStateContext_ProbeOnly {σ R : Type} :
    Waiter.ProbeOnly (StateChangeConf.WaitForStateContext : Waiter σ R) := by
  intro conf ctx e hprobe w0
  obtain ⟨n, hn⟩ := waitLoop_trace_replicate conf e hprobe conf.Timeout 0 0 w0
  refine ⟨n, ?_⟩
  unfold StateChangeConf.WaitForStateContext
  split
  · rename_i h
    rw [h] at hn
    exact hn
  · rename_i h
    rw [h] at hn
    exact hn

/-- The segments of a string that starts with a slash-free segment followed by a slash. -/
theorem splitSlash_append (a rest : List Char) (ha : '/' ∉ a) :
    splitSlash (a ++ '/' :: rest) = a :: splitSlash rest := by
  induction a with
  | nil => simp [splitSlash]
  | cons c cs ih =>
    have hc : c ≠ '/' := fun h => ha (by simp [h])
    have hcs : '/' ∉ cs := fun h => ha (by simp [h])
    have h := ih hcs
    simp only [List.cons_append, splitSlash, hc, if_false]
    show (match splitSlash (cs ++ '/' :: rest) with
      | [] => [[c]]
      | seg :: segs => (c :: seg) :: segs) = (c :: cs) :: splitSlash rest
    rw [h]

/-- The identity string of a credential decodes to the parent it was built from. -/
theorem PasswordID_String_ObjectId (a t k : String) (id : CredentialId) (ha : '/' ∉ a.toList)
    (h : parse.PasswordID (CredentialId.String ⟨a, t, k⟩) = .ok id) : id.ObjectId = a := by
  have hs : (CredentialId.String ⟨a, t, k⟩).toList =
      a.toList ++ '/' :: (t.toList ++ '/' :: k.toList) := by
    simp [CredentialId.String]
  unfold parse.PasswordID at h
  rw [hs, splitSlash_append _ _ ha] at h
  rcases hx : splitSlash (t.toList ++ '/' :: k.toList) with _ | ⟨kt, _ | ⟨ki, _ | ⟨z, zs⟩⟩⟩
  · rw [hx] at h
    simp at h
  · rw [hx] at h
    simp at h
  · rw [hx] at h
    simp only at h
    split_ifs at h
    simp only [Except.ok.injEq] at h
    rw [← h]
    rfl
  · rw [hx] at h
    simp at h

/-- A parsed structured application ID holds no slash. -/
theorem ParseApplicationID_no_slash (input : String) (applicationId : ApplicationId)
    (h : ParseApplicationID input = .ok applicationId) :
    '/' ∉ applicationId.ApplicationId.toList := by
  unfold ParseApplicationID at h
  simp only at h
  split at h
  · split at h
    · simp at h
    · split at h
      · simp at h
      · rename_i hc
        simp only [Except.ok.injEq] at h
        subst h
        intro hmem
        exact hc (List.elem_iff.mpr hmem)
  · simp at h

/-- The resolved parent of Create has an object id without slash. -/
theorem applicationId_no_slash (d : ResourceData) (applicationId : ApplicationId)
    (h : applicationPasswordResourceCreate.applicationId d = .ok applicationId) :
    '/' ∉ applicationId.ApplicationId.toList := by
  unfold applicationPasswordResourceCreate.applicationId at h
  split at h
  · split at h
    · simp at h
    · rename_i hp
      simp only [Except.ok.injEq] at h
      subst h
      exact ParseApplicationID_no_slash _ _ hp
  · split at h
    · rename_i hu
      simp only [Except.ok.injEq] at h
      subst h
      exact (uuid_no_slash _ hu).2
    · split at h
      · simp at h
      · rename_i hp
        simp only [Except.ok.injEq] at h
        subst h
        exact ParseApplicationID_no_slash _ _ hp

/-- The trace of password Read: its entry, then at most one read of the parent application of
the decoded identity. -/
theorem read_trace {σ : Type} (client : ApplicationClient σ) (d : ResourceData) (w : World σ) :
    (applicationPasswordResourceRead client d w).2.2.trace =
        w.trace ++ [Event.ReadInvoked "applicationPasswordResourceRead"] ∨
      ∃ id, parse.PasswordID d.Id = .ok id ∧
        (applicationPasswordResourceRead client d w).2.2.trace =
          w.trace ++ [Event.ReadInvoked "applicationPasswordResourceRead",
            Event.GetApplication (NewApplicationID id.ObjectId)] := by
  cases hid : parse.PasswordID d.Id with
  | error e =>
    left
    simp [applicationPasswordResourceRead, hid, World.log]
  | ok id =>
    right
    refine ⟨id, rfl, ?_⟩
    rcases hget : client.callGetApplication (NewApplicationID id.ObjectId)
      (w.log (Event.ReadInvoked "applicationPasswordResourceRead")) with ⟨⟨resp, err⟩, w1⟩
    have ht := callGetApplication_trace _ _ _ _ _ hget
    simp only [World.log] at ht
    simp only [applicationPasswordResourceRead, hid, hget]
    cases err with
    | some e =>
      simp only []
      split <;> simp [ht]
    | none =>
      simp only []
      split
      · simp [ht]
      · split
        · simp [ht]
        · split
          · simp [ht]
          · split <;> simp [ht]

/-- The trace of password Create: nothing at all, or the lock on the parent's object id, the
fetch of the parent, possibly the add-password call followed by reads of the parent (and the
marks of the wait and of Read), and the unlock of the same name. -/
theorem create_trace_shape {σ : Type} (client : ApplicationClient σ)
    (gen : PasswordCredentialGenerator) (wait : Waiter σ PasswordCredential) (ctx : Context)
    (d : ResourceData) (w : World σ) (hwait : Waiter.ProbeOnly wait) :
    (applicationPasswordResourceCreate client gen wait ctx d w).2.2.trace = w.trace ∨
      ∃ (applicationId : ApplicationId) (post : List Event),
        applicationPasswordResourceCreate.applicationId d = .ok applicationId ∧
        (applicationPasswordResourceCreate client gen wait ctx d w).2.2.trace =
          w.trace ++ Event.Lock applicationResourceName applicationId.ApplicationId ::
            Event.GetApplication applicationId :: post ++
            [Event.Unlock applicationResourceName applicationId.ApplicationId] ∧
        (post = [] ∨ ∃ request rest, post = Event.AddPassword applicationId request :: rest ∧
          ∀ e ∈ rest, e = Event.GetApplication applicationId ∨ e = Event.WaitStarted ∨
            e = Event.ReadInvoked "applicationPasswordResourceRead") := by
  generalize hT : (applicationPasswordResourceCreate client gen wait ctx d w).2.2.trace = T
  cases hparent : applicationPasswordResourceCreate.applicationId d with
  | error diags =>
    simp only [applicationPasswordResourceCreate, hparent] at hT
    exact Or.inl hT.symm
  | ok applicationId =>
    rcases hgen : gen d with ⟨c, e⟩
    cases e with
    | some err =>
      simp only [applicationPasswordResourceCreate, hparent, hgen] at hT
      exact Or.inl hT.symm
    | none =>
      cases c with
      | none =>
        simp only [applicationPasswordResourceCreate, hparent, hgen] at hT
        exact Or.inl hT.symm
      | some credential =>
        right
        rcases hget : client.callGetApplication applicationId
          (w.log (Event.Lock applicationResourceName applicationId.ApplicationId))
          with ⟨⟨resp, err⟩, w1⟩
        have ht1 := callGetApplication_trace _ _ _ _ _ hget
        simp only [World.log] at ht1
        cases err with
        | some e =>
          simp only [applicationPasswordResourceCreate, hparent, hgen, hget] at hT
          refine ⟨applicationId, [], rfl, ?_, Or.inl rfl⟩
          split at hT <;> simp [← hT, World.log, ht1]
        | none =>
          simp only [applicationPasswordResourceCreate, hparent, hgen, hget] at hT
          split at hT
          · refine ⟨applicationId, [], rfl, ?_, Or.inl rfl⟩
            simp [← hT, World.log, ht1]
          · rcases hadd : client.callAddPassword applicationId ⟨some credential⟩ w1
              with ⟨⟨addResp, err⟩, w2⟩
            have ht2 := callAddPassword_trace _ _ _ _ _ _ hadd
            rw [hadd] at hT
            cases err with
            | some e =>
              refine ⟨applicationId, [Event.AddPassword applicationId ⟨some credential⟩], rfl,
                ?_, Or.inr ⟨_, [], rfl, by simp⟩⟩
              simp [← hT, World.log, ht1, ht2]
            | none =>
              cases hnew : addResp.Model with
              | none =>
                refine ⟨applicationId, [Event.AddPassword applicationId ⟨some credential⟩],
                  rfl, ?_, Or.inr ⟨_, [], rfl, by simp⟩⟩
                simp [← hT, hnew, World.log, ht1, ht2]
              | some newCredential =>
                simp only [hnew] at hT
                split at hT
                · refine ⟨applicationId, [Event.AddPassword applicationId ⟨some credential⟩],
                    rfl, ?_, Or.inr ⟨_, [], rfl, by simp⟩⟩
                  simp [← hT, World.log, ht1, ht2]
                · split at hT
                  · refine ⟨applicationId,
                      [Event.AddPassword applicationId ⟨some credential⟩],
                      rfl, ?_, Or.inr ⟨_, [], rfl, by simp⟩⟩
                    simp [← hT, World.log, ht1, ht2]
                  · obtain ⟨n, hn⟩ := hwait (applicationPasswordResourceCreate.conf client ctx
                      applicationId (parse.NewCredentialID applicationId.ApplicationId
                        "password" newCredential.KeyId.GetOrZero)) ctx
                      (Event.GetApplication applicationId)
                      (fun w0 => create_Refresh_trace client applicationId _ w0)
                      (w2.log Event.WaitStarted)
                    rcases hw : wait (applicationPasswordResourceCreate.conf client ctx
                        applicationId (parse.NewCredentialID applicationId.ApplicationId
                          "password" newCredential.KeyId.GetOrZero)) ctx
                        (w2.log Event.WaitStarted) with ⟨out, w3⟩
                    rw [hw] at hn hT
                    simp only [World.log] at hn
                    have hrest : ∀ e ∈ Event.WaitStarted ::
                        List.replicate n (Event.GetApplication applicationId),
                        e = Event.GetApplication applicationId ∨ e = Event.WaitStarted ∨
                          e = Event.ReadInvoked "applicationPasswordResourceRead" := by
                      intro e he
                      rcases List.mem_cons.mp he with h | h
                      · exact Or.inr (Or.inl h)
                      · exact Or.inl (List.eq_of_mem_replicate h)
                    have hfail : T = w3.trace ++
                        [Event.Unlock applicationResourceName applicationId.ApplicationId] →
                        ∃ (applicationId0 : ApplicationId) (post : List Event),
                          Except.ok applicationId = (Except.ok applicationId0 :
                            Except Diagnostics ApplicationId) ∧
                          T = w.trace ++
                            Event.Lock applicationResourceName applicationId0.ApplicationId ::
                            Event.GetApplication applicationId0 :: post ++
                            [Event.Unlock applicationResourceName
                              applicationId0.ApplicationId] ∧
                          (post = [] ∨ ∃ request rest,
                            post = Event.AddPassword applicationId0 request :: rest ∧
                            ∀ e ∈ rest, e = Event.GetApplication applicationId0 ∨
                              e = Event.WaitStarted ∨
                              e = Event.ReadInvoked "applicationPasswordResourceRead") := by
                      intro hTeq
                      refine ⟨applicationId, Event.AddPassword applicationId ⟨some credential⟩ ::
                        Event.WaitStarted ::
                        List.replicate n (Event.GetApplication applicationId), rfl, ?_,
                        Or.inr ⟨_, _, rfl, hrest⟩⟩
                      rw [hTeq, hn, ht2, ht1]
                      simp
                    cases out with
                    | panicked msg =>
                      exact hfail (by simp [← hT, World.log])
                    | ret r =>
                      rcases r with ⟨res, err⟩
                      cases err with
                      | some e => exact hfail (by simp [← hT, World.log])
                      | none =>
                        cases res with
                        | none => exact hfail (by simp [← hT, World.log])
                        | some cred =>
                          simp only [World.log] at hT
                          have hslash := applicationId_no_slash d applicationId hparent
                          rcases read_trace client
                            ((d.SetId (parse.NewCredentialID applicationId.ApplicationId
                              "password" newCredential.KeyId.GetOrZero).String).Set "value"
                              newCredential.SecretText.GetOrZero) w3 with hr | ⟨id0, hid0, hr⟩
                          · refine ⟨applicationId,
                              Event.AddPassword applicationId ⟨some credential⟩ ::
                              (Event.WaitStarted ::
                                List.replicate n (Event.GetApplication applicationId) ++
                              [Event.ReadInvoked "applicationPasswordResourceRead"]), rfl, ?_,
                              Or.inr ⟨_, _, rfl, ?_⟩⟩
                            · rw [← hT, hr, hn, ht2, ht1]
                              simp
                            · intro e he
                              rcases List.mem_append.mp he with h | h
                              · exact hrest e h
                              · exact Or.inr (Or.inr (List.mem_singleton.mp h))
                          · have hobj : id0.ObjectId = applicationId.ApplicationId :=
                              PasswordID_String_ObjectId _ _ _ id0 hslash hid0
                            have happ : NewApplicationID id0.ObjectId = applicationId := by
                              rw [hobj]
                              rfl
                            rw [happ] at hr
                            refine ⟨applicationId,
                              Event.AddPassword applicationId ⟨some credential⟩ ::
                              (Event.WaitStarted ::
                                List.replicate n (Event.GetApplication applicationId) ++
                              [Event.ReadInvoked "applicationPasswordResourceRead",
                                Event.GetApplication applicationId]), rfl, ?_,
                              Or.inr ⟨_, _, rfl, ?_⟩⟩
                            · rw [← hT, hr, hn, ht2, ht1]
                              simp
                            · intro e he
                              rcases List.mem_append.mp he with h | h
                              · exact hrest e h
                              · simp only [List.mem_cons, List.mem_singleton,
                                  List.not_mem_nil, or_false] at h
                                rcases h with h | h
                                · exact Or.inr (Or.inr h)
                                · exact Or.inl h

/-- The trace after `RemovePassword`. -/
theorem callRemovePassword_trace {σ : Type} (client : ApplicationClient σ) (id : ApplicationId)
    (request : RemovePasswordRequest) (w w1 : World σ)
    (r : RemovePasswordOperationResponse × Option GoError)
    (h : client.callRemovePassword id request w = (r, w1)) :
    w1.trace = w.trace ++ [Event.RemovePassword id request] := by
  have := congrArg (fun x => x.2.trace) h
  simpa [ApplicationClient.callRemovePassword] using this.symm

/-- The probe of password Delete adds one read of the parent application to the trace. -/
theorem delete_probe_trace {σ : Type} (client : ApplicationClient σ)
    (applicationId : ApplicationId) (id : CredentialId) (w : World σ) :
    (applicationPasswordResourceDelete.probe client applicationId id w).2.trace =
      w.trace ++ [Event.GetApplication applicationId] := by
  unfold applicationPasswordResourceDelete.probe
  rcases hget : client.callGetApplication applicationId w with ⟨⟨resp, err⟩, w1⟩
  have ht := callGetApplication_trace _ _ _ _ _ hget
  cases err with
  | some e => simpa using ht
  | none =>
    simp only []
    split <;> simpa using ht

/-- The trace of a wait for deletion: nothing without a deadline, else the mark of the wait and
the events of the polls. -/
theorem WaitForDeletion_trace {σ : Type} (wait : Waiter σ String)
    (hwait : Waiter.ProbeOnly wait) (ctx : Context)
    (f : World σ → (Option Bool × Option GoError) × World σ) (e : Event)
    (hf : ∀ w, (f w).2.trace = w.trace ++ [e]) (w : World σ) :
    ∃ rest, (consistency.WaitForDeletion wait ctx f w).2.trace = w.trace ++ rest ∧
      ∀ x ∈ rest, x = e ∨ x = Event.WaitStarted := by
  have key : ∀ conf : StateChangeConf σ String,
      (∀ w1, (conf.Refresh w1).2.trace = w1.trace ++ [e]) →
      ∀ r w1, wait conf ctx (w.log Event.WaitStarted) = (r, w1) →
      ∃ rest, w1.trace = w.trace ++ rest ∧ ∀ x ∈ rest, x = e ∨ x = Event.WaitStarted := by
    intro conf hprobe r w1 heq
    obtain ⟨n, hn⟩ := hwait conf ctx e hprobe (w.log Event.WaitStarted)
    rw [heq] at hn
    refine ⟨Event.WaitStarted :: List.replicate n e, by simpa [World.log] using hn, ?_⟩
    intro x hx
    rcases List.mem_cons.mp hx with h | h
    · exact Or.inr h
    · exact Or.inl (List.eq_of_mem_replicate h)
  have hprobe : ∀ w1 : World σ,
      ((match f w1 with
        | ((_, some err), w2) =>
          ((Go.ret (none, "Error", some ("retrieving resource: " ++ err)), w2) :
            Go (Option String × String × Option GoError) × World σ)
        | ((none, none), w2) =>
          (.ret (none, "Error", some "retrieving resource: exists was nil"), w2)
        | ((some true, none), w2) => (.ret (some "stub", "Waiting", none), w2)
        | ((some false, none), w2) => (.ret (some "stub", "Deleted", none), w2)).2).trace =
        w1.trace ++ [e] := by
    intro w1
    have h := hf w1
    split <;> rename_i heq <;> rw [heq] at h <;> exact h
  unfold consistency.WaitForDeletion
  cases hd : ctx.Deadline with
  | none => exact ⟨[], by simp, by simp⟩
  | some timeout =>
    simp only []
    split
    · rename_i heq
      exact key _ hprobe _ _ heq
    · rename_i heq
      exact key _ hprobe _ _ heq

/-- The trace of password Delete: nothing at all, or the lock on the parent's object id, the
remove-password call, reads of the parent (and the mark of the wait), and the unlock of the same
name. -/
theorem delete_trace_shape {σ : Type} (client : ApplicationClient σ) (wait : Waiter σ String)
    (ctx : Context) (d : ResourceData) (w : World σ) (hwait : Waiter.ProbeOnly wait) :
    (applicationPasswordResourceDelete client wait ctx d w).2.2.trace = w.trace ∨
      ∃ (id : CredentialId) (rest : List Event), parse.PasswordID d.Id = .ok id ∧
        (applicationPasswordResourceDelete client wait ctx d w).2.2.trace =
          w.trace ++ Event.Lock applicationResourceName id.ObjectId ::
            Event.RemovePassword (NewApplicationID id.ObjectId) ⟨some id.KeyId⟩ :: rest ++
            [Event.Unlock applicationResourceName id.ObjectId] ∧
        ∀ e ∈ rest, e = Event.GetApplication (NewApplicationID id.ObjectId) ∨
          e = Event.WaitStarted := by
  generalize hT : (applicationPasswordResourceDelete client wait ctx d w).2.2.trace = T
  cases hid : parse.PasswordID d.Id with
  | error e =>
    simp only [applicationPasswordResourceDelete, hid] at hT
    exact Or.inl hT.symm
  | ok id =>
    right
    rcases hrm : client.callRemovePassword (NewApplicationID id.ObjectId) ⟨some id.KeyId⟩
      (w.log (Event.Lock applicationResourceName id.ObjectId)) with ⟨⟨resp, err⟩, w1⟩
    have ht1 := callRemovePassword_trace _ _ _ _ _ _ hrm
    simp only [World.log] at ht1
    simp only [applicationPasswordResourceDelete, hid, hrm] at hT
    cases err with
    | some e =>
      refine ⟨id, [], rfl, ?_, by simp⟩
      simp [← hT, World.log, ht1]
    | none =>
      obtain ⟨rest, hrest, hmem⟩ := WaitForDeletion_trace wait hwait ctx
        (applicationPasswordResourceDelete.probe client (NewApplicationID id.ObjectId) id)
        (Event.GetApplication (NewApplicationID id.ObjectId))
        (fun w0 => delete_probe_trace client _ id w0) w1
      refine ⟨id, rest, rfl, ?_, hmem⟩
      simp only [] at hT
      rcases hwd : consistency.WaitForDeletion wait ctx
        (applicationPasswordResourceDelete.probe client (NewApplicationID id.ObjectId) id) w1
        with ⟨out, w2⟩
      rw [hwd] at hT hrest
      simp only at hrest
      cases out with
      | panicked msg => simp [← hT, World.log, hrest, ht1]
      | ret r =>
        cases r with
        | none => simp [← hT, World.log, hrest, ht1]
        | some e => simp [← hT, World.log, hrest, ht1]

/-! ## Mutating calls and locks -/

/-- C14: with a waiter that only runs its probe, each execution of password Create adds to the
trace at most one mutating remote call, and every remote call it makes is the add-password call
on the resolved parent or a read of that parent: no second add-password call and no remove call,
whatever the wait returned.  Each execution of password Delete adds at most one mutating remote
call, and every remote call it makes is the remove-password call for the decoded identity or a
read of its parent application. -/
theorem create_delete_mutate_at_most_once {σ : Type} :
    (∀ (client : ApplicationClient σ) (gen : PasswordCredentialGenerator)
        (wait : Waiter σ PasswordCredential) (ctx : Context) (d : ResourceData) (w : World σ),
      Waiter.ProbeOnly wait →
      ∃ es, (applicationPasswordResourceCreate client gen wait ctx d w).2.2.trace =
          w.trace ++ es ∧
        es.countP Event.isMutating ≤ 1 ∧
        ∀ e ∈ es, e.isRemoteCall = true →
          ∃ applicationId,
            applicationPasswordResourceCreate.applicationId d = .ok applicationId ∧
            (e = Event.GetApplication applicationId ∨
              ∃ request, e = Event.AddPassword applicationId request)) ∧
    (∀ (client : ApplicationClient σ) (wait : Waiter σ String) (ctx : Context)
        (d : ResourceData) (w : World σ),
      Waiter.ProbeOnly wait →
      ∃ es, (applicationPasswordResourceDelete client wait ctx d w).2.2.trace =
          w.trace ++ es ∧
        es.countP Event.isMutating ≤ 1 ∧
        ∀ e ∈ es, e.isRemoteCall = true →
          ∃ id, parse.PasswordID d.Id = .ok id ∧
            (e = Event.GetApplication (NewApplicationID id.ObjectId) ∨
              e = Event.RemovePassword (NewApplicationID id.ObjectId) ⟨some id.KeyId⟩)) := by
  constructor
  · intro client gen wait ctx d w hwait
    rcases create_trace_shape client gen wait ctx d w hwait with h | ⟨a, post, ha, ht, hpost⟩
    · exact ⟨[], by simpa using h, by simp, by simp⟩
    · refine ⟨Event.Lock applicationResourceName a.ApplicationId ::
        Event.GetApplication a :: post ++
        [Event.Unlock applicationResourceName a.ApplicationId], by rw [ht]; simp, ?_, ?_⟩
      · rcases hpost with hp | ⟨request, rest, hp, hrest⟩
        · subst hp
          simp [List.countP_cons, Event.isMutating]
        · subst hp
          have hzero : rest.countP Event.isMutating = 0 := by
            rw [List.countP_eq_zero]
            intro e he
            rcases hrest e he with h | h | h <;> subst h <;> simp [Event.isMutating]
          simp [List.countP_cons, List.countP_append, Event.isMutating, hzero]
      · intro e he hcall
        refine ⟨a, ha, ?_⟩
        simp only [List.mem_cons, List.mem_append, List.mem_singleton, List.not_mem_nil,
          or_false] at he
        rcases he with (h | h | h) | h
        · subst h
          simp [Event.isRemoteCall, Event.isMutating] at hcall
        · exact Or.inl h
        · rcases hpost with hp | ⟨request, rest, hp, hrest⟩
          · subst hp
            simp at h
          · subst hp
            rcases List.mem_cons.mp h with h | h
            · exact Or.inr ⟨request, h⟩
            · rcases hrest e h with h | h | h
              · exact Or.inl h
              · subst h
                simp [Event.isRemoteCall, Event.isMutating] at hcall
              · subst h
                simp [Event.isRemoteCall, Event.isMutating] at hcall
        · subst h
          simp [Event.isRemoteCall, Event.isMutating] at hcall
  · intro client wait ctx d w hwait
    rcases delete_trace_shape client wait ctx d w hwait with h | ⟨id, rest, hid, ht, hrest⟩
    · exact ⟨[], by simpa using h, by simp, by simp⟩
    · refine ⟨Event.Lock applicationResourceName id.ObjectId ::
        Event.RemovePassword (NewApplicationID id.ObjectId) ⟨some id.KeyId⟩ :: rest ++
        [Event.Unlock applicationResourceName id.ObjectId], by rw [ht]; simp, ?_, ?_⟩
      · have hzero : rest.countP Event.isMutating = 0 := by
          rw [List.countP_eq_zero]
          intro e he
          rcases hrest e he with h | h <;> subst h <;> simp [Event.isMutating]
        simp [List.countP_cons, List.countP_append, Event.isMutating, hzero]
      · intro e he hcall
        refine ⟨id, hid, ?_⟩
        simp only [List.mem_cons, List.mem_append, List.mem_singleton, List.not_mem_nil,
          or_false] at he
        rcases he with (h | h | h) | h
        · subst h
          simp [Event.isRemoteCall, Event.isMutating] at hcall
        · exact Or.inr h
        · rcases hrest e h with h | h
          · exact Or.inl h
          · subst h
            simp [Event.isRemoteCall, Event.isMutating] at hcall
        · subst h
          simp [Event.isRemoteCall, Event.isMutating] at hcall

/-- C15: with a waiter that only runs its probe, each execution of password Create, and of
password Delete, either leaves the trace as it was (a return before the acquisition: no lock, no
release, no remote call), or adds first the acquisition of the lock named by the parent
application's object id, then events that are no lock operations, and last the release of that
same name. -/
theorem create_delete_lock_discipline {σ : Type} :
    (∀ (client : ApplicationClient σ) (gen : PasswordCredentialGenerator)
        (wait : Waiter σ PasswordCredential) (ctx : Context) (d : ResourceData) (w : World σ),
      Waiter.ProbeOnly wait →
      (applicationPasswordResourceCreate client gen wait ctx d w).2.2.trace = w.trace ∨
        ∃ applicationId mid,
          applicationPasswordResourceCreate.applicationId d = .ok applicationId ∧
          (applicationPasswordResourceCreate client gen wait ctx d w).2.2.trace =
            w.trace ++ Event.Lock applicationResourceName applicationId.ApplicationId :: mid ++
              [Event.Unlock applicationResourceName applicationId.ApplicationId] ∧
          (∀ e ∈ mid, e.isLockOp = false) ∧ ∃ e ∈ mid, e.isRemoteCall = true) ∧
    (∀ (client : ApplicationClient σ) (wait : Waiter σ String) (ctx : Context)
        (d : ResourceData) (w : World σ),
      Waiter.ProbeOnly wait →
      (applicationPasswordResourceDelete client wait ctx d w).2.2.trace = w.trace ∨
        ∃ id mid, parse.PasswordID d.Id = .ok id ∧
          (applicationPasswordResourceDelete client wait ctx d w).2.2.trace =
            w.trace ++ Event.Lock applicationResourceName id.ObjectId :: mid ++
              [Event.Unlock applicationResourceName id.ObjectId] ∧
          (∀ e ∈ mid, e.isLockOp = false) ∧ ∃ e ∈ mid, e.isRemoteCall = true) := by
  constructor
  · intro client gen wait ctx d w hwait
    rcases create_trace_shape client gen wait ctx d w hwait with h | ⟨a, post, ha, ht, hpost⟩
    · exact Or.inl h
    · refine Or.inr ⟨a, Event.GetApplication a :: post, ha, by simpa using ht, ?_,
        ⟨_, List.mem_cons_self _ _, rfl⟩⟩
      intro e he
      rcases List.mem_cons.mp he with h | h
      · subst h
        rfl
      · rcases hpost with hp | ⟨request, rest, hp, hrest⟩
        · subst hp
          simp at h
        · subst hp
          rcases List.mem_cons.mp h with h | h
          · subst h
            rfl
          · rcases hrest e h with h | h | h <;> subst h <;> rfl
  · intro client wait ctx d w hwait
    rcases delete_trace_shape client wait ctx d w hwait with h | ⟨id, rest, hid, ht, hrest⟩
    · exact Or.inl h
    · refine Or.inr ⟨id, Event.RemovePassword (NewApplicationID id.ObjectId) ⟨some id.KeyId⟩ ::
        rest, hid, by simpa using ht, ?_, ⟨_, List.mem_cons_self _ _, rfl⟩⟩
      intro e he
      rcases List.mem_cons.mp he with h | h
      · subst h
        rfl
      · rcases hrest e h with h | h <;> subst h <;> rfl

/-- C13: when the credential generator fails in password Create, the returned error carries the
message of the generator's error and is attached to the attribute given by `Attr()` when the
error is a `CredentialError` (an attribute path of that one name, or the empty path when the name
is empty), and to the empty path when it is an error of another type; `Attr()` returns the
attribute name a `CredentialError` carries and `Error()` its message. -/
theorem create_generator_error_path {σ : Type} (client : ApplicationClient σ)
    (gen : PasswordCredentialGenerator) (wait : Waiter σ PasswordCredential) (ctx : Context)
    (d : ResourceData) (w : World σ) (applicationId : ApplicationId)
    (credential : Option PasswordCredential) (err : GeneratorError)
    (hparent : applicationPasswordResourceCreate.applicationId d = .ok applicationId)
    (hgen : gen d = (credential, some err)) :
    (∀ kerr, err = .credentialError kerr →
      (applicationPasswordResourceCreate client gen wait ctx d w).1 =
        .ret [{ Severity := Severity.Error,
                Summary := "Generating password credentials for " ++ applicationId.String,
                Detail := kerr.Error,
                AttributePath := if kerr.Attr = "" then [] else [kerr.Attr] }]) ∧
    (∀ msg, err = .other msg →
      (applicationPasswordResourceCreate client gen wait ctx d w).1 =
        .ret [{ Severity := Severity.Error,
                Summary := "Generating password credentials for " ++ applicationId.String,
                Detail := msg,
                AttributePath := [] }]) ∧
    (∀ str attr : String,
      (credentials.CredentialError.mk str attr).Attr = attr ∧
        (credentials.CredentialError.mk str attr).Error = str) := by
  refine ⟨?_, ?_, fun _ _ => ⟨rfl, rfl⟩⟩
  · intro kerr he
    subst he
    simp only [applicationPasswordResourceCreate, hparent, hgen]
    rfl
  · intro msg he
    subst he
    simp only [applicationPasswordResourceCreate, hparent, hgen]
    rfl

/-- Witness of C13: a generator that fails with a `CredentialError` naming `end_date`. -/
theorem create_generator_error_path_witness :
    (applicationPasswordResourceCreate (delayedApplicationClient 1) conflictingGenerator
        StateChangeConf.WaitForStateContext ⟨some 10⟩ sampleCreateData startWorld).1 =
      .ret [{ Severity := Severity.Error,
              Summary := "Generating password credentials for " ++
                (NewApplicationID sampleUUID).String,
              Detail := "both end_date and end_date_relative are set",
              AttributePath := ["end_date"] }] :=
  (create_generator_error_path (delayedApplicationClient 1) conflictingGenerator
    StateChangeConf.WaitForStateContext ⟨some 10⟩ sampleCreateData startWorld
    (NewApplicationID sampleUUID) none
    (.credentialError ⟨"both end_date and end_date_relative are set", "end_date"⟩) rfl rfl).1
    ⟨"both end_date and end_date_relative are set", "end_date"⟩ rfl

/-! ## The diff-suppression rule, characterised -/

/-- A parsed structured application ID is the input without its leading segment. -/
theorem ParseApplicationID_ok (input : String) (applicationId : ApplicationId)
    (h : ParseApplicationID input = .ok applicationId) :
    input = "/applications/" ++ applicationId.ApplicationId := by
  unfold ParseApplicationID at h
  simp only at h
  split at h
  · rename_i hpre
    split at h
    · simp at h
    · split at h
      · simp at h
      · simp only [Except.ok.injEq] at h
        subst h
        obtain ⟨t, ht⟩ := List.isPrefixOf_iff_prefix.mp hpre
        have hdrop : List.drop applicationsSegment.length input.toList = t := by
          rw [← ht, List.drop_left]
        apply String.ext
        simp only [String.data_append]
        rw [show input.data = input.toList from rfl, hdrop, ← ht]
        rfl
  · simp at h

/-- C19: the diff-suppression rule of `application_object_id` returns true if and only if the old
value is a valid bare UUID and the new value parses as a structured application ID whose
application id is, character for character, the old value; that is, if and only if the old value
is a valid UUID and the new value is `/applications/` followed by it.  For any other pair it
returns false, for instance when the ids differ in letter case only. -/
theorem diffSuppress_iff (oldValue newValue : String) :
    (applicationObjectIdDiffSuppressFunc oldValue newValue = true ↔
      uuid.ParseUUID oldValue = none ∧
        ∃ applicationId, ParseApplicationID newValue = .ok applicationId ∧
          applicationId.ApplicationId = oldValue) ∧
    (applicationObjectIdDiffSuppressFunc oldValue newValue = true ↔
      uuid.ParseUUID oldValue = none ∧ newValue = "/applications/" ++ oldValue) ∧
    (applicationObjectIdDiffSuppressFunc oldValue newValue = false ↔
      ¬ (uuid.ParseUUID oldValue = none ∧
        ∃ applicationId, ParseApplicationID newValue = .ok applicationId ∧
          applicationId.ApplicationId = oldValue)) ∧
    uuid.ParseUUID upperUUID = none ∧
    (∃ applicationId, ParseApplicationID ("/applications/" ++ lowerUUID) = .ok applicationId ∧
      EqualFold applicationId.ApplicationId upperUUID = true) ∧
    applicationObjectIdDiffSuppressFunc upperUUID ("/applications/" ++ lowerUUID) = false := by
  have h1 : applicationObjectIdDiffSuppressFunc oldValue newValue = true ↔
      uuid.ParseUUID oldValue = none ∧
        ∃ applicationId, ParseApplicationID newValue = .ok applicationId ∧
          applicationId.ApplicationId = oldValue := by
    unfold applicationObjectIdDiffSuppressFunc
    cases hu : uuid.ParseUUID oldValue with
    | some e => simp
    | none =>
      cases hp : ParseApplicationID newValue with
      | error e => simp
      | ok applicationId => simp
  refine ⟨h1, ?_, ?_, by decide, ⟨⟨lowerUUID⟩, by rfl, by decide⟩, by decide⟩
  · rw [h1]
    constructor
    · rintro ⟨hu, applicationId, hp, heq⟩
      have := ParseApplicationID_ok newValue applicationId hp
      rw [heq] at this
      exact ⟨hu, this⟩
    · rintro ⟨hu, hnew⟩
      obtain ⟨hne, hslash⟩ := uuid_no_slash oldValue hu
      exact ⟨hu, ⟨oldValue⟩, by rw [hnew]; exact ParseApplicationID_structured oldValue hne hslash,
        rfl⟩
  · rw [← h1]
    cases applicationObjectIdDiffSuppressFunc oldValue newValue <;> simp

/-! ## Role-assignment Create: the request -/

/-- The trace after `CreateDirectoryRoleAssignment`. -/
theorem callCreate_trace {σ : Type} (client : DirectoryRoleAssignmentClient σ)
    (properties : UnifiedRoleAssignment) (w w1 : World σ)
    (r : DirectoryRoleAssignmentOperationResponse × Option GoError)
    (h : client.callCreate properties w = (r, w1)) :
    w1.trace = w.trace ++ [Event.CreateDirectoryRoleAssignment properties] := by
  have := congrArg (fun x => x.2.trace) h
  simpa [DirectoryRoleAssignmentClient.callCreate] using this.symm

/-- The trace after `GetDirectoryRoleAssignment`. -/
theorem callGet_trace {σ : Type} (client : DirectoryRoleAssignmentClient σ)
    (id : RoleManagementDirectoryRoleAssignmentId) (w w1 : World σ)
    (r : DirectoryRoleAssignmentOperationResponse × Option GoError)
    (h : client.callGet id w = (r, w1)) :
    w1.trace = w.trace ++ [Event.GetDirectoryRoleAssignment id] := by
  have := congrArg (fun x => x.2.trace) h
  simpa [DirectoryRoleAssignmentClient.callGet] using this.symm

/-- The probe of role-assignment Create adds one fetch of the assignment to the trace. -/
theorem role_Refresh_trace {σ : Type} (client : DirectoryRoleAssignmentClient σ)
    (id : RoleManagementDirectoryRoleAssignmentId) (w : World σ) :
    (directoryRoleAssignmentResourceCreate.Refresh client id w).2.trace =
      w.trace ++ [Event.GetDirectoryRoleAssignment id] := by
  unfold directoryRoleAssignmentResourceCreate.Refresh
  rcases hget : client.callGet id w with ⟨⟨resp, err⟩, w1⟩
  have ht := callGet_trace _ _ _ _ _ hget
  cases err with
  | some e =>
    simp only []
    split <;> simpa using ht
  | none => simpa using ht

/-- The trace of role-assignment Read: its entry and one fetch of the assignment. -/
theorem role_read_trace {σ : Type} (client : DirectoryRoleAssignmentClient σ)
    (d : ResourceData) (w : World σ) :
    (directoryRoleAssignmentResourceRead client d w).2.2.trace =
      w.trace ++ [Event.ReadInvoked "directoryRoleAssignmentResourceRead",
        Event.GetDirectoryRoleAssignment (NewRoleManagementDirectoryRoleAssignmentID d.Id)] := by
  rcases hget : client.callGet (NewRoleManagementDirectoryRoleAssignmentID d.Id)
    (w.log (Event.ReadInvoked "directoryRoleAssignmentResourceRead")) with ⟨⟨resp, err⟩, w1⟩
  have ht := callGet_trace _ _ _ _ _ hget
  simp only [World.log] at ht
  simp only [directoryRoleAssignmentResourceRead, hget]
  cases err with
  | some e =>
    simp only []
    split <;> simp [ht]
  | none =>
    simp only []
    split <;> simp [ht]

/-- C20: the request of role-assignment Create carries exactly one of `AppScopeId` and
`DirectoryScopeId`: `AppScopeId`, taken from `app_scope_id` and else from
`app_scope_object_id`, when that value is not empty; otherwise `DirectoryScopeId`, taken from
`directory_scope_id` and else from `directory_scope_object_id`, when that value is not empty;
otherwise `DirectoryScopeId` with the value `/`.  `PrincipalId` and `RoleDefinitionId` are the
attributes `principal_object_id` and `role_id`.  With a waiter that only runs its probe, the
first event of Create is the create call with this request, and Create makes no other create
call. -/
theorem role_assignment_request_scope {σ : Type} (client : DirectoryRoleAssignmentClient σ)
    (wait : Waiter σ String) (ctx : Context) (d : ResourceData) (w : World σ)
    (hwait : Waiter.ProbeOnly wait) :
    directoryRoleAssignmentResourceCreate.properties d =
      (let appScopeId :=
        if d.Get "app_scope_id" ≠ "" then d.Get "app_scope_id" else d.Get "app_scope_object_id"
      let directoryScopeId :=
        if d.Get "directory_scope_id" ≠ "" then d.Get "directory_scope_id"
        else d.Get "directory_scope_object_id"
      { Id := none,
        AppScopeId := if appScopeId ≠ "" then .value appScopeId else .unset,
        DirectoryScopeId :=
          if appScopeId ≠ "" then .unset
          else if directoryScopeId ≠ "" then .value directoryScopeId else .value "/",
        PrincipalId := .value (d.Get "principal_object_id"),
        RoleDefinitionId := .value (d.Get "role_id") }) ∧
    ((directoryRoleAssignmentResourceCreate.properties d).AppScopeId.IsSet ≠
      (directoryRoleAssignmentResourceCreate.properties d).DirectoryScopeId.IsSet) ∧
    (∃ es, (directoryRoleAssignmentResourceCreate client wait ctx d w).2.2.trace =
      w.trace ++ Event.CreateDirectoryRoleAssignment
        (directoryRoleAssignmentResourceCreate.properties d) :: es ∧
      ∀ e ∈ es, e.isMutating = false) := by
  have hprops : directoryRoleAssignmentResourceCreate.properties d =
      (let appScopeId :=
        if d.Get "app_scope_id" ≠ "" then d.Get "app_scope_id" else d.Get "app_scope_object_id"
      let directoryScopeId :=
        if d.Get "directory_scope_id" ≠ "" then d.Get "directory_scope_id"
        else d.Get "directory_scope_object_id"
      { Id := none,
        AppScopeId := if appScopeId ≠ "" then .value appScopeId else .unset,
        DirectoryScopeId :=
          if appScopeId ≠ "" then .unset
          else if directoryScopeId ≠ "" then .value directoryScopeId else .value "/",
        PrincipalId := .value (d.Get "principal_object_id"),
        RoleDefinitionId := .value (d.Get "role_id") }) := by
    simp only [directoryRoleAssignmentResourceCreate.properties, ResourceData.GetOk]
    by_cases h1 : d.Get "app_scope_id" = "" <;> by_cases h2 : d.Get "app_scope_object_id" = "" <;>
      by_cases h3 : d.Get "directory_scope_id" = "" <;>
      by_cases h4 : d.Get "directory_scope_object_id" = "" <;>
      simp [h1, h2, h3, h4]
  refine ⟨hprops, ?_, ?_⟩
  · simp only [directoryRoleAssignmentResourceCreate.properties, ResourceData.GetOk]
    by_cases h1 : d.Get "app_scope_id" = "" <;> by_cases h2 : d.Get "app_scope_object_id" = "" <;>
      by_cases h3 : d.Get "directory_scope_id" = "" <;>
      by_cases h4 : d.Get "directory_scope_object_id" = "" <;>
      simp [h1, h2, h3, h4, Nullable.IsSet]
  · generalize hT : (directoryRoleAssignmentResourceCreate client wait ctx d w).2.2.trace = T
    rcases hc : client.callCreate (directoryRoleAssignmentResourceCreate.properties d) w
      with ⟨⟨resp, err⟩, w1⟩
    have ht1 := callCreate_trace _ _ _ _ _ hc
    simp only [directoryRoleAssignmentResourceCreate, hc] at hT
    cases err with
    | some e => exact ⟨[], by simp [← hT, ht1], by simp⟩
    | none =>
      simp only [] at hT
      cases hm : resp.Model.bind (fun assignment => assignment.Id) with
      | none =>
        rw [hm] at hT
        exact ⟨[], by simp [← hT, ht1], by simp⟩
      | some assignmentId =>
        rw [hm] at hT
        simp only [] at hT
        cases hd : ctx.Deadline with
        | none =>
          rw [hd] at hT
          exact ⟨[], by simp [← hT, ht1], by simp⟩
        | some timeout =>
          rw [hd] at hT
          simp only [] at hT
          obtain ⟨n, hn⟩ := hwait (directoryRoleAssignmentResourceCreate.conf client timeout
            (NewRoleManagementDirectoryRoleAssignmentID assignmentId)) ctx
            (Event.GetDirectoryRoleAssignment
              (NewRoleManagementDirectoryRoleAssignmentID assignmentId))
            (fun w0 => role_Refresh_trace client _ w0) (w1.log Event.WaitStarted)
          rcases hw : wait (directoryRoleAssignmentResourceCreate.conf client timeout
            (NewRoleManagementDirectoryRoleAssignmentID assignmentId)) ctx
            (w1.log Event.WaitStarted) with ⟨out, w2⟩
          rw [hw] at hn hT
          simp only [World.log] at hn
          have hrest : ∀ e ∈ Event.WaitStarted :: List.replicate n
              (Event.GetDirectoryRoleAssignment
                (NewRoleManagementDirectoryRoleAssignmentID assignmentId)),
              e.isMutating = false := by
            intro e he
            rcases List.mem_cons.mp he with h | h
            · subst h
              rfl
            · rw [List.eq_of_mem_replicate h]
              rfl
          have hfail : T = w2.trace → ∃ es, T = w.trace ++
              Event.CreateDirectoryRoleAssignment
                (directoryRoleAssignmentResourceCreate.properties d) :: es ∧
              ∀ e ∈ es, e.isMutating = false := by
            intro hTeq
            exact ⟨_, by rw [hTeq, hn, ht1]; simp, hrest⟩
          cases out with
          | panicked msg => exact hfail (by simp [← hT])
          | ret r =>
            rcases r with ⟨res, err⟩
            cases err with
            | some e => exact hfail (by simp [← hT])
            | none =>
              simp only [] at hT
              refine ⟨Event.WaitStarted :: List.replicate n
                (Event.GetDirectoryRoleAssignment
                  (NewRoleManagementDirectoryRoleAssignmentID assignmentId)) ++
                [Event.ReadInvoked "directoryRoleAssignmentResourceRead",
                  Event.GetDirectoryRoleAssignment
                    (NewRoleManagementDirectoryRoleAssignmentID assignmentId)], ?_, ?_⟩
              · rw [← hT, role_read_trace, hn, ht1]
                simp [ResourceData.SetId, NewRoleManagementDirectoryRoleAssignmentID]
              · intro e he
                rcases List.mem_append.mp he with h | h
                · exact hrest e h
                · simp only [List.mem_cons, List.mem_singleton, List.not_mem_nil,
                    or_false] at h
                  rcases h with h | h <;> subst h <;> rfl

/-- Witness of C20: a role assignment scoped through the deprecated `app_scope_object_id`, with a
directory scope given as well: the request carries the application scope only. -/
theorem role_assignment_request_scope_witness :
    directoryRoleAssignmentResourceCreate.properties sampleRoleData =
      { Id := none, AppScopeId := .value "/app-1", DirectoryScopeId := .unset,
        PrincipalId := .value "11111111-1111-1111-1111-111111111111",
        RoleDefinitionId := .value "00000000-0000-0000-0000-000000000000" } ∧
    (∃ es, (directoryRoleAssignmentResourceCreate (delayedRoleAssignmentClient 1)
        StateChangeConf.WaitForStateContext ⟨some 10⟩ sampleRoleData startWorld).2.2.trace =
      startWorld.trace ++ Event.CreateDirectoryRoleAssignment
        (directoryRoleAssignmentResourceCreate.properties sampleRoleData) :: es ∧
      ∀ e ∈ es, e.isMutating = false) :=
  ⟨by decide,
    (role_assignment_request_scope (delayedRoleAssignmentClient 1)
      StateChangeConf.WaitForStateContext ⟨some 10⟩ sampleRoleData startWorld
      WaitForStateContext_ProbeOnly).2.2⟩

/-- Witness of C14: Create and Delete against the counting service, with the modelled waiter. -/
theorem create_delete_mutate_at_most_once_witness :
    (∃ es, (applicationPasswordResourceCreate (delayedApplicationClient 1) sampleGenerator
          StateChangeConf.WaitForStateContext ⟨some 10⟩ sampleCreateData startWorld).2.2.trace =
          startWorld.trace ++ es ∧
        es.countP Event.isMutating ≤ 1 ∧
        ∀ e ∈ es, e.isRemoteCall = true →
          ∃ applicationId,
            applicationPasswordResourceCreate.applicationId sampleCreateData =
              .ok applicationId ∧
            (e = Event.GetApplication applicationId ∨
              ∃ request, e = Event.AddPassword applicationId request)) ∧
    (∃ es, (applicationPasswordResourceDelete (delayedApplicationClient 1)
          StateChangeConf.WaitForStateContext ⟨some 10⟩ sampleReadData startWorld).2.2.trace =
          startWorld.trace ++ es ∧
        es.countP Event.isMutating ≤ 1 ∧
        ∀ e ∈ es, e.isRemoteCall = true →
          ∃ id, parse.PasswordID sampleReadData.Id = .ok id ∧
            (e = Event.GetApplication (NewApplicationID id.ObjectId) ∨
              e = Event.RemovePassword (NewApplicationID id.ObjectId) ⟨some id.KeyId⟩)) ∧
    (applicationPasswordResourceCreate (delayedApplicationClient 1) sampleGenerator
        StateChangeConf.WaitForStateContext ⟨some 10⟩ sampleCreateData
        startWorld).2.2.trace.countP Event.isMutating = 1 :=
  ⟨(create_delete_mutate_at_most_once (σ := Nat)).1 (delayedApplicationClient 1) sampleGenerator
      StateChangeConf.WaitForStateContext ⟨some 10⟩ sampleCreateData startWorld
      WaitForStateContext_ProbeOnly,
    (create_delete_mutate_at_most_once (σ := Nat)).2 (delayedApplicationClient 1)
      StateChangeConf.WaitForStateContext ⟨some 10⟩ sampleReadData startWorld
      WaitForStateContext_ProbeOnly,
    by decide⟩

/-- Witness of C15: Create against the counting service takes and releases the lock named by the
sample UUID; Delete of the sample identity does the same. -/
theorem create_delete_lock_discipline_witness :
    ((applicationPasswordResourceCreate (delayedApplicationClient 1) sampleGenerator
          StateChangeConf.WaitForStateContext ⟨some 10⟩ sampleCreateData startWorld).2.2.trace =
          startWorld.trace ∨
        ∃ applicationId mid,
          applicationPasswordResourceCreate.applicationId sampleCreateData =
            .ok applicationId ∧
          (applicationPasswordResourceCreate (delayedApplicationClient 1) sampleGenerator
            StateChangeConf.WaitForStateContext ⟨some 10⟩ sampleCreateData
            startWorld).2.2.trace =
            startWorld.trace ++
              Event.Lock applicationResourceName applicationId.ApplicationId :: mid ++
              [Event.Unlock applicationResourceName applicationId.ApplicationId] ∧
          (∀ e ∈ mid, e.isLockOp = false) ∧ ∃ e ∈ mid, e.isRemoteCall = true) ∧
    ((applicationPasswordResourceDelete (delayedApplicationClient 1)
          StateChangeConf.WaitForStateContext ⟨some 10⟩ sampleReadData startWorld).2.2.trace =
          startWorld.trace ∨
        ∃ id mid, parse.PasswordID sampleReadData.Id = .ok id ∧
          (applicationPasswordResourceDelete (delayedApplicationClient 1)
            StateChangeConf.WaitForStateContext ⟨some 10⟩ sampleReadData
            startWorld).2.2.trace =
            startWorld.trace ++ Event.Lock applicationResourceName id.ObjectId :: mid ++
              [Event.Unlock applicationResourceName id.ObjectId] ∧
          (∀ e ∈ mid, e.isLockOp = false) ∧ ∃ e ∈ mid, e.isRemoteCall = true) ∧
    (applicationPasswordResourceCreate (delayedApplicationClient 1) sampleGenerator
        StateChangeConf.WaitForStateContext ⟨some 10⟩ sampleCreateData
        startWorld).2.2.trace.countP Event.isLockOp = 2 :=
  ⟨(create_delete_lock_discipline (σ := Nat)).1 (delayedApplicationClient 1) sampleGenerator
      StateChangeConf.WaitForStateContext ⟨some 10⟩ sampleCreateData startWorld
      WaitForStateContext_ProbeOnly,
    (create_delete_lock_discipline (σ := Nat)).2 (delayedApplicationClient 1)
      StateChangeConf.WaitForStateContext ⟨some 10⟩ sampleReadData startWorld
      WaitForStateContext_ProbeOnly,
    by decide⟩

/-! ## Password Read: the display name -/

/-- Reading an attribute after writing one. -/
theorem Get_Set (d : ResourceData) (key value key0 : String) :
    (d.Set key value).Get key0 = if key0 = key then value else d.Get key0 := by
  simp only [ResourceData.Get, ResourceData.Set, List.lookup]
  by_cases h : key0 = key
  · simp [h]
  · have : (key0 == key) = false := by simpa using h
    simp [h, this]

/-- C16: in password Read, for a located credential: when it has a display name, `display_name`
is set to that name; otherwise, when it has a custom key identifier, `display_name` is set to the
standard-base64 decoding of that identifier, and when the identifier is no valid base64 Read
returns an error attached to `display_name`; when it has neither, `display_name` is left as it
was.  ("Has" is the test `!= nil` of the source: a field sent as null counts as present, with
the empty string as its value.) -/
theorem read_display_name {σ : Type} (client : ApplicationClient σ) (d : ResourceData)
    (w w1 : World σ) (id : CredentialId) (resp : GetApplicationOperationResponse)
    (app : Application) (credential : PasswordCredential)
    (hid : parse.PasswordID d.Id = .ok id)
    (hget : client.callGetApplication (NewApplicationID id.ObjectId)
      (w.log (Event.ReadInvoked "applicationPasswordResourceRead")) = ((resp, none), w1))
    (hmodel : resp.Model = some app)
    (hcred : credentials.GetPasswordCredential app.PasswordCredentials id.KeyId =
      some credential) :
    (credential.DisplayName.IsSet = true →
      (applicationPasswordResourceRead client d w).1 = [] ∧
      (applicationPasswordResourceRead client d w).2.1.Get "display_name" =
        credential.DisplayName.GetOrZero) ∧
    (∀ name, credential.DisplayName = .value name →
      (applicationPasswordResourceRead client d w).1 = [] ∧
      (applicationPasswordResourceRead client d w).2.1.Get "display_name" = name) ∧
    (∀ displayName, credential.DisplayName.IsSet = false →
      credential.CustomKeyIdentifier.IsSet = true →
      base64.StdEncoding.DecodeString credential.CustomKeyIdentifier.GetOrZero =
        .ok displayName →
      (applicationPasswordResourceRead client d w).1 = [] ∧
      (applicationPasswordResourceRead client d w).2.1.Get "display_name" = displayName) ∧
    (∀ err, credential.DisplayName.IsSet = false →
      credential.CustomKeyIdentifier.IsSet = true →
      base64.StdEncoding.DecodeString credential.CustomKeyIdentifier.GetOrZero = .error err →
      (applicationPasswordResourceRead client d w).1 =
        [{ Severity := Severity.Error, Summary := "Parsing CustomKeyIdentifier", Detail := err,
           AttributePath := ["display_name"] }] ∧
      (applicationPasswordResourceRead client d w).2.1.Get "display_name" =
        d.Get "display_name") ∧
    (credential.DisplayName.IsSet = false → credential.CustomKeyIdentifier.IsSet = false →
      (applicationPasswordResourceRead client d w).1 = [] ∧
      (applicationPasswordResourceRead client d w).2.1.Get "display_name" =
        d.Get "display_name") := by
  have hname : credential.DisplayName.IsSet = true →
      (applicationPasswordResourceRead client d w).1 = [] ∧
      (applicationPasswordResourceRead client d w).2.1.Get "display_name" =
        credential.DisplayName.GetOrZero := by
    intro h
    simp only [applicationPasswordResourceRead, hid, hget, hmodel, hcred, h, if_true]
    split <;> simp [Get_Set]
  refine ⟨hname, ?_, ?_, ?_, ?_⟩
  · intro name h
    have := hname (by rw [h]; rfl)
    rw [h] at this
    exact this
  · intro displayName h1 h2 hdec
    simp only [applicationPasswordResourceRead, hid, hget, hmodel, hcred, h1, h2, hdec,
      if_true, Bool.false_eq_true, if_false]
    split <;> simp [Get_Set]
  · intro err h1 h2 hdec
    simp only [applicationPasswordResourceRead, hid, hget, hmodel, hcred, h1, h2, hdec,
      if_true, Bool.false_eq_true, if_false]
    simp [Get_Set, tf.ErrorDiagPathF]
  · intro h1 h2
    simp only [applicationPasswordResourceRead, hid, hget, hmodel, hcred, h1, h2,
      Bool.false_eq_true, if_false]
    split <;> simp [Get_Set]

/-- Witness of C16: a credential with a display name, a legacy credential whose custom key
identifier decodes to `ci`, and one whose custom key identifier is no base64 text. -/
theorem read_display_name_witness :
    (applicationPasswordResourceRead (listingApplicationClient sampleListedCredential)
        sampleReadData startWorld).2.1.Get "display_name" = "ci" ∧
    (applicationPasswordResourceRead (listingApplicationClient legacyCredential)
        sampleReadData startWorld).2.1.Get "display_name" = "ci" ∧
    (applicationPasswordResourceRead (listingApplicationClient brokenLegacyCredential)
        sampleReadData startWorld).1 =
      [{ Severity := Severity.Error, Summary := "Parsing CustomKeyIdentifier",
         Detail := "illegal base64 data", AttributePath := ["display_name"] }] :=
  ⟨((read_display_name (listingApplicationClient sampleListedCredential) sampleReadData
      startWorld ⟨1, [Event.ReadInvoked "applicationPasswordResourceRead",
        Event.GetApplication ⟨sampleUUID⟩]⟩ samplePasswordId
      ⟨some 200, some ⟨some sampleUUID, some [sampleListedCredential]⟩⟩
      ⟨some sampleUUID, some [sampleListedCredential]⟩ sampleListedCredential
      rfl rfl rfl rfl).2.1 "ci" rfl).2,
    ((read_display_name (listingApplicationClient legacyCredential) sampleReadData
      startWorld ⟨1, [Event.ReadInvoked "applicationPasswordResourceRead",
        Event.GetApplication ⟨sampleUUID⟩]⟩ samplePasswordId
      ⟨some 200, some ⟨some sampleUUID, some [legacyCredential]⟩⟩
      ⟨some sampleUUID, some [legacyCredential]⟩ legacyCredential
      rfl rfl rfl rfl).2.2.1 "ci" rfl rfl rfl).2,
    ((read_display_name (listingApplicationClient brokenLegacyCredential) sampleReadData
      startWorld ⟨1, [Event.ReadInvoked "applicationPasswordResourceRead",
        Event.GetApplication ⟨sampleUUID⟩]⟩ samplePasswordId
      ⟨some 200, some ⟨some sampleUUID, some [brokenLegacyCredential]⟩⟩
      ⟨some sampleUUID, some [brokenLegacyCredential]⟩ brokenLegacyCredential
      rfl rfl rfl rfl).2.2.2.1 "illegal base64 data" rfl rfl rfl).1⟩

/-! ## Generated constants: WindowsAutopilotDeviceType -/

/-- On an ASCII rune the representative under case folding is the lower-case form. -/
theorem foldChar_of_ascii (c : Char) (h : c.toNat < 128) : foldChar c = unicode.ToLower c := by
  simp [foldChar, unicode.ToLower, h]

/-- Two ASCII strings are equal under case folding exactly when their lower-case forms are
equal. -/
theorem EqualFold_iff_ToLower_of_ascii (s t : String) (hs : ∀ c ∈ s.toList, c.toNat < 128)
    (ht : ∀ c ∈ t.toList, c.toNat < 128) :
    EqualFold s t = true ↔ strings.ToLower s = strings.ToLower t := by
  have es : s.toList.map foldChar = s.toList.map unicode.ToLower :=
    List.map_congr_left fun c hc => foldChar_of_ascii c (hs c hc)
  have et : t.toList.map foldChar = t.toList.map unicode.ToLower :=
    List.map_congr_left fun c hc => foldChar_of_ascii c (ht c hc)
  simp only [EqualFold, strings.ToLower, beq_iff_eq, es, et]
  constructor
  · intro h
    rw [h]
  · intro h
    have := congrArg String.data h
    simpa using this

/-- C18 (as stated, refuted): the spelling of `windowspc` whose second letter is `U+0130` (capital
I with dot above) equals none of the five listed values under case folding, and is not returned
unchanged but as `windowsPc`; the spelling whose seventh letter is the long s `U+017F` equals
`windowsPc` under case folding, and is returned unchanged. -/
theorem parseWindowsAutopilotDeviceType_fold_mismatch :
    (∀ v ∈ PossibleValuesForWindowsAutopilotDeviceType, EqualFold "w\u0130ndowspc" v = false) ∧
    parseWindowsAutopilotDeviceType "w\u0130ndowspc" = (some "windowsPc", none) ∧
    EqualFold "window\u017Fpc" WindowsAutopilotDeviceType_WindowsPc = true ∧
    parseWindowsAutopilotDeviceType "window\u017Fpc" = (some "window\u017Fpc", none) := by
  decide

/-- C18 (amended): `parseWindowsAutopilotDeviceType` never returns an error; an input whose
lower-case form (`strings.ToLower`) is the lower-case form of one of the five values of
`PossibleValuesForWindowsAutopilotDeviceType` yields that value in its canonical spelling; every
other input is returned unchanged; for an input of ASCII characters the test is equality with the
listed value under case folding; each listed value parses to itself and parsing the result of a
parse changes nothing. -/
theorem parseWindowsAutopilotDeviceType_lower_case_match (input : String) :
    (parseWindowsAutopilotDeviceType input).2 = none ∧
    (∀ v ∈ PossibleValuesForWindowsAutopilotDeviceType,
      strings.ToLower input = strings.ToLower v →
      parseWindowsAutopilotDeviceType input = (some v, none)) ∧
    ((∀ v ∈ PossibleValuesForWindowsAutopilotDeviceType,
        strings.ToLower input ≠ strings.ToLower v) →
      parseWindowsAutopilotDeviceType input = (some input, none)) ∧
    (∀ v ∈ PossibleValuesForWindowsAutopilotDeviceType, (∀ c ∈ input.toList, c.toNat < 128) →
      (EqualFold input v = true ↔ strings.ToLower input = strings.ToLower v)) ∧
    (∀ v ∈ PossibleValuesForWindowsAutopilotDeviceType,
      parseWindowsAutopilotDeviceType v = (some v, none)) ∧
    (∃ out, parseWindowsAutopilotDeviceType input = (some out, none) ∧
      parseWindowsAutopilotDeviceType out = (some out, none)) := by
  have hlisted : ∀ v ∈ PossibleValuesForWindowsAutopilotDeviceType,
      parseWindowsAutopilotDeviceType v = (some v, none) := by
    intro v hv
    simp only [PossibleValuesForWindowsAutopilotDeviceType, List.mem_cons, List.mem_singleton,
      List.not_mem_nil, or_false] at hv
    rcases hv with h | h | h | h | h <;> subst h <;> decide
  have hmatch : ∀ v ∈ PossibleValuesForWindowsAutopilotDeviceType,
      strings.ToLower input = strings.ToLower v →
      parseWindowsAutopilotDeviceType input = (some v, none) := by
    intro v hv hf
    unfold parseWindowsAutopilotDeviceType
    rw [hf]
    simp only [PossibleValuesForWindowsAutopilotDeviceType, List.mem_cons, List.mem_singleton,
      List.not_mem_nil, or_false] at hv
    rcases hv with h | h | h | h | h <;> subst h <;> rfl
  have hother : (∀ v ∈ PossibleValuesForWindowsAutopilotDeviceType,
      strings.ToLower input ≠ strings.ToLower v) →
      parseWindowsAutopilotDeviceType input = (some input, none) := by
    intro hno
    have hne : ∀ v ∈ PossibleValuesForWindowsAutopilotDeviceType,
        (strings.ToLower input == strings.ToLower v) = false := by
      intro v hv
      simpa using hno v hv
    have h1 := hne WindowsAutopilotDeviceType_HoloLens
      (by simp [PossibleValuesForWindowsAutopilotDeviceType])
    have h2 := hne WindowsAutopilotDeviceType_SurfaceHub2
      (by simp [PossibleValuesForWindowsAutopilotDeviceType])
    have h3 := hne WindowsAutopilotDeviceType_SurfaceHub2S
      (by simp [PossibleValuesForWindowsAutopilotDeviceType])
    have h4 := hne WindowsAutopilotDeviceType_VirtualMachine
      (by simp [PossibleValuesForWindowsAutopilotDeviceType])
    have h5 := hne WindowsAutopilotDeviceType_WindowsPc
      (by simp [PossibleValuesForWindowsAutopilotDeviceType])
    have e1 : strings.ToLower WindowsAutopilotDeviceType_HoloLens = "hololens" := by decide
    have e2 : strings.ToLower WindowsAutopilotDeviceType_SurfaceHub2 = "surfacehub2" := by decide
    have e3 : strings.ToLower WindowsAutopilotDeviceType_SurfaceHub2S = "surfacehub2s" := by
      decide
    have e4 : strings.ToLower WindowsAutopilotDeviceType_VirtualMachine = "virtualmachine" := by
      decide
    have e5 : strings.ToLower WindowsAutopilotDeviceType_WindowsPc = "windowspc" := by decide
    rw [e1] at h1
    rw [e2] at h2
    rw [e3] at h3
    rw [e4] at h4
    rw [e5] at h5
    simp only [parseWindowsAutopilotDeviceType, List.lookup, h1, h2, h3, h4, h5]
  have hascii : ∀ v ∈ PossibleValuesForWindowsAutopilotDeviceType,
      (∀ c ∈ input.toList, c.toNat < 128) →
      (EqualFold input v = true ↔ strings.ToLower input = strings.ToLower v) := by
    intro v hv hin
    apply EqualFold_iff_ToLower_of_ascii input v hin
    simp only [PossibleValuesForWindowsAutopilotDeviceType, List.mem_cons, List.mem_singleton,
      List.not_mem_nil, or_false] at hv
    rcases hv with h | h | h | h | h <;> subst h <;> decide
  refine ⟨?_, hmatch, hother, hascii, hlisted, ?_⟩
  · unfold parseWindowsAutopilotDeviceType
    simp only []
    split <;> rfl
  · by_cases hex : ∃ v ∈ PossibleValuesForWindowsAutopilotDeviceType,
        strings.ToLower input = strings.ToLower v
    · obtain ⟨v, hv, hf⟩ := hex
      exact ⟨v, hmatch v hv hf, hlisted v hv⟩
    · have hno : ∀ v ∈ PossibleValuesForWindowsAutopilotDeviceType,
          strings.ToLower input ≠ strings.ToLower v := by
        intro v hv h
        exact hex ⟨v, hv, h⟩
      exact ⟨input, hother hno, hother hno⟩

/-- Witness of C18: an upper-case spelling of a listed value, equal to it under case folding, is
returned in the canonical spelling; an input that matches no listed value is returned
unchanged. -/
theorem parseWindowsAutopilotDeviceType_lower_case_match_witness :
    EqualFold "HOLOLENS" WindowsAutopilotDeviceType_HoloLens = true ∧
    parseWindowsAutopilotDeviceType "HOLOLENS" = (some "holoLens", none) ∧
    parseWindowsAutopilotDeviceType "HOLOLENZ" = (some "HOLOLENZ", none) :=
  ⟨by decide,
    (parseWindowsAutopilotDeviceType_lower_case_match "HOLOLENS").2.1
      WindowsAutopilotDeviceType_HoloLens (by decide) (by decide),
    (parseWindowsAutopilotDeviceType_lower_case_match "HOLOLENZ").2.2.1 (by decide)⟩

/-! ## Generated models: discriminated unions -/

/-- Equality ignoring letter case is transitive through a common string. -/
theorem EqualFold_trans_left (v a b : String) (ha : EqualFold v a = true)
    (hb : EqualFold v b = true) : EqualFold a b = true := by
  simp only [EqualFold, beq_iff_eq] at ha hb ⊢
  rw [← ha, ← hb]

/-- C17 (as stated, refuted): a JSON object without `@odata.type` whose `@odata.id` is a number
has the empty discriminator, which equals none of the defined ones ignoring letter case, and yet
`UnmarshalAccessReviewApplyActionImplementation` returns no Raw variant for it but the error of
decoding it into the base struct. -/
theorem unmarshal_raw_needs_decodable_base :
    numericIdObject = .object [("@odata.id", .number "5"), ("extra", .bool true)] ∧
    discriminatedValue (some [("@odata.id", .number "5"), ("extra", .bool true)]) = "" ∧
    (∀ t ∈ accessReviewApplyActionDiscriminators, EqualFold "" t = false) ∧
    UnmarshalAccessReviewApplyActionImplementation keepText keepText (some numericIdObject) =
      (none, some ("unmarshaling into BaseAccessReviewApplyActionImpl: " ++
        "json: cannot unmarshal number into Go struct field .@odata.id of type string")) := by
  refine ⟨rfl, by decide, by decide, by decide⟩

/-- C17 (amended): for a nil input both functions return no value and no error.  For a JSON
object, the discriminator is the rendering of its field `@odata.type` (the string itself for a
string, the empty string when the field is absent).  When it equals none of the defined
discriminators ignoring letter case, the functions decode the input into the base struct: if
that succeeds they return the Raw variant with the decoded base struct, the discriminator as
`Type` and the whole decoded field map as `Values`; if it fails they return no value and that
error.  When it equals a defined discriminator ignoring letter case, they decode the input into
the corresponding concrete struct and return it, or no value and the decoding error; never the
Raw variant. -/
theorem unmarshal_discriminated_implementation {D R B F I P S : Type}
    (unmarshalD : JSONText → Except GoError D) (unmarshalR : JSONText → Except GoError R)
    (unmarshal : AndroidCertificateProfileDecoders B F I P S)
    (fields : List (String × JSONValue)) :
    (UnmarshalAccessReviewApplyActionImplementation unmarshalD unmarshalR none = (none, none) ∧
      UnmarshalAndroidCertificateProfileBaseImplementation unmarshal none = (none, none)) ∧
    ((∀ s, GoMap.get? fields "@odata.type" = some (.string s) →
        discriminatedValue (some fields) = s) ∧
      (GoMap.get? fields "@odata.type" = none → discriminatedValue (some fields) = "")) ∧
    ((∀ t ∈ accessReviewApplyActionDiscriminators,
        EqualFold (discriminatedValue (some fields)) t = false) →
      (∀ parent, json.UnmarshalBaseAccessReviewApplyActionImpl (.object fields) = .ok parent →
        UnmarshalAccessReviewApplyActionImplementation unmarshalD unmarshalR
            (some (.object fields)) =
          (some (.RawAccessReviewApplyActionImpl
            ⟨parent, discriminatedValue (some fields), some fields⟩), none)) ∧
      (∀ err, json.UnmarshalBaseAccessReviewApplyActionImpl (.object fields) = .error err →
        UnmarshalAccessReviewApplyActionImplementation unmarshalD unmarshalR
            (some (.object fields)) =
          (none, some ("unmarshaling into BaseAccessReviewApplyActionImpl: " ++ err)))) ∧
    ((∀ t ∈ androidCertificateProfileBaseDiscriminators,
        EqualFold (discriminatedValue (some fields)) t = false) →
      (∀ parent, unmarshal.BaseAndroidCertificateProfileBaseImpl (.object fields) = .ok parent →
        UnmarshalAndroidCertificateProfileBaseImplementation unmarshal (some (.object fields)) =
          (some (.RawAndroidCertificateProfileBaseImpl
            ⟨parent, discriminatedValue (some fields), some fields⟩), none)) ∧
      (∀ err, unmarshal.BaseAndroidCertificateProfileBaseImpl (.object fields) = .error err →
        UnmarshalAndroidCertificateProfileBaseImplementation unmarshal (some (.object fields)) =
          (none, some ("unmarshaling into BaseAndroidCertificateProfileBaseImpl: " ++ err)))) ∧
    ((EqualFold (discriminatedValue (some fields))
          "#microsoft.graph.disableAndDeleteUserApplyAction" = true →
        UnmarshalAccessReviewApplyActionImplementation unmarshalD unmarshalR
            (some (.object fields)) =
          match unmarshalD (.object fields) with
          | .ok out => (some (.DisableAndDeleteUserApplyAction out), none)
          | .error err =>
            (none, some ("unmarshaling into DisableAndDeleteUserApplyAction: " ++ err))) ∧
      (EqualFold (discriminatedValue (some fields))
          "#microsoft.graph.removeAccessApplyAction" = true →
        UnmarshalAccessReviewApplyActionImplementation unmarshalD unmarshalR
            (some (.object fields)) =
          match unmarshalR (.object fields) with
          | .ok out => (some (.RemoveAccessApplyAction out), none)
          | .error err => (none, some ("unmarshaling into RemoveAccessApplyAction: " ++ err)))) ∧
    ((EqualFold (discriminatedValue (some fields))
          "#microsoft.graph.androidForWorkImportedPFXCertificateProfile" = true →
        UnmarshalAndroidCertificateProfileBaseImplementation unmarshal (some (.object fields)) =
          match unmarshal.AndroidForWorkImportedPFXCertificateProfile (.object fields) with
          | .ok out => (some (.AndroidForWorkImportedPFXCertificateProfile out), none)
          | .error err =>
            (none,
              some ("unmarshaling into AndroidForWorkImportedPFXCertificateProfile: " ++ err))) ∧
      (EqualFold (discriminatedValue (some fields))
          "#microsoft.graph.androidImportedPFXCertificateProfile" = true →
        UnmarshalAndroidCertificateProfileBaseImplementation unmarshal (some (.object fields)) =
          match unmarshal.AndroidImportedPFXCertificateProfile (.object fields) with
          | .ok out => (some (.AndroidImportedPFXCertificateProfile out), none)
          | .error err =>
            (none, some ("unmarshaling into AndroidImportedPFXCertificateProfile: " ++ err))) ∧
      (EqualFold (discriminatedValue (some fields))
          "#microsoft.graph.androidPkcsCertificateProfile" = true →
        UnmarshalAndroidCertificateProfileBaseImplementation unmarshal (some (.object fields)) =
          match unmarshal.AndroidPkcsCertificateProfile (.object fields) with
          | .ok out => (some (.AndroidPkcsCertificateProfile out), none)
          | .error err =>
            (none, some ("unmarshaling into AndroidPkcsCertificateProfile: " ++ err))) ∧
      (EqualFold (discriminatedValue (some fields))
          "#microsoft.graph.androidScepCertificateProfile" = true →
        UnmarshalAndroidCertificateProfileBaseImplementation unmarshal (some (.object fields)) =
          match unmarshal.AndroidScepCertificateProfile (.object fields) with
          | .ok out => (some (.AndroidScepCertificateProfile out), none)
          | .error err =>
            (none, some ("unmarshaling into AndroidScepCertificateProfile: " ++ err)))) ∧
    (((∃ t ∈ accessReviewApplyActionDiscriminators,
          EqualFold (discriminatedValue (some fields)) t = true) →
        ∀ raw, (UnmarshalAccessReviewApplyActionImplementation unmarshalD unmarshalR
          (some (.object fields))).1 ≠ some (.RawAccessReviewApplyActionImpl raw)) ∧
      ((∃ t ∈ androidCertificateProfileBaseDiscriminators,
          EqualFold (discriminatedValue (some fields)) t = true) →
        ∀ raw, (UnmarshalAndroidCertificateProfileBaseImplementation unmarshal
          (some (.object fields))).1 ≠ some (.RawAndroidCertificateProfileBaseImpl raw))) := by
  have hexcl : ∀ a b : String, EqualFold a b = false →
      EqualFold (discriminatedValue (some fields)) a = true →
      EqualFold (discriminatedValue (some fields)) b = false := by
    intro a b hab ha
    cases hb : EqualFold (discriminatedValue (some fields)) b with
    | false => rfl
    | true =>
      have := EqualFold_trans_left _ a b ha hb
      rw [hab] at this
      exact absurd this (by simp)
  have hD : EqualFold (discriminatedValue (some fields))
        "#microsoft.graph.disableAndDeleteUserApplyAction" = true →
      UnmarshalAccessReviewApplyActionImplementation unmarshalD unmarshalR
          (some (.object fields)) =
        match unmarshalD (.object fields) with
        | .ok out => (some (.DisableAndDeleteUserApplyAction out), none)
        | .error err =>
          (none, some ("unmarshaling into DisableAndDeleteUserApplyAction: " ++ err)) := by
    intro h
    simp only [UnmarshalAccessReviewApplyActionImplementation, json.UnmarshalMap, h, if_true]
    cases unmarshalD (.object fields) <;> rfl
  have hR : EqualFold (discriminatedValue (some fields))
        "#microsoft.graph.removeAccessApplyAction" = true →
      UnmarshalAccessReviewApplyActionImplementation unmarshalD unmarshalR
          (some (.object fields)) =
        match unmarshalR (.object fields) with
        | .ok out => (some (.RemoveAccessApplyAction out), none)
        | .error err => (none, some ("unmarshaling into RemoveAccessApplyAction: " ++ err)) := by
    intro h
    have h1 := hexcl _ "#microsoft.graph.disableAndDeleteUserApplyAction" (by decide) h
    simp only [UnmarshalAccessReviewApplyActionImplementation, json.UnmarshalMap, h, h1,
      if_true, Bool.false_eq_true, if_false]
    cases unmarshalR (.object fields) <;> rfl
  have hF : EqualFold (discriminatedValue (some fields))
        "#microsoft.graph.androidForWorkImportedPFXCertificateProfile" = true →
      UnmarshalAndroidCertificateProfileBaseImplementation unmarshal (some (.object fields)) =
        match unmarshal.AndroidForWorkImportedPFXCertificateProfile (.object fields) with
        | .ok out => (some (.AndroidForWorkImportedPFXCertificateProfile out), none)
        | .error err =>
          (none,
            some ("unmarshaling into AndroidForWorkImportedPFXCertificateProfile: " ++ err)) := by
    intro h
    simp only [UnmarshalAndroidCertificateProfileBaseImplementation, json.UnmarshalMap, h,
      if_true]
    cases unmarshal.AndroidForWorkImportedPFXCertificateProfile (.object fields) <;> rfl
  have hI : EqualFold (discriminatedValue (some fields))
        "#microsoft.graph.androidImportedPFXCertificateProfile" = true →
      UnmarshalAndroidCertificateProfileBaseImplementation unmarshal (some (.object fields)) =
        match unmarshal.AndroidImportedPFXCertificateProfile (.object fields) with
        | .ok out => (some (.AndroidImportedPFXCertificateProfile out), none)
        | .error err =>
          (none, some ("unmarshaling into AndroidImportedPFXCertificateProfile: " ++ err)) := by
    intro h
    have h1 := hexcl _ "#microsoft.graph.androidForWorkImportedPFXCertificateProfile"
      (by decide) h
    simp only [UnmarshalAndroidCertificateProfileBaseImplementation, json.UnmarshalMap, h, h1,
      if_true, Bool.false_eq_true, if_false]
    cases unmarshal.AndroidImportedPFXCertificateProfile (.object fields) <;> rfl
  have hP : EqualFold (discriminatedValue (some fields))
        "#microsoft.graph.androidPkcsCertificateProfile" = true →
      UnmarshalAndroidCertificateProfileBaseImplementation unmarshal (some (.object fields)) =
        match unmarshal.AndroidPkcsCertificateProfile (.object fields) with
        | .ok out => (some (.AndroidPkcsCertificateProfile out), none)
        | .error err =>
          (none, some ("unmarshaling into AndroidPkcsCertificateProfile: " ++ err)) := by
    intro h
    have h1 := hexcl _ "#microsoft.graph.androidForWorkImportedPFXCertificateProfile"
      (by decide) h
    have h2 := hexcl _ "#microsoft.graph.androidImportedPFXCertificateProfile" (by decide) h
    simp only [UnmarshalAndroidCertificateProfileBaseImplementation, json.UnmarshalMap, h, h1,
      h2, if_true, Bool.false_eq_true, if_false]
    cases unmarshal.AndroidPkcsCertificateProfile (.object fields) <;> rfl
  have hS : EqualFold (discriminatedValue (some fields))
        "#microsoft.graph.androidScepCertificateProfile" = true →
      UnmarshalAndroidCertificateProfileBaseImplementation unmarshal (some (.object fields)) =
        match unmarshal.AndroidScepCertificateProfile (.object fields) with
        | .ok out => (some (.AndroidScepCertificateProfile out), none)
        | .error err =>
          (none, some ("unmarshaling into AndroidScepCertificateProfile: " ++ err)) := by
    intro h
    have h1 := hexcl _ "#microsoft.graph.androidForWorkImportedPFXCertificateProfile"
      (by decide) h
    have h2 := hexcl _ "#microsoft.graph.androidImportedPFXCertificateProfile" (by decide) h
    have h3 := hexcl _ "#microsoft.graph.androidPkcsCertificateProfile" (by decide) h
    simp only [UnmarshalAndroidCertificateProfileBaseImplementation, json.UnmarshalMap, h, h1,
      h2, h3, if_true, Bool.false_eq_true, if_false]
    cases unmarshal.AndroidScepCertificateProfile (.object fields) <;> rfl
  refine ⟨⟨rfl, rfl⟩, ⟨?_, ?_⟩, ?_, ?_, ⟨hD, hR⟩, ⟨hF, hI, hP, hS⟩, ?_, ?_⟩
  · intro s h
    simp [discriminatedValue, h, fmt.SprintV]
  · intro h
    simp [discriminatedValue, h]
  · intro hno
    have h1 := hno "#microsoft.graph.disableAndDeleteUserApplyAction"
      (by simp [accessReviewApplyActionDiscriminators])
    have h2 := hno "#microsoft.graph.removeAccessApplyAction"
      (by simp [accessReviewApplyActionDiscriminators])
    constructor
    · intro parent hp
      simp only [UnmarshalAccessReviewApplyActionImplementation, json.UnmarshalMap, h1, h2,
        Bool.false_eq_true, if_false, hp]
    · intro err hp
      simp only [UnmarshalAccessReviewApplyActionImplementation, json.UnmarshalMap, h1, h2,
        Bool.false_eq_true, if_false, hp]
  · intro hno
    have h1 := hno "#microsoft.graph.androidForWorkImportedPFXCertificateProfile"
      (by simp [androidCertificateProfileBaseDiscriminators])
    have h2 := hno "#microsoft.graph.androidImportedPFXCertificateProfile"
      (by simp [androidCertificateProfileBaseDiscriminators])
    have h3 := hno "#microsoft.graph.androidPkcsCertificateProfile"
      (by simp [androidCertificateProfileBaseDiscriminators])
    have h4 := hno "#microsoft.graph.androidScepCertificateProfile"
      (by simp [androidCertificateProfileBaseDiscriminators])
    constructor
    · intro parent hp
      simp only [UnmarshalAndroidCertificateProfileBaseImplementation, json.UnmarshalMap, h1,
        h2, h3, h4, Bool.false_eq_true, if_false, hp]
    · intro err hp
      simp only [UnmarshalAndroidCertificateProfileBaseImplementation, json.UnmarshalMap, h1,
        h2, h3, h4, Bool.false_eq_true, if_false, hp]
  · rintro ⟨t, ht, hf⟩ raw
    simp only [accessReviewApplyActionDiscriminators, List.mem_cons, List.mem_singleton,
      List.not_mem_nil, or_false] at ht
    rcases ht with h | h
    · subst h
      rw [hD hf]
      cases unmarshalD (.object fields) <;> simp
    · subst h
      rw [hR hf]
      cases unmarshalR (.object fields) <;> simp
  · rintro ⟨t, ht, hf⟩ raw
    simp only [androidCertificateProfileBaseDiscriminators, List.mem_cons, List.mem_singleton,
      List.not_mem_nil, or_false] at ht
    rcases ht with h | h | h | h
    · subst h
      rw [hF hf]
      cases unmarshal.AndroidForWorkImportedPFXCertificateProfile (.object fields) <;> simp
    · subst h
      rw [hI hf]
      cases unmarshal.AndroidImportedPFXCertificateProfile (.object fields) <;> simp
    · subst h
      rw [hP hf]
      cases unmarshal.AndroidPkcsCertificateProfile (.object fields) <;> simp
    · subst h
      rw [hS hf]
      cases unmarshal.AndroidScepCertificateProfile (.object fields) <;> simp

/-- Witness of C17 (amended): an object with an unknown discriminator comes back as the Raw
variant with all its fields; an object whose discriminator is a known one in another letter case
comes back as the concrete struct. -/
theorem unmarshal_discriminated_implementation_witness :
    UnmarshalAccessReviewApplyActionImplementation keepText keepText (some unknownTypeObject) =
      (some (.RawAccessReviewApplyActionImpl
        ⟨⟨none, some "#microsoft.graph.somethingNew", false⟩, "#microsoft.graph.somethingNew",
          some [("@odata.type", .string "#microsoft.graph.somethingNew"),
            ("extra", .bool true)]⟩), none) ∧
    UnmarshalAccessReviewApplyActionImplementation keepText keepText (some removeAccessObject) =
      (some (.RemoveAccessApplyAction removeAccessObject), none) ∧
    UnmarshalAndroidCertificateProfileBaseImplementation keepAndroidText
        (some unknownTypeObject) =
      (some (.RawAndroidCertificateProfileBaseImpl
        ⟨unknownTypeObject, "#microsoft.graph.somethingNew",
          some [("@odata.type", .string "#microsoft.graph.somethingNew"),
            ("extra", .bool true)]⟩), none) :=
  ⟨((unmarshal_discriminated_implementation keepText keepText keepAndroidText
      [("@odata.type", .string "#microsoft.graph.somethingNew"), ("extra", .bool true)]).2.2.1
      (by decide)).1 ⟨none, some "#microsoft.graph.somethingNew", false⟩ rfl,
    (unmarshal_discriminated_implementation keepText keepText keepAndroidText
      [("@odata.type", .string "#Microsoft.Graph.RemoveAccessApplyAction")]).2.2.2.2.1.2
      (by decide),
    ((unmarshal_discriminated_implementation keepText keepText keepAndroidText
      [("@odata.type", .string "#microsoft.graph.somethingNew"), ("extra", .bool true)]).2.2.2.1
      (by decide)).1 unknownTypeObject rfl⟩

/-! ## The probe of password Create and an absent model -/

/-- C21: when the fetch of the parent returns no error and no model, the probe of password Create
does not return `Waiting` or `Done`: it panics on the nil model (it reads
`resp.Model.PasswordCredentials` without a guard), and the wait that runs it panics with it; the
Delete probe returns the error `model was nil` on the same response.  With a model the probe
returns `Waiting` or `Done` and no error. -/
theorem create_probe_absent_model {σ : Type} (client : ApplicationClient σ)
    (applicationId : ApplicationId) (id : CredentialId) (w w1 : World σ)
    (resp : GetApplicationOperationResponse)
    (hget : client.callGetApplication applicationId w = ((resp, none), w1)) :
    (resp.Model = none →
      applicationPasswordResourceCreate.Refresh client applicationId id w =
        (.panicked "invalid memory address or nil pointer dereference", w1) ∧
      (∀ ctx timeout, ctx.Deadline = some (timeout + 1) →
        (applicationPasswordResourceCreate.conf client ctx applicationId id).WaitForStateContext
          ctx w = (.panicked "invalid memory address or nil pointer dereference", w1)) ∧
      applicationPasswordResourceDelete.probe client applicationId id w =
        ((none, some "model was nil"), w1)) ∧
    (∀ model, resp.Model = some model →
      ∃ res state, applicationPasswordResourceCreate.Refresh client applicationId id w =
          (.ret (res, state, none), w1) ∧ (state = "Waiting" ∨ state = "Done")) := by
  constructor
  · intro hm
    have hprobe : applicationPasswordResourceCreate.Refresh client applicationId id w =
        (.panicked "invalid memory address or nil pointer dereference", w1) := by
      simp [applicationPasswordResourceCreate.Refresh, hget, hm]
    refine ⟨hprobe, ?_, ?_⟩
    · intro ctx timeout hd
      simp [StateChangeConf.WaitForStateContext, applicationPasswordResourceCreate.conf, hd,
        waitLoop, hprobe]
    · simp [applicationPasswordResourceDelete.probe, hget, hm]
  · intro model hm
    cases hcoll : model.PasswordCredentials with
    | none =>
      exact ⟨none, "Waiting", by
        simp [applicationPasswordResourceCreate.Refresh, hget, hm, hcoll], Or.inl rfl⟩
    | some creds =>
      cases hf : creds.find? (fun cred => EqualFold cred.KeyId.GetOrZero id.KeyId) with
      | none =>
        exact ⟨none, "Waiting", by
          simp [applicationPasswordResourceCreate.Refresh, hget, hm, hcoll, hf], Or.inl rfl⟩
      | some cred =>
        exact ⟨some cred, "Done", by
          simp [applicationPasswordResourceCreate.Refresh, hget, hm, hcoll, hf], Or.inr rfl⟩

/-- Witness of C21: the service that answers the fetches after the first with no error and no
model: the probe panics on its second fetch, the Delete probe returns an error there, and Create
as a whole panics once its wait has started. -/
theorem create_probe_absent_model_witness :
    applicationPasswordResourceCreate.Refresh nilModelApplicationClient ⟨sampleUUID⟩
        samplePasswordId ⟨1, []⟩ =
      (.panicked "invalid memory address or nil pointer dereference",
        ⟨2, [Event.GetApplication ⟨sampleUUID⟩]⟩) ∧
    applicationPasswordResourceDelete.probe nilModelApplicationClient ⟨sampleUUID⟩
        samplePasswordId ⟨1, []⟩ =
      ((none, some "model was nil"), ⟨2, [Event.GetApplication ⟨sampleUUID⟩]⟩) ∧
    (applicationPasswordResourceCreate nilModelApplicationClient sampleGenerator
        StateChangeConf.WaitForStateContext ⟨some 10⟩ sampleCreateData startWorld).1 =
      .panicked "invalid memory address or nil pointer dereference" :=
  ⟨((create_probe_absent_model nilModelApplicationClient ⟨sampleUUID⟩ samplePasswordId ⟨1, []⟩
      ⟨2, [Event.GetApplication ⟨sampleUUID⟩]⟩ ⟨some 200, none⟩ rfl).1 rfl).1,
    ((create_probe_absent_model nilModelApplicationClient ⟨sampleUUID⟩ samplePasswordId ⟨1, []⟩
      ⟨2, [Event.GetApplication ⟨sampleUUID⟩]⟩ ⟨some 200, none⟩ rfl).1 rfl).2.2,
    by decide⟩

/-! ## Role-assignment Create: the identity -/

/-- C22: in role-assignment Create, after a create call that returned no error: a response with
no model or no id yields the error `returned role assignment ID was nil` with the local state,
and so the identity, as at entry; a response with an id sets the identity to that id before the
wait, so that without a deadline, and with a wait that fails (or panics), Create returns the
error while the identity is the server-returned id; in these cases the events added to the trace
are the create call and, when the wait ran, its start and fetches of the assignment: no delete
call. -/
theorem role_assignment_create_identity {σ : Type} (client : DirectoryRoleAssignmentClient σ)
    (wait : Waiter σ String) (ctx : Context) (d : ResourceData) (w w1 : World σ)
    (resp : DirectoryRoleAssignmentOperationResponse)
    (hwait : Waiter.ProbeOnly wait)
    (hcreate : client.callCreate (directoryRoleAssignmentResourceCreate.properties d) w =
      ((resp, none), w1)) :
    w1.trace = w.trace ++
      [Event.CreateDirectoryRoleAssignment (directoryRoleAssignmentResourceCreate.properties d)] ∧
    ((resp.Model = none ∨ ∃ assignment, resp.Model = some assignment ∧ assignment.Id = none) →
      directoryRoleAssignmentResourceCreate client wait ctx d w =
        (.ret (tf.ErrorDiagF (some "returned role assignment ID was nil") "API Error"), d, w1) ∧
      (tf.ErrorDiagF (some "returned role assignment ID was nil") "API Error").HasError = true) ∧
    (∀ assignment assignmentId, resp.Model = some assignment → assignment.Id = some assignmentId →
      (d.SetId assignmentId).Id = assignmentId ∧
      (ctx.Deadline = none →
        directoryRoleAssignmentResourceCreate client wait ctx d w =
          (.ret (tf.ErrorDiagF (some "context has no deadline")
            ("Waiting for directory role " ++ quote (d.Get "role_id") ++
              " assignment to principal " ++ quote (d.Get "principal_object_id") ++
              " to take effect")), d.SetId assignmentId, w1) ∧
        (tf.ErrorDiagF (some "context has no deadline")
            ("Waiting for directory role " ++ quote (d.Get "role_id") ++
              " assignment to principal " ++ quote (d.Get "principal_object_id") ++
              " to take effect")).HasError = true) ∧
      (∀ timeout out w2, ctx.Deadline = some timeout →
        wait (directoryRoleAssignmentResourceCreate.conf client timeout
            (NewRoleManagementDirectoryRoleAssignmentID assignmentId)) ctx
            (w1.log Event.WaitStarted) = (out, w2) →
        (∀ res err, out = .ret (res, some err) →
          directoryRoleAssignmentResourceCreate client wait ctx d w =
            (.ret (tf.ErrorDiagF (some err)
              ("Waiting for role assignment for " ++ quote (d.Get "principal_object_id") ++
                " to reflect in directory role " ++ quote (d.Get "role_id"))),
              d.SetId assignmentId, w2) ∧
          (tf.ErrorDiagF (some err)
              ("Waiting for role assignment for " ++ quote (d.Get "principal_object_id") ++
                " to reflect in directory role " ++ quote (d.Get "role_id"))).HasError = true) ∧
        (∀ msg, out = .panicked msg →
          directoryRoleAssignmentResourceCreate client wait ctx d w =
            (.panicked msg, d.SetId assignmentId, w2)) ∧
        (∃ n, w2.trace = w.trace ++
            (Event.CreateDirectoryRoleAssignment
                (directoryRoleAssignmentResourceCreate.properties d) ::
              Event.WaitStarted :: List.replicate n (Event.GetDirectoryRoleAssignment
                (NewRoleManagementDirectoryRoleAssignmentID assignmentId))) ∧
          ∀ id, Event.DeleteDirectoryRoleAssignment id ∉
            (Event.CreateDirectoryRoleAssignment
                (directoryRoleAssignmentResourceCreate.properties d) ::
              Event.WaitStarted :: List.replicate n (Event.GetDirectoryRoleAssignment
                (NewRoleManagementDirectoryRoleAssignmentID assignmentId)))))) := by
  have ht1 := callCreate_trace _ _ _ _ _ hcreate
  refine ⟨ht1, ?_, ?_⟩
  · intro hno
    have hm : (resp.Model.bind fun assignment => assignment.Id) = none := by
      rcases hno with h | ⟨assignment, h, hid⟩
      · simp [h]
      · simp [h, hid]
    refine ⟨?_, rfl⟩
    simp only [directoryRoleAssignmentResourceCreate, hcreate, hm]
  · intro assignment assignmentId hmodel hid
    have hm : (resp.Model.bind fun assignment => assignment.Id) = some assignmentId := by
      simp [hmodel, hid]
    refine ⟨rfl, ?_, ?_⟩
    · intro hd
      refine ⟨?_, rfl⟩
      simp only [directoryRoleAssignmentResourceCreate, hcreate, hm, hd,
        NewRoleManagementDirectoryRoleAssignmentID]
    · intro timeout out w2 hd hw
      refine ⟨?_, ?_, ?_⟩
      · intro res err hout
        subst hout
        refine ⟨?_, rfl⟩
        simp only [NewRoleManagementDirectoryRoleAssignmentID] at hw
        simp only [directoryRoleAssignmentResourceCreate, hcreate, hm, hd, hw,
          NewRoleManagementDirectoryRoleAssignmentID]
      · intro msg hout
        subst hout
        simp only [NewRoleManagementDirectoryRoleAssignmentID] at hw
        simp only [directoryRoleAssignmentResourceCreate, hcreate, hm, hd, hw,
          NewRoleManagementDirectoryRoleAssignmentID]
      · obtain ⟨n, hn⟩ := hwait (directoryRoleAssignmentResourceCreate.conf client timeout
          (NewRoleManagementDirectoryRoleAssignmentID assignmentId)) ctx
          (Event.GetDirectoryRoleAssignment
            (NewRoleManagementDirectoryRoleAssignmentID assignmentId))
          (fun w0 => role_Refresh_trace client _ w0) (w1.log Event.WaitStarted)
        rw [hw] at hn
        simp only [World.log] at hn
        refine ⟨n, by rw [hn, ht1]; simp, ?_⟩
        intro id hmem
        rcases List.mem_cons.mp hmem with h | h
        · cases h
        · rcases List.mem_cons.mp h with h | h
          · cases h
          · have := List.eq_of_mem_replicate h
            cases this

/-- Witness of C22: a create response without an id leaves the identity unset; with the counting
service, whose create call returns the sample id, Create without a deadline and Create whose wait
runs into its deadline both fail with the identity set to the sample id, and the trace holds no
delete call. -/
theorem role_assignment_create_identity_witness :
    (directoryRoleAssignmentResourceCreate noIdRoleAssignmentClient
        StateChangeConf.WaitForStateContext ⟨some 10⟩ sampleRoleData startWorld).2.1.Id = "" ∧
    (directoryRoleAssignmentResourceCreate (delayedRoleAssignmentClient 1)
        StateChangeConf.WaitForStateContext ⟨none⟩ sampleRoleData startWorld).2.1.Id =
      sampleUUID ∧
    (directoryRoleAssignmentResourceCreate (delayedRoleAssignmentClient 5)
        StateChangeConf.WaitForStateContext ⟨some 2⟩ sampleRoleData startWorld).2.1.Id =
      sampleUUID ∧
    (directoryRoleAssignmentResourceCreate (delayedRoleAssignmentClient 5)
        StateChangeConf.WaitForStateContext ⟨some 2⟩ sampleRoleData startWorld).1 =
      .ret (tf.ErrorDiagF (some "timeout while waiting for state to become Done")
        ("Waiting for role assignment for " ++ quote "11111111-1111-1111-1111-111111111111" ++
          " to reflect in directory role " ++ quote "00000000-0000-0000-0000-000000000000")) ∧
    (directoryRoleAssignmentResourceCreate (delayedRoleAssignmentClient 5)
        StateChangeConf.WaitForStateContext ⟨some 2⟩ sampleRoleData startWorld).2.2.trace =
      [Event.CreateDirectoryRoleAssignment
          (directoryRoleAssignmentResourceCreate.properties sampleRoleData),
        Event.WaitStarted,
        Event.GetDirectoryRoleAssignment (NewRoleManagementDirectoryRoleAssignmentID sampleUUID),
        Event.GetDirectoryRoleAssignment
          (NewRoleManagementDirectoryRoleAssignmentID sampleUUID)] := by
  have hnoid := (role_assignment_create_identity noIdRoleAssignmentClient
    StateChangeConf.WaitForStateContext ⟨some 10⟩ sampleRoleData startWorld
    ⟨0, [Event.CreateDirectoryRoleAssignment
      (directoryRoleAssignmentResourceCreate.properties sampleRoleData)]⟩
    ⟨some 201, some (directoryRoleAssignmentResourceCreate.properties sampleRoleData)⟩
    WaitForStateContext_ProbeOnly rfl).2.1
    (Or.inr ⟨directoryRoleAssignmentResourceCreate.properties sampleRoleData, rfl, by decide⟩)
  have hset := (role_assignment_create_identity (delayedRoleAssignmentClient 1)
    StateChangeConf.WaitForStateContext ⟨none⟩ sampleRoleData startWorld
    ⟨0, [Event.CreateDirectoryRoleAssignment
      (directoryRoleAssignmentResourceCreate.properties sampleRoleData)]⟩
    ⟨some 201, some { directoryRoleAssignmentResourceCreate.properties sampleRoleData with
      Id := some sampleUUID }⟩
    WaitForStateContext_ProbeOnly rfl).2.2 _ sampleUUID rfl rfl
  have hwaited := (role_assignment_create_identity (delayedRoleAssignmentClient 5)
    StateChangeConf.WaitForStateContext ⟨some 2⟩ sampleRoleData startWorld
    ⟨0, [Event.CreateDirectoryRoleAssignment
      (directoryRoleAssignmentResourceCreate.properties sampleRoleData)]⟩
    ⟨some 201, some { directoryRoleAssignmentResourceCreate.properties sampleRoleData with
      Id := some sampleUUID }⟩
    WaitForStateContext_ProbeOnly rfl).2.2 _ sampleUUID rfl rfl
  have hfail := (hwaited.2.2 2 (.ret (none, some "timeout while waiting for state to become Done"))
    ⟨2, [Event.CreateDirectoryRoleAssignment
        (directoryRoleAssignmentResourceCreate.properties sampleRoleData),
      Event.WaitStarted,
      Event.GetDirectoryRoleAssignment (NewRoleManagementDirectoryRoleAssignmentID sampleUUID),
      Event.GetDirectoryRoleAssignment (NewRoleManagementDirectoryRoleAssignmentID sampleUUID)]⟩
    rfl rfl).1 none _ rfl
  refine ⟨?_, ?_, ?_, ?_, ?_⟩
  · rw [hnoid.1]
    rfl
  · rw [(hset.2.1 rfl).1]
    rfl
  · rw [hfail.1]
    rfl
  · rw [hfail.1]
    rfl
  · rw [hfail.1]

end AzureAD
